import Mathlib

/-!
# MOTD passthrough and control-plane handlers of the Gate proxy

A shallow embedding of `pkg/edition/java/proxy/motd_passthrough.go`
(the connection-refused classifier, the backend selector, the upstream dialog
and the passthrough orchestrator with its TTL cache) and of the handlers of
`pkg/gate/api_handlers.go`: applying and persisting a configuration, reading
and editing the Lite routes, and streaming events to subscribers.

Go values are embedded as follows.

* `error` values are trees of the shapes the package builds or receives:
  a `syscall.Errno`, a leaf carrying a message, a wrapper with a message and
  an `Unwrap` target, and `errs.VerbosityError`. A nil `error` is `none`.
* Text is `String`; case folding and substring search work on `String.data`.
* `map[string]ServerConfig` is an association list read through `List.lookup`;
  a `range` over it receives the visiting order as an argument, because Go
  leaves that order unspecified.
* Time is an integer count of nanoseconds.
* What a handler shares with the rest of the process, the configuration
  behind `h.cfg`, the mutex and the calls that leave the handler, is a state
  that every handler takes and returns. A slice is a `List`; where two
  variables hold the same slice, an assignment to an element is made to
  both.
* A buffered channel is its capacity and the list of the events it holds.
-/

namespace Gate

/-! ## Platform and library facts the package relies on -/

/-- Facts of the Go runtime that the package reads but does not define:
the numeric value of `syscall.ECONNREFUSED`, the message table behind
`syscall.Errno.Error`, and the rune mapping of `unicode.ToLower` that
`strings.ToLower` applies to every rune. -/
structure Runtime where
  ECONNREFUSED : Nat
  errnoText : Nat → String
  toLowerRune : Char → Char

/-- The values on linux/amd64, restricted to what the examples use:
`ECONNREFUSED = 0x6f`, `ETIMEDOUT = 0x6e`, ASCII case folding. -/
def linux : Runtime where
  ECONNREFUSED := 111
  errnoText := fun n =>
    if n = 111 then "connection refused"
    else if n = 110 then "connection timed out"
    else "errno"
  toLowerRune := Char.toLower

/-! ## Errors -/

/-- A non-nil Go `error` value. -/
inductive GoError where
  /-- A `syscall.Errno`. -/
  | errno (code : Nat)
  /-- An error without `Unwrap`, such as `errors.New(text)`. -/
  | leaf (text : String)
  /-- An error with `Error() = text` and `Unwrap() = inner`, such as
  `fmt.Errorf` with `%w` (where `text` is the formatted message). -/
  | wrap (text : String) (inner : GoError)
  /-- An `*errs.VerbosityError{Verbosity, Err}`. -/
  | verbosity (level : Int) (inner : GoError)
  deriving DecidableEq, Repr

namespace GoError

/-- The method `Error()`. `errs.VerbosityError` is declared in `pkg/util/errs`,
outside the sources at hand; it is taken to report the message of the error it
carries and to unwrap to it. -/
def Error (rt : Runtime) : GoError → String
  | errno code => rt.errnoText code
  | leaf text => text
  | wrap text _ => text
  | verbosity _ inner => inner.Error rt

/-- The method `Unwrap()`, nil for an error that has none. -/
def Unwrap : GoError → Option GoError
  | errno _ => none
  | leaf _ => none
  | wrap _ inner => some inner
  | verbosity _ inner => some inner

/-- The errors reached from `e` by repeated `Unwrap`, `e` first. -/
def chain : GoError → List GoError
  | errno code => [errno code]
  | leaf text => [leaf text]
  | wrap text inner => wrap text inner :: inner.chain
  | verbosity level inner => verbosity level inner :: inner.chain

end GoError

/-- The loop of `errors.Is(err, target)` for a non-nil `err` and a comparable
`target`: compare, then follow `Unwrap` until it yields nil. None of the
modelled error types has an `Is` method that accepts an `Errno` target. -/
def errorsIs : GoError → GoError → Bool
  | GoError.errno code, target => decide (GoError.errno code = target)
  | GoError.leaf text, target => decide (GoError.leaf text = target)
  | GoError.wrap text inner, target =>
      decide (GoError.wrap text inner = target) || errorsIs inner target
  | GoError.verbosity level inner, target =>
      decide (GoError.verbosity level inner = target) || errorsIs inner target

/-- The function `strings.ToLower`, rune by rune. -/
def stringsToLower (rt : Runtime) (s : String) : String :=
  String.mk (s.data.map rt.toLowerRune)

/-- Scan of `strings.Contains` over the runes of the haystack: is `sub` a
prefix of some suffix of `s`. -/
def containsAux (sub : List Char) : List Char → Bool
  | [] => sub.isEmpty
  | c :: cs => sub.isPrefixOf (c :: cs) || containsAux sub cs

/-- The function `strings.Contains(s, substr)`. -/
def stringsContains (s substr : String) : Bool :=
  containsAux substr.data s.data

/-- The function `IsConnectionRefused` (motd_passthrough.go:50-53). -/
def IsConnectionRefused (rt : Runtime) (err : Option GoError) : Bool :=
  match err with
  | none => false
  | some e =>
      errorsIs e (GoError.errno rt.ECONNREFUSED) ||
        stringsContains (stringsToLower rt (e.Error rt)) "connection refused"

/-- The function `getErrorVerbosity` (motd_passthrough.go:248-253). -/
def getErrorVerbosity (rt : Runtime) (err : Option GoError) : Int :=
  if IsConnectionRefused rt err then 1 else 0

/-! ## Configuration -/

/-- The fields of `config.ServerConfig` the package reads. `CachePingTTL` is a
`configutil.Duration`, a signed count of nanoseconds. -/
structure ServerConfig where
  Address : String
  PassthroughMOTD : Bool
  CachePingTTL : Int
  deriving DecidableEq, Repr

/-- Modelled from the spec: `ServerConfig.CachePingEnabled` is declared in
`pkg/edition/java/config`, of which only the test is at hand. The spec gives
"cache-enabled := passthrough-motd ∧ cache-ping-ttl > 0". -/
def ServerConfig.CachePingEnabled (sc : ServerConfig) : Bool :=
  sc.PassthroughMOTD && decide (sc.CachePingTTL > 0)

/-- Modelled from the spec: `ServerConfig.GetCachePingTTL` is declared in
`pkg/edition/java/config` as well. The spec stores an outcome "with
TTL = B.cache-ping-ttl". -/
def ServerConfig.GetCachePingTTL (sc : ServerConfig) : Int :=
  sc.CachePingTTL

/-- The fields of `config.Config` the package reads. `Servers` holds the
entries of the Go map; a key is looked up with `List.lookup`. -/
structure Config where
  Servers : List (String × ServerConfig)
  Try : List String
  ConnectionTimeout : Int
  ReadTimeout : Int
  deriving DecidableEq, Repr

/-- A Go map holds one entry per key. -/
def Config.WellFormed (cfg : Config) : Prop :=
  (cfg.Servers.map Prod.fst).Nodup

instance (cfg : Config) : Decidable cfg.WellFormed := by
  unfold Config.WellFormed; infer_instance

/-- An order in which one `range cfg.Servers` may visit the entries: every
entry once, in any order. -/
def RangeOrder (cfg : Config) (order : List (String × ServerConfig)) : Prop :=
  order.Perm cfg.Servers

instance (cfg : Config) (order : List (String × ServerConfig)) :
    Decidable (RangeOrder cfg order) := by
  unfold RangeOrder; infer_instance

/-! ## Backend selector -/

/-- First loop of `findPassthroughServer` (motd_passthrough.go:125-129): the
Try list in order, with the map lookup `cfg.Servers[serverName]`. -/
def findInTry (servers : List (String × ServerConfig)) :
    List String → Option (ServerConfig × String)
  | [] => none
  | serverName :: rest =>
      match servers.lookup serverName with
      | some serverConfig =>
          if serverConfig.PassthroughMOTD then some (serverConfig, serverName)
          else findInTry servers rest
      | none => findInTry servers rest

/-- Second loop of `findPassthroughServer` (motd_passthrough.go:132-136): the
entries of the map in the order the `range` visits them. -/
def findInRange : List (String × ServerConfig) → Option (ServerConfig × String)
  | [] => none
  | (serverName, serverConfig) :: rest =>
      if serverConfig.PassthroughMOTD then some (serverConfig, serverName)
      else findInRange rest

/-- The method `findPassthroughServer` (motd_passthrough.go:121-139). The result pair is
`(*config.ServerConfig, string)`; `order` is the visiting order of the `range`
over the map. -/
def findPassthroughServer (cfg : Config) (order : List (String × ServerConfig)) :
    Option ServerConfig × String :=
  match findInTry cfg.Servers cfg.Try with
  | some (serverConfig, serverName) => (some serverConfig, serverName)
  | none =>
      match findInRange order with
      | some (serverConfig, serverName) => (some serverConfig, serverName)
      | none => (none, "")

/-! ## Packets and the upstream dialog -/

/-- A `proto.Protocol`, the client's protocol version. -/
abbrev Protocol := Int

/-- A `packet.StatusResponse`, the status JSON of a backend. -/
structure StatusResponse where
  Status : String
  deriving DecidableEq, Repr

/-- A `packet.Handshake`. -/
structure Handshake where
  ProtocolVersion : Int
  ServerAddress : String
  Port : Int
  NextStatus : Int
  deriving DecidableEq, Repr

/-- A decoded client-bound packet: a status response or any other packet. -/
inductive Packet where
  | statusResponse (r : StatusResponse)
  | other (id : Nat)
  deriving DecidableEq, Repr

/-- A parsed `net.Addr`: what `addr.String()`, `netutil.Host(addr)` and
`netutil.Port(addr)` (an unsigned 16-bit value) return for it. -/
structure Addr where
  text : String
  host : String
  port : Nat
  deriving DecidableEq, Repr

/-- What the network and `pkg/util/netutil` answer during one upstream
dialog.

* `parse` is `netutil.Parse(serverAddr, "tcp")`.
* `dial` is the error of `net.DialTimeout("tcp", addr, timeout)`.
* `writeHandshake` and `writeStatusRequest` are the errors of the two
  `WritePacket` calls.
* `decode` lists the results of the successive `dec.Decode()` calls; after
  the last one the next `Decode` blocks for good.
* `elapsed` is the time the dialog takes when it comes to an end. -/
structure Backend where
  parse : String → Except GoError Addr
  dial : String → Int → Option GoError
  writeHandshake : Handshake → Option GoError
  writeStatusRequest : Option GoError
  decode : List (Except GoError Packet)
  elapsed : Nat

/-! ## The MOTD cache (`ttlcache.Cache[motdCacheKey, *motdCacheResult]`) -/

/-- The `motdCacheKey` struct (motd_passthrough.go:34-37). -/
structure motdCacheKey where
  serverName : String
  protocol : Protocol
  deriving DecidableEq, Repr

/-- The `motdCacheResult` struct (motd_passthrough.go:39-42). -/
structure motdCacheResult where
  res : Option StatusResponse
  err : Option GoError
  deriving DecidableEq, Repr

/-- A `ttlcache.Item`: key, value, the TTL it was stored with and the instant
it expires. -/
structure Item where
  key : motdCacheKey
  value : motdCacheResult
  ttl : Int
  expiresAt : Int
  deriving DecidableEq, Repr

/-- An item with a positive TTL is expired once its expiry instant lies
before the current time; an item with `ttl ≤ 0` never expires. -/
def Item.isExpired (it : Item) (now : Int) : Bool :=
  decide (it.ttl > 0) && decide (it.expiresAt < now)

/-- Reset of the expiry instant, as done on insertion and on a hit. -/
def Item.touch (it : Item) (now : Int) : Item :=
  if it.ttl ≤ 0 then { it with expiresAt := 0 }
  else { it with expiresAt := now + it.ttl }

/-- The item stored under `key`, expired or not. -/
def cacheFind (items : List Item) (key : motdCacheKey) : Option Item :=
  items.find? (fun it => decide (it.key = key))

/-- Put `it` in place of whatever is stored under its key. -/
def cacheStore (items : List Item) (it : Item) : List Item :=
  it :: items.filter (fun x => decide (x.key ≠ it.key))

/-- The lookup inside `Cache.Get`: nil for a missing or expired item; a hit
on an item with a positive TTL extends its expiry (touch on hit, which the
package leaves enabled). -/
def cacheLookup (now : Int) (items : List Item) (key : motdCacheKey) :
    Option Item × List Item :=
  match cacheFind items key with
  | none => (none, items)
  | some it =>
      if it.isExpired now then (none, items)
      else if it.ttl > 0 then (some (it.touch now), cacheStore items (it.touch now))
      else (some it, items)

/-- An observable action of the package on its surroundings. -/
inductive Event where
  /-- A call of `motdPassthroughCache.Get`. -/
  | cacheGet (key : motdCacheKey)
  /-- A call of `Cache.Set`. -/
  | cacheSet (key : motdCacheKey)
  /-- A run of the `load` closure. -/
  | load (serverName : String) (protocol : Protocol)
  /-- A call of `net.DialTimeout`. -/
  | dial (address : String) (timeout : Int)
  /-- A handshake packet written to a backend. -/
  | handshake (h : Handshake)
  /-- A status request written to a backend. -/
  | statusRequest
  deriving DecidableEq, Repr

/-- A `Cache.Set` that a load still running after its caller timed out will
perform at instant `due`. -/
structure PendingSet where
  due : Int
  key : motdCacheKey
  value : motdCacheResult
  ttl : Int
  deriving DecidableEq, Repr

/-- The process state around a call: the clock, the items of
`motdPassthroughCache`, the actions taken so far, and the stores still owed
by loads that outlived their caller. -/
structure World where
  now : Int
  cache : List Item
  trace : List Event
  pending : List PendingSet
  deriving DecidableEq, Repr

/-- Record an action. -/
def World.emit (w : World) (e : Event) : World :=
  { w with trace := w.trace ++ [e] }

/-- The method `Cache.Set(key, value, ttl)`: the new item replaces any item under the
key and expires `ttl` after the current time. The cache is built without a
default TTL, so the given `ttl` is kept as it is. -/
def World.Set (w : World) (key : motdCacheKey) (value : motdCacheResult) (ttl : Int) :
    Item × World :=
  let it := Item.touch { key := key, value := value, ttl := ttl, expiresAt := 0 } w.now
  (it, { (w.emit (Event.cacheSet key)) with cache := cacheStore w.cache it })

/-- A `ttlcache.Loader`: produces the item for a missing key, or never
returns (`none`). -/
abbrev Loader := motdCacheKey → World → Option Item × World

/-- The method `Cache.Get(key, opts...)`: a fresh item is returned; otherwise the loader,
if one is given, is asked, and without a loader the answer is nil. -/
def World.Get (w : World) (key : motdCacheKey) (loader : Option Loader) :
    Option Item × World :=
  match cacheLookup w.now w.cache key with
  | (some it, items) => (some it, { (w.emit (Event.cacheGet key)) with cache := items })
  | (none, _) =>
      match loader with
      | some l => l key (w.emit (Event.cacheGet key))
      | none => (none, w.emit (Event.cacheGet key))

/-- The function `ResetMOTDPassthroughCache` (motd_passthrough.go:45-47). -/
def ResetMOTDPassthroughCache (w : World) : World :=
  { w with cache := [] }

/-- Let the clock reach `t` and perform the stores that fell due. -/
def World.advance (w : World) (t : Int) : World :=
  let due := w.pending.filter (fun p => decide (p.due ≤ t))
  let later := w.pending.filter (fun p => decide (¬ p.due ≤ t))
  let w1 := due.foldl
    (fun (acc : World) p => (World.Set { acc with now := p.due } p.key p.value p.ttl).2) w
  { w1 with now := t, pending := later }

/-- A `singleflight.Group`: the keys with a call in flight. -/
structure SingleflightGroup where
  inflight : List String
  deriving DecidableEq, Repr

/-- The package-level `motdSingleFlight`. -/
def motdSingleFlight : SingleflightGroup := ⟨[]⟩

/-- The function `withMOTDLoader` (motd_passthrough.go:257-265): the loader calls `load`
and stores what it returns with `c.Set(key, v, ttl)`. The `group` argument is
not referred to in the body. -/
def withMOTDLoader (_group : SingleflightGroup) (ttl : Int)
    (load : motdCacheKey → World → Option motdCacheResult × World) : Loader :=
  fun key w =>
    match load key w with
    | (some v, w1) =>
        let r := World.Set w1 key v ttl
        (some r.1, r.2)
    | (none, w1) => (none, w1)

/-! ## Upstream dialog -/

/-- The call `fmt.Errorf(prefix ++ ": %w", err)`: the message ends in the message of
the wrapped error, which `Unwrap` gives back. -/
def errorf (rt : Runtime) (pre : String) (err : GoError) : GoError :=
  GoError.wrap (pre ++ ": " ++ err.Error rt) err

/-- The method `sendHandshakeToBackend` (motd_passthrough.go:218-243): the error of
writing the handshake packet. -/
def sendHandshakeToBackend (net : Backend) (handshake : Handshake) (w : World) :
    Option GoError × World :=
  (net.writeHandshake handshake, w.emit (Event.handshake handshake))

/-- The handshake packet that `dialPassthroughServer` builds for a status
connection (motd_passthrough.go:164-175): host and port of the parsed address,
port 0 replaced by the default Minecraft port. -/
def statusHandshake (addr : Addr) (protocol : Protocol) : Handshake :=
  let host := addr.host
  let port := if addr.port = 0 then 25565 else addr.port
  { ProtocolVersion := protocol, ServerAddress := host,
    Port := (port : Int), NextStatus := 1 }

/-- The method `dialPassthroughServer` (motd_passthrough.go:142-185). The result is the
address of the open connection, or the error. -/
def dialPassthroughServer (rt : Runtime) (cfg : Config) (net : Backend)
    (serverAddr : String) (protocol : Protocol) (w : World) :
    Except GoError Addr × World :=
  match net.parse serverAddr with
  | Except.error err =>
      (Except.error (errorf rt ("failed to parse server address " ++ serverAddr) err), w)
  | Except.ok addr =>
      let w1 := w.emit (Event.dial addr.text cfg.ConnectionTimeout)
      match net.dial addr.text cfg.ConnectionTimeout with
      | some err =>
          (Except.error (GoError.verbosity (getErrorVerbosity rt (some err))
            (errorf rt ("failed to connect to backend " ++ serverAddr) err)), w1)
      | none =>
          match sendHandshakeToBackend net (statusHandshake addr protocol) w1 with
          | (some err, w2) =>
              (Except.error (errorf rt "failed to send handshake packet" err), w2)
          | (none, w2) => (Except.ok addr, w2)

/-- The read loop of `fetchMOTDFromBackend` (motd_passthrough.go:204-214) over
the results of the successive `Decode` calls; `none` when the loop is left
waiting on a `Decode` that never returns. -/
def readStatus (rt : Runtime) :
    List (Except GoError Packet) → Option (Option StatusResponse × Option GoError)
  | [] => none
  | Except.error err :: _ =>
      some (none, some (errorf rt "failed to read status response from backend" err))
  | Except.ok (Packet.statusResponse r) :: _ => some (some r, none)
  | Except.ok (Packet.other _) :: rest => readStatus rt rest

/-- The method `fetchMOTDFromBackend` (motd_passthrough.go:188-215). -/
def fetchMOTDFromBackend (rt : Runtime) (net : Backend) (w : World) :
    Option (Option StatusResponse × Option GoError) × World :=
  match net.writeStatusRequest with
  | some err =>
      (some (none, some (errorf rt "failed to write status request packet to backend" err)),
        w.emit Event.statusRequest)
  | none => (readStatus rt net.decode, w.emit Event.statusRequest)

/-- The `load` closure of `resolveMOTDPassthrough` (motd_passthrough.go:81-96).
A dialog that ends moves the clock on by `net.elapsed`; `none` is a dialog
that never ends. -/
def load (rt : Runtime) (cfg : Config) (net : Backend) (serverConfig : ServerConfig)
    (serverName : String) (protocol : Protocol) (w : World) :
    Option (Option StatusResponse × Option GoError) × World :=
  match dialPassthroughServer rt cfg net serverConfig.Address protocol
      (w.emit (Event.load serverName protocol)) with
  | (Except.error err, w1) =>
      (some (none, some (GoError.verbosity (getErrorVerbosity rt (some err))
          (errorf rt ("failed to dial passthrough server " ++ serverName) err))),
        { w1 with now := w1.now + net.elapsed })
  | (Except.ok _, w1) =>
      match fetchMOTDFromBackend rt net w1 with
      | (some out, w2) => (some out, { w2 with now := w2.now + net.elapsed })
      | (none, w2) => (none, w2)

/-! ## Orchestrator -/

/-- The deadline `time.Second * 5` of the `select`, in nanoseconds. -/
def motdTimeout : Int := 5000000000

/-- The function handed to `withMOTDLoader` (motd_passthrough.go:104-107): run
`load` and box its two results in a `motdCacheResult`. -/
def loadResult (rt : Runtime) (cfg : Config) (net : Backend) (serverConfig : ServerConfig)
    (serverName : String) (protocol : Protocol) :
    motdCacheKey → World → Option motdCacheResult × World :=
  fun _ w =>
    match load rt cfg net serverConfig serverName protocol w with
    | (some (res, err), w1) => (some { res := res, err := err }, w1)
    | (none, w1) => (none, w1)

/-- The `select` of motd_passthrough.go:109-117 for a caller that starts in
`w`. The goroutine runs `Get(key, opt)`; its result wins when it arrives
before the deadline. Otherwise the caller leaves at the deadline with the
timeout error: the world then holds the actions the goroutine has taken up to
its blocking load, and a store that the load will still make is kept as
pending. -/
def awaitResult (w : World) (key : motdCacheKey)
    (load : motdCacheKey → World → Option motdCacheResult × World) (ttl : Int) :
    (Option StatusResponse × Option GoError) × World :=
  let timedOut : Option StatusResponse × Option GoError :=
    (none, some (GoError.leaf "MOTD passthrough request timed out"))
  let blocked :=
    (World.Get w key (some (withMOTDLoader motdSingleFlight ttl
      (fun k w0 => (none, { (load k w0).2 with now := w0.now }))))).2
  match World.Get w key (some (withMOTDLoader motdSingleFlight ttl load)) with
  | (some item, w1) =>
      if w1.now < w.now + motdTimeout then ((item.value.res, item.value.err), w1)
      else (timedOut,
        { blocked with
          now := w.now + motdTimeout,
          pending := blocked.pending ++ [⟨w1.now, key, item.value, item.ttl⟩] })
  | (none, _) => (timedOut, { blocked with now := w.now + motdTimeout })

/-- The method `resolveMOTDPassthrough` (motd_passthrough.go:57-118). `order` is the
visiting order of the map in the selector and `net` the behaviour of the
network during this call. The result is `none` when the call never returns
(a synchronous load that never ends). The logger that the function hands
back is left out. -/
def resolveMOTDPassthrough (rt : Runtime) (cfg : Config)
    (order : List (String × ServerConfig)) (net : Backend) (protocol : Protocol)
    (w : World) : Option (Option StatusResponse × Option GoError) × World :=
  match findPassthroughServer cfg order with
  | (none, _) =>
      (some (none, some (GoError.leaf "no server with MOTD passthrough enabled")), w)
  | (some serverConfig, serverName) =>
      let key : motdCacheKey := { serverName := serverName, protocol := protocol }
      let fast : Option Item × World :=
        if serverConfig.CachePingEnabled then World.Get w key none else (none, w)
      match fast with
      | (some item, w1) => (some (item.value.res, item.value.err), w1)
      | (none, w1) =>
          if !serverConfig.CachePingEnabled then
            load rt cfg net serverConfig serverName protocol w1
          else
            let r := awaitResult w1 key
              (loadResult rt cfg net serverConfig serverName protocol)
              serverConfig.GetCachePingTTL
            (some r.1, r.2)

/-! ## Notions used to state the properties -/

/-- The condition the spec gives for the debug level: the error is not nil,
and its chain holds the connection-refused code or its lower-cased message
holds the words "connection refused". -/
def RefusedCause (rt : Runtime) (err : Option GoError) : Prop :=
  ∃ e, err = some e ∧
    (GoError.errno rt.ECONNREFUSED ∈ e.chain ∨
      "connection refused".data <:+: (e.Error rt).data.map rt.toLowerRune)

/-- A name is eligible when it is a key of the server map whose server has
MOTD passthrough on. -/
def Eligible (servers : List (String × ServerConfig)) (name : String) : Prop :=
  ∃ sc, servers.lookup name = some sc ∧ sc.PassthroughMOTD = true

instance (servers : List (String × ServerConfig)) (name : String) :
    Decidable (Eligible servers name) :=
  match h : servers.lookup name with
  | none => isFalse (fun ⟨_, hl, _⟩ => by rw [h] at hl; cases hl)
  | some sc =>
      if hp : sc.PassthroughMOTD = true then isTrue ⟨sc, h, hp⟩
      else isFalse (fun ⟨sc1, hl, hp1⟩ => by
        rw [h] at hl
        cases hl
        exact hp hp1)

/-- Actions on the MOTD cache. -/
def Event.isCache : Event → Bool
  | Event.cacheGet _ => true
  | Event.cacheSet _ => true
  | _ => false

/-- Runs of the `load` closure. -/
def Event.isLoad : Event → Bool
  | Event.load _ _ => true
  | _ => false

/-- Actions on the network: a dial or a packet written to a backend. -/
def Event.isNetwork : Event → Bool
  | Event.dial _ _ => true
  | Event.handshake _ => true
  | Event.statusRequest => true
  | _ => false

/-! ## Example inputs -/

/-- First table row of `TestFindPassthroughServer`: two passthrough servers,
both on the Try list. -/
def tryConfig : Config :=
  { Servers := [("server1", ⟨"localhost:25561", false, 0⟩),
                ("server2", ⟨"localhost:25562", true, 0⟩),
                ("server3", ⟨"localhost:25563", true, 0⟩)],
    Try := ["server2", "server3"], ConnectionTimeout := 5000000000,
    ReadTimeout := 30000000000 }

/-- Second table row of `TestFindPassthroughServer`: no passthrough server. -/
def plainConfig : Config :=
  { Servers := [("server1", ⟨"localhost:25561", false, 0⟩),
                ("server2", ⟨"localhost:25562", false, 0⟩)],
    Try := ["server1", "server2"], ConnectionTimeout := 5000000000,
    ReadTimeout := 30000000000 }

/-- Two passthrough servers, neither on the Try list. -/
def fallbackConfig : Config :=
  { Servers := [("server1", ⟨"localhost:25561", false, 0⟩),
                ("fallbackA", ⟨"localhost:25563", true, 0⟩),
                ("fallbackB", ⟨"localhost:25564", true, 0⟩)],
    Try := ["server1", "ghost"], ConnectionTimeout := 5000000000,
    ReadTimeout := 30000000000 }

/-- The configuration of the spec's scenarios: `s1` without passthrough, `s2`
with passthrough and the given cache TTL, Try list `[s1, s2]`. -/
def scenarioConfig (ttl : Int) : Config :=
  { Servers := [("s1", ⟨"127.0.0.1:25561", false, 0⟩),
                ("s2", ⟨"127.0.0.1:25562", true, ttl⟩)],
    Try := ["s1", "s2"], ConnectionTimeout := 5000000000,
    ReadTimeout := 30000000000 }

/-- The server `s2` of `scenarioConfig`. -/
def scenarioServer (ttl : Int) : ServerConfig := ⟨"127.0.0.1:25562", true, ttl⟩

/-- A backend that answers the status request with `hi` after two
milliseconds, one unrelated packet first. -/
def liveBackend : Backend :=
  { parse := fun a => Except.ok ⟨a, "127.0.0.1", 25562⟩,
    dial := fun _ _ => none,
    writeHandshake := fun _ => none,
    writeStatusRequest := none,
    decode := [Except.ok (Packet.other 1), Except.ok (Packet.statusResponse ⟨"hi"⟩)],
    elapsed := 2000000 }

/-- A backend that drops the connection after the handshake. -/
def droppingBackend : Backend :=
  { parse := fun a => Except.ok ⟨a, "127.0.0.1", 25562⟩,
    dial := fun _ _ => none,
    writeHandshake := fun _ => none,
    writeStatusRequest := none,
    decode := [Except.error (GoError.leaf "EOF")],
    elapsed := 2000000 }

/-- The error that a load against `droppingBackend` returns. -/
def droppedError : GoError :=
  GoError.wrap "failed to read status response from backend: EOF" (GoError.leaf "EOF")

/-- A world at time zero with an empty cache. -/
def coldWorld : World := { now := 0, cache := [], trace := [], pending := [] }

/-- A world at time zero whose cache holds `hi` for `(s2, 763)` and another
answer for `(s2, 47)`, both for five seconds. -/
def warmWorld : World :=
  { now := 0,
    cache := [⟨⟨"s2", 47⟩, ⟨some ⟨"old"⟩, none⟩, 5000000000, 5000000000⟩,
              ⟨⟨"s2", 763⟩, ⟨some ⟨"hi"⟩, none⟩, 5000000000, 5000000000⟩],
    trace := [], pending := [] }

/-! ## Notions for the dialog and the cache invariant -/

/-- A result pair is exclusive when it is a response without an error or an
error without a response. -/
def Exclusive (out : Option StatusResponse × Option GoError) : Prop :=
  (out.1.isSome = true ∧ out.2 = none) ∨ (out.1 = none ∧ out.2.isSome = true)

instance (out : Option StatusResponse × Option GoError) : Decidable (Exclusive out) := by
  unfold Exclusive; infer_instance

/-- Every item of the cache, and every store still owed by a running load,
holds an exclusive pair. -/
def World.Sound (w : World) : Prop :=
  (∀ it ∈ w.cache, Exclusive (it.value.res, it.value.err)) ∧
    (∀ ps ∈ w.pending, Exclusive (ps.value.res, ps.value.err))

instance (w : World) : Decidable w.Sound := by
  unfold World.Sound; infer_instance

/-- The message of `e` holds `s` as a substring. -/
def MessageContains (rt : Runtime) (e : GoError) (s : String) : Prop :=
  s.data <:+: (e.Error rt).data

instance (rt : Runtime) (e : GoError) (s : String) : Decidable (MessageContains rt e s) := by
  unfold MessageContains; infer_instance

/-- Calls of `net.DialTimeout`. -/
def Event.isDial : Event → Bool
  | Event.dial _ _ => true
  | _ => false

/-- A backend that answers the status request with `hi` only after seven
seconds. -/
def slowBackend : Backend :=
  { parse := fun a => Except.ok ⟨a, "127.0.0.1", 25562⟩,
    dial := fun _ _ => none,
    writeHandshake := fun _ => none,
    writeStatusRequest := none,
    decode := [Except.ok (Packet.statusResponse ⟨"hi"⟩)],
    elapsed := 7000000000 }

/-- A backend that accepts the connection and then never sends anything. -/
def stuckBackend : Backend :=
  { parse := fun a => Except.ok ⟨a, "127.0.0.1", 25562⟩,
    dial := fun _ _ => none,
    writeHandshake := fun _ => none,
    writeStatusRequest := none,
    decode := [],
    elapsed := 0 }

/-- A backend whose address parses to port zero. -/
def portlessBackend : Backend :=
  { parse := fun a => Except.ok ⟨a, "mc.example.com", 0⟩,
    dial := fun _ _ => none,
    writeHandshake := fun _ => none,
    writeStatusRequest := none,
    decode := [Except.ok (Packet.statusResponse ⟨"hi"⟩)],
    elapsed := 2000000 }

/-! ## Control-plane handlers (`pkg/gate/api_handlers.go`) -/

deriving instance DecidableEq for Except

/-- The `connect.Code` values the handlers return. -/
inductive Code where
  | invalidArgument
  | notFound
  | internal
  deriving DecidableEq, Repr

/-- The value of `connect.NewError(code, err)`. -/
structure ConnectError where
  code : Code
  err : GoError
  deriving DecidableEq, Repr

/-- What the handlers ask of packages that are not part of the sources at
hand, for a configuration type `Cfg` (`config.Config` of `pkg/gate/config`).

* `unmarshal` is `yaml.Unmarshal` into a fresh `config.Config`.
* `validate` is `Config.Validate`, giving warnings and errors in that order.
* `marshal` is `yaml.Marshal`.
* `writeFile` is the error of `os.WriteFile(path, data, mode)`.
* `liteEnabled` and `routeCount` read `Config.Lite.Enabled` and the length of
  `Config.Lite.Routes`. -/
structure ConfigEnv (Cfg : Type) where
  unmarshal : String → Except GoError Cfg
  validate : Cfg → List GoError × List GoError
  marshal : Cfg → Except GoError String
  writeFile : String → String → Nat → Option GoError
  liteEnabled : Cfg → Bool
  routeCount : Cfg → Nat

/-- A `reload.ConfigUpdateEvent`: the configuration that the event's `Config`
pointer shows when the event is fired, and the previous configuration. -/
structure ConfigUpdateEvent (Cfg : Type) where
  Config : Cfg
  PrevConfig : Cfg
  deriving DecidableEq, Repr

/-- A step a handler takes on what it shares with the rest of the process. -/
inductive Step (Cfg : Type) where
  /-- The call `h.mu.Lock()`. -/
  | lock
  /-- The call `h.mu.Unlock()`. -/
  | unlock
  /-- The assignment `*h.cfg = newCfg`. -/
  | store (newCfg : Cfg)
  /-- A call of `reload.FireConfigUpdate`; `held` tells whether the
  configuration mutex is held at that moment. -/
  | fire (e : ConfigUpdateEvent Cfg) (held : Bool)
  /-- A call of `os.WriteFile`. -/
  | writeFile (path : String) (data : String) (mode : Nat)
  deriving DecidableEq, Repr

/-- What the handlers share: the configuration behind `h.cfg`, the state of
the mutex `h.mu`, and the steps taken so far, oldest first. -/
structure Shared (Cfg : Type) where
  cfg : Cfg
  locked : Bool
  steps : List (Step Cfg)
  deriving DecidableEq, Repr

/-- The call `h.mu.Lock()`: `none` while the mutex is held by someone else, in
which case the caller waits. -/
def Shared.Lock {Cfg : Type} (st : Shared Cfg) : Option (Shared Cfg) :=
  if st.locked then none
  else some { st with locked := true, steps := st.steps ++ [Step.lock] }

/-- The call `h.mu.Unlock()`. -/
def Shared.Unlock {Cfg : Type} (st : Shared Cfg) : Shared Cfg :=
  { st with locked := false, steps := st.steps ++ [Step.unlock] }

/-- The assignment `*h.cfg = newCfg`. -/
def Shared.store {Cfg : Type} (st : Shared Cfg) (newCfg : Cfg) : Shared Cfg :=
  { st with cfg := newCfg, steps := st.steps ++ [Step.store newCfg] }

/-- Modelled from the spec: `reload.FireConfigUpdate` is declared in
`pkg/internal/reload`, which is not among the sources. The spec has it
"publish a *config-update* event with {new, previous}"; the call is recorded
with the event and with the state of the mutex at that moment. -/
def FireConfigUpdate {Cfg : Type} (st : Shared Cfg) (config prev : Cfg) : Shared Cfg :=
  { st with steps := st.steps ++ [Step.fire ⟨config, prev⟩ st.locked] }

/-- The events fired in a list of steps, oldest first. -/
def firedEvents {Cfg : Type} : List (Step Cfg) → List (ConfigUpdateEvent Cfg)
  | [] => []
  | Step.fire e _ :: rest => e :: firedEvents rest
  | _ :: rest => firedEvents rest

/-- The files written in a list of steps, oldest first. -/
def writtenFiles {Cfg : Type} : List (Step Cfg) → List (String × String × Nat)
  | [] => []
  | Step.writeFile path data mode :: rest => (path, data, mode) :: writtenFiles rest
  | _ :: rest => writtenFiles rest

/-- The scan of `path.Ext` from the end of the path: `rev` is what is left to
scan, last character first, and `seen` the characters already passed. -/
def pathExtAux : List Char → List Char → String
  | [], _ => ""
  | c :: rev, seen =>
      if c = '/' then ""
      else if c = '.' then String.mk ('.' :: seen)
      else pathExtAux rev (c :: seen)

/-- The function `path.Ext`: the suffix of the last path element from its
last dot on, empty when there is no dot. -/
def pathExt (p : String) : String :=
  pathExtAux p.data.reverse []

/-- The error `config validation failed: ...` with the messages of the
validation errors joined by `"; "` (api_handlers.go:150-154, 518-523). -/
def validationFailed (rt : Runtime) (errs : List GoError) : ConnectError :=
  { code := Code.invalidArgument,
    err := GoError.leaf ("config validation failed: " ++
      "; ".intercalate (errs.map (fun e => e.Error rt))) }

/-- The method `persistConfig` (api_handlers.go:182-210). -/
def persistConfig {Cfg : Type} (rt : Runtime) (env : ConfigEnv Cfg) (configFilePath : String)
    (cfg : Cfg) (st : Shared Cfg) : Option GoError × Shared Cfg :=
  let configFile := configFilePath
  if configFile = "" then
    (some (GoError.leaf "config file path not available - cannot persist config"), st)
  else if pathExt configFile = ".yaml" ∨ pathExt configFile = ".yml" then
    match env.marshal cfg with
    | Except.error err => (some (errorf rt "failed to marshal config" err), st)
    | Except.ok data =>
        let st1 := { st with steps := st.steps ++ [Step.writeFile configFile data 420] }
        match env.writeFile configFile data 420 with
        | some err =>
            (some (errorf rt ("failed to write config file " ++ configFile) err), st1)
        | none => (none, st1)
  else
    (some (GoError.leaf ("unsupported config file format: " ++ configFile ++
      " (only .yml and .yaml are supported)")), st)

/-- The locked section shared by `ApplyConfig` (api_handlers.go:157-161) and
`applyConfigUpdate` (api_handlers.go:528-532): lock, copy the old
configuration, store the new one, fire the event, unlock. `none` while the
mutex is held by someone else. -/
def swapAndFire {Cfg : Type} (st : Shared Cfg) (newCfg : Cfg) : Option (Shared Cfg) :=
  match st.Lock with
  | none => none
  | some s1 =>
      let prev := s1.cfg
      let s2 := s1.store newCfg
      let s3 := FireConfigUpdate s2 s2.cfg prev
      some s3.Unlock

/-- The method `ConfigHandlerImpl.ApplyConfig` (api_handlers.go:142-180). The
result is `none` when the call waits on the mutex for good; log lines are left
out. -/
def ApplyConfig {Cfg : Type} (rt : Runtime) (env : ConfigEnv Cfg) (configFilePath : String)
    (config : String) (persist : Bool) (st : Shared Cfg) :
    Option (Except ConnectError (List String) × Shared Cfg) :=
  match env.unmarshal config with
  | Except.error err =>
      some (Except.error ⟨Code.invalidArgument, errorf rt "invalid YAML/JSON" err⟩, st)
  | Except.ok newCfg =>
      let warns := (env.validate newCfg).1
      let errs := (env.validate newCfg).2
      if errs.length > 0 then some (Except.error (validationFailed rt errs), st)
      else
        match swapAndFire st newCfg with
        | none => none
        | some s1 =>
            let warnStrs := warns.map (fun e => e.Error rt)
            if persist then
              match persistConfig rt env configFilePath newCfg s1 with
              | (some err, s2) =>
                  some (Except.ok (warnStrs ++
                    ["failed to persist config to disk: " ++ err.Error rt]), s2)
              | (none, s2) => some (Except.ok warnStrs, s2)
            else some (Except.ok warnStrs, s1)

/-- The method `LiteHandlerImpl.applyConfigUpdate` (api_handlers.go:515-535). -/
def applyConfigUpdate {Cfg : Type} (rt : Runtime) (env : ConfigEnv Cfg) (newCfg : Cfg)
    (st : Shared Cfg) : Option (Except ConnectError (List String) × Shared Cfg) :=
  let warns := (env.validate newCfg).1
  let errs := (env.validate newCfg).2
  if errs.length > 0 then some (Except.error (validationFailed rt errs), st)
  else
    let warnStrs := warns.map (fun e => e.Error rt)
    match swapAndFire st newCfg with
    | none => none
    | some s1 => some (Except.ok warnStrs, s1)

/-- A `pb.ConfigUpdateEvent` message. -/
structure ConfigUpdateInfo where
  ConfigSource : String
  LiteModeEnabled : Bool
  RouteCount : Int
  deriving DecidableEq, Repr

/-- The conversion `int32(n)` of a length. -/
def toInt32 (n : Nat) : Int :=
  ((n : Int) + 2147483648) % 4294967296 - 2147483648

/-- The config-update listener of `subscribeToEvents` up to the message it
builds (api_handlers.go:620-636): take the mutex, read the event's
configuration, release the mutex. `none` while the mutex is held by someone
else, in which case the listener waits. -/
def onConfigUpdate {Cfg : Type} (env : ConfigEnv Cfg) (st : Shared Cfg)
    (e : ConfigUpdateEvent Cfg) : Option (ConfigUpdateInfo × Shared Cfg) :=
  match st.Lock with
  | none => none
  | some s1 =>
      let isLiteMode := env.liteEnabled e.Config
      let routeCount := env.routeCount e.Config
      some ({ ConfigSource := "api", LiteModeEnabled := isLiteMode,
              RouteCount := toInt32 routeCount }, s1.Unlock)

/-! ## Example inputs for the handlers -/

/-- A stand-in for the YAML codec and the validator over configurations that
are plain text: `{` does not parse, `bind: nowhere` fails validation, a text
starting with `legacy` validates with one warning, and the disk accepts every
write. -/
def textEnv : ConfigEnv String :=
  { unmarshal := fun s =>
      if s = "\x7b" then Except.error (GoError.leaf "yaml: did not find expected node content")
      else Except.ok s,
    validate := fun c =>
      if c = "bind: nowhere" then ([], [GoError.leaf "invalid bind address"])
      else if c = "legacy: true" then ([GoError.leaf "legacy is deprecated"], [])
      else ([], []),
    marshal := fun c => Except.ok c,
    writeFile := fun _ _ _ => none,
    liteEnabled := fun c => decide (c = "lite: true"),
    routeCount := fun _ => 0 }

/-- The stand-in `textEnv` with a serialiser that fails. -/
def brokenCodecEnv : ConfigEnv String :=
  { textEnv with marshal := fun _ => Except.error (GoError.leaf "yaml: cannot marshal") }

/-- The stand-in `textEnv` with a disk that refuses every write. -/
def readOnlyEnv : ConfigEnv String :=
  { textEnv with writeFile := fun _ _ _ => some (GoError.leaf "read-only file system") }

/-- A handler state holding the configuration `bind: here`, mutex free, no
step taken yet. -/
def idleShared : Shared String := { cfg := "bind: here", locked := false, steps := [] }

/-- A backend that refuses the connection. -/
def refusedBackend : Backend :=
  { parse := fun a => Except.ok ⟨a, "127.0.0.1", 25562⟩,
    dial := fun _ _ =>
      some (GoError.wrap "dial tcp 127.0.0.1:25562: connect: connection refused"
        (GoError.errno 111)),
    writeHandshake := fun _ => none,
    writeStatusRequest := none,
    decode := [],
    elapsed := 1000000 }

/-! ## Lite routes: text functions and types -/

/-- Facts of the `strings` and `unicode` packages that the Lite handlers rely
on: `fold` sends a rune to a fixed member of its simple case-folding orbit
(two runes are equal under `strings.EqualFold` exactly when they fold to the
same rune), and `isSpace` is `unicode.IsSpace`. -/
structure Unicode where
  fold : Char → Char
  isSpace : Char → Bool

/-- ASCII letters and the four ASCII blanks, for the examples. -/
def ascii : Unicode where
  fold := Char.toLower
  isSpace := Char.isWhitespace

/-- The function `strings.EqualFold`. -/
def stringsEqualFold (u : Unicode) (s t : String) : Bool :=
  decide (s.data.map u.fold = t.data.map u.fold)

/-- The function `strings.TrimSpace`: leading and trailing white space
removed. -/
def stringsTrimSpace (u : Unicode) (s : String) : String :=
  String.mk ((s.data.dropWhile u.isSpace).reverse.dropWhile u.isSpace).reverse

/-- A `jping.Version`. -/
structure Version where
  Name : String
  Protocol : Int
  deriving DecidableEq, Repr

/-- A `jping.Players`. -/
structure Players where
  Online : Int
  Max : Int
  deriving DecidableEq, Repr

/-- A `config2.Status`, the static fallback status of a route. The MOTD, a
`*configutil.TextComponent`, is held as the text it was parsed from. -/
structure Status where
  MOTD : Option String
  Version : Version
  Players : Option Players
  Favicon : String
  deriving DecidableEq, Repr

/-- A `config2.Route` as far as the handlers read or write it. `CachePingTTL`
is a `configutil.Duration`, a count of nanoseconds. -/
structure Route where
  Host : List String
  Backend : List String
  Strategy : String
  ProxyProtocol : Bool
  TCPShieldRealIP : Bool
  ModifyVirtualHost : Bool
  CachePingTTL : Int
  Fallback : Option Status
  deriving DecidableEq, Repr

/-- The `config.Config` of `pkg/gate/config` as far as the handlers read or
write it: `Config.Lite.Enabled` and the slice `Config.Lite.Routes`. -/
structure GateConfig where
  LiteEnabled : Bool
  Routes : List Route
  deriving DecidableEq, Repr

/-- A `pb.LiteRouteOptions`. -/
structure LiteRouteOptions where
  ProxyProtocol : Bool
  TcpShieldRealIp : Bool
  ModifyVirtualHost : Bool
  CachePingTtlMs : Int
  deriving DecidableEq, Repr

/-- A `pb.LiteRouteFallback`; version and players are messages that may be
missing. -/
structure LiteRouteFallback where
  MotdJson : String
  Version : Option Version
  Players : Option Players
  Favicon : String
  deriving DecidableEq, Repr

/-- A `pb.LiteRouteBackend`. -/
structure LiteRouteBackend where
  Address : String
  ActiveConnections : Nat
  deriving DecidableEq, Repr

/-- A `pb.LiteRoute`. -/
structure LiteRoute where
  Hosts : List String
  Strategy : Int
  Options : LiteRouteOptions
  Backends : List LiteRouteBackend
  Fallback : Option LiteRouteFallback
  deriving DecidableEq, Repr

/-- What the Lite handlers ask of packages that are not part of the sources
at hand.

* `strategyToString` and `strategyFromString` are `api.ConvertStrategyToString`
  and `api.ConvertStrategyFromString`.
* `parseTextComponent` is `componentutil.ParseTextComponent` at the minimum
  protocol version.
* `marshalMOTD` is `json.Marshal` of a text component.
* `activeConnections` is the counter that `GetOrCreateCounter` hands out for a
  backend, read with `Load`; `none` for a nil counter.
* `getTCPShieldRealIP` is `Route.GetTCPShieldRealIP`.
* `quote` is the verb `%q` of `fmt`. -/
structure LiteEnv where
  strategyToString : Int → String
  strategyFromString : String → Int
  parseTextComponent : String → Except GoError String
  marshalMOTD : String → Except GoError String
  activeConnections : String → Option Nat
  getTCPShieldRealIP : Route → Bool
  quote : String → String

/-- The conversion `int32(x)` of a Go `int`. -/
def int32 (x : Int) : Int :=
  (x + 2147483648) % 4294967296 - 2147483648

/-- The duration of `m` milliseconds as a `configutil.Duration`, a count of
nanoseconds: the value that the field name `cache_ping_ttl_ms` promises. -/
def millisecondsAsDuration (m : Int) : Int := m * 1000000

/-! ## Lite routes: lookup and conversion -/

/-- The inner loop of `findRouteIdx` (api_handlers.go:484-488): does some host
pattern of the route equal `host` ignoring case. -/
def hostMatches (u : Unicode) (host : String) : List String → Bool
  | [] => false
  | h :: rest => if stringsEqualFold u h host then true else hostMatches u host rest

/-- The outer loop of `findRouteIdx` (api_handlers.go:483-490) from index
`i` on. -/
def findRouteIdxLoop (u : Unicode) (host : String) : List Route → Nat → Int
  | [], _ => -1
  | r :: rest, i =>
      if hostMatches u host r.Host then (i : Int) else findRouteIdxLoop u host rest (i + 1)

/-- The method `findRouteIdx` (api_handlers.go:482-491), on the shared
configuration. -/
def findRouteIdx (u : Unicode) (st : Shared GateConfig) (host : String) : Int :=
  findRouteIdxLoop u host st.cfg.Routes 0

/-- The inner loop of `findRouteIdxInConfig` (api_handlers.go:495-499). -/
def hostMatchesInConfig (u : Unicode) (host : String) : List String → Bool
  | [] => false
  | h :: rest =>
      if stringsEqualFold u h host then true else hostMatchesInConfig u host rest

/-- The outer loop of `findRouteIdxInConfig` (api_handlers.go:494-501) from
index `i` on. -/
def findRouteIdxInConfigLoop (u : Unicode) (host : String) : List Route → Nat → Int
  | [], _ => -1
  | r :: rest, i =>
      if hostMatchesInConfig u host r.Host then (i : Int)
      else findRouteIdxInConfigLoop u host rest (i + 1)

/-- The method `findRouteIdxInConfig` (api_handlers.go:493-502). -/
def findRouteIdxInConfig (u : Unicode) (c : GateConfig) (host : String) : Int :=
  findRouteIdxInConfigLoop u host c.Routes 0

/-- The method `toProtoFallback` (api_handlers.go:428-454). -/
def toProtoFallback (lite : LiteEnv) (src : Option Status) : Option LiteRouteFallback :=
  match src with
  | none => none
  | some s =>
      let motdJson : String :=
        match s.MOTD with
        | none => ""
        | some motd =>
            match lite.marshalMOTD motd with
            | Except.ok data => data
            | Except.error _ => ""
      let version : Option Version :=
        if s.Version.Name ≠ "" ∨ s.Version.Protocol ≠ 0 then
          some { Name := s.Version.Name, Protocol := int32 s.Version.Protocol }
        else none
      let players : Option Players :=
        match s.Players with
        | none => none
        | some pl => some { Online := int32 pl.Online, Max := int32 pl.Max }
      some { MotdJson := motdJson, Version := version, Players := players,
             Favicon := s.Favicon }

/-- The method `toProtoRoute` (api_handlers.go:456-480). -/
def toProtoRoute (lite : LiteEnv) (route : Route) : LiteRoute :=
  { Hosts := route.Host,
    Strategy := lite.strategyFromString route.Strategy,
    Options :=
      { ProxyProtocol := route.ProxyProtocol,
        TcpShieldRealIp := lite.getTCPShieldRealIP route,
        ModifyVirtualHost := route.ModifyVirtualHost,
        CachePingTtlMs := route.CachePingTTL },
    Backends := route.Backend.map (fun backend =>
      { Address := backend,
        ActiveConnections := (lite.activeConnections backend).getD 0 }),
    Fallback := toProtoFallback lite route.Fallback }

/-- The value of `connect.NewError(connect.CodeInvalidArgument, errors.New(msg))`. -/
def invalidArgument (msg : String) : ConnectError :=
  { code := Code.invalidArgument, err := GoError.leaf msg }

/-- The value of `connect.NewError(connect.CodeNotFound, errors.New("route not found"))`. -/
def routeNotFound : ConnectError :=
  { code := Code.notFound, err := GoError.leaf "route not found" }

/-- The method `GetLiteRoute` (api_handlers.go:241-253). The result is `none`
while the mutex is held by someone else; an index outside the routes, which
`findRouteIdx` never returns, would make the Go code panic and is `none`
too. -/
def GetLiteRoute (u : Unicode) (lite : LiteEnv) (reqHost : String)
    (st : Shared GateConfig) : Option (Except ConnectError LiteRoute × Shared GateConfig) :=
  let host := stringsTrimSpace u reqHost
  if host = "" then some (Except.error (invalidArgument "host is required"), st)
  else
    match st.Lock with
    | none => none
    | some s1 =>
        let idx := findRouteIdx u s1 host
        if idx < 0 then some (Except.error routeNotFound, s1.Unlock)
        else
          match s1.cfg.Routes.get? idx.toNat with
          | some r => some (Except.ok (toProtoRoute lite r), s1.Unlock)
          | none => none

/-! ## Lite routes: mutations -/

/-- The locked copy `newCfg := *h.cfg` that opens every mutation
(api_handlers.go:264-266 and the like): lock, copy the struct, unlock. -/
def copyConfig (st : Shared GateConfig) : Option (GateConfig × Shared GateConfig) :=
  match st.Lock with
  | none => none
  | some s1 => some (s1.cfg, s1.Unlock)

/-- The routes with the one at `idx` changed by `f`. -/
def updateAt (f : Route → Route) : List Route → Nat → List Route
  | [], _ => []
  | r :: rest, 0 => f r :: rest
  | r :: rest, n + 1 => r :: updateAt f rest n

/-- An assignment to a field of `newCfg.Config.Lite.Routes[idx]`, on the pair
of the shared state and the handler's copy `newCfg`.

The copy `newCfg := *h.cfg` copies the struct and with it the slice header
`Routes`, not the array of routes behind it: `newCfg.Config.Lite.Routes` and
`h.cfg.Config.Lite.Routes` are the same routes. That `Routes` is a slice, a
`[]config2.Route`, shows in `ListLiteRoutes`, which copies it with `make` and
`copy` (api_handlers.go:231-232). The assignment therefore changes the route
in the shared configuration as well as in `newCfg`, at once and without the
mutex. -/
def assignRoute (idx : Nat) (f : Route → Route)
    (pair : Shared GateConfig × GateConfig) : Shared GateConfig × GateConfig :=
  ({ pair.1 with cfg := { pair.1.cfg with Routes := updateAt f pair.1.cfg.Routes idx } },
    { pair.2 with Routes := updateAt f pair.2.Routes idx })

/-- The method `UpdateLiteRouteStrategy` (api_handlers.go:255-274). -/
def UpdateLiteRouteStrategy (rt : Runtime) (u : Unicode) (env : ConfigEnv GateConfig)
    (lite : LiteEnv) (reqHost : String) (reqStrategy : Int) (st : Shared GateConfig) :
    Option (Except ConnectError (List String) × Shared GateConfig) :=
  let host := stringsTrimSpace u reqHost
  if host = "" then some (Except.error (invalidArgument "host is required"), st)
  else
    let strategy := stringsTrimSpace u (lite.strategyToString reqStrategy)
    if strategy = "" then some (Except.error (invalidArgument "strategy is required"), st)
    else
      match copyConfig st with
      | none => none
      | some (newCfg, s1) =>
          let idx := findRouteIdxInConfig u newCfg host
          if idx < 0 then some (Except.error routeNotFound, s1)
          else
            let edited := assignRoute idx.toNat
              (fun r => { r with Strategy := strategy }) (s1, newCfg)
            applyConfigUpdate rt env edited.2 edited.1

/-- The loop of `AddLiteRouteBackend` (api_handlers.go:289-295): is some
backend of the route equal to `backend` ignoring case. -/
def backendExists (u : Unicode) (backend : String) : List String → Bool
  | [] => false
  | b :: rest => if stringsEqualFold u b backend then true else backendExists u backend rest

/-- The method `AddLiteRouteBackend` (api_handlers.go:276-300). -/
def AddLiteRouteBackend (rt : Runtime) (u : Unicode) (env : ConfigEnv GateConfig)
    (reqHost reqBackend : String) (st : Shared GateConfig) :
    Option (Except ConnectError (List String) × Shared GateConfig) :=
  let host := stringsTrimSpace u reqHost
  let backend := stringsTrimSpace u reqBackend
  if host = "" ∨ backend = "" then
    some (Except.error (invalidArgument "host and backend are required"), st)
  else
    match copyConfig st with
    | none => none
    | some (newCfg, s1) =>
        let idx := findRouteIdxInConfig u newCfg host
        if idx < 0 then some (Except.error routeNotFound, s1)
        else
          match newCfg.Routes.get? idx.toNat with
          | none => none
          | some route =>
              let exists_ := backendExists u backend route.Backend
              let edited :=
                if !exists_ then
                  assignRoute idx.toNat
                    (fun r => { r with Backend := r.Backend ++ [backend] }) (s1, newCfg)
                else (s1, newCfg)
              applyConfigUpdate rt env edited.2 edited.1

/-- The loop of `RemoveLiteRouteBackend` (api_handlers.go:318-324): the
backends that do not equal `backend` ignoring case, in their order. -/
def filterBackends (u : Unicode) (backend : String) : List String → List String
  | [] => []
  | b :: rest =>
      if stringsEqualFold u b backend then filterBackends u backend rest
      else b :: filterBackends u backend rest

/-- The method `RemoveLiteRouteBackend` (api_handlers.go:302-327). -/
def RemoveLiteRouteBackend (rt : Runtime) (u : Unicode) (env : ConfigEnv GateConfig)
    (reqHost reqBackend : String) (st : Shared GateConfig) :
    Option (Except ConnectError (List String) × Shared GateConfig) :=
  let host := stringsTrimSpace u reqHost
  let backend := stringsTrimSpace u reqBackend
  if host = "" ∨ backend = "" then
    some (Except.error (invalidArgument "host and backend are required"), st)
  else
    match copyConfig st with
    | none => none
    | some (newCfg, s1) =>
        let idx := findRouteIdxInConfig u newCfg host
        if idx < 0 then some (Except.error routeNotFound, s1)
        else
          let edited := assignRoute idx.toNat
            (fun r => { r with Backend := filterBackends u backend r.Backend }) (s1, newCfg)
          applyConfigUpdate rt env edited.2 edited.1

/-- The paths that `UpdateLiteRouteOptions` takes for an empty mask
(api_handlers.go:346-348). -/
def allOptionPaths : List String :=
  ["proxy_protocol", "tcp_shield_real_ip", "modify_virtual_host", "cache_ping_ttl_ms"]

/-- The loop over the mask paths of `UpdateLiteRouteOptions`
(api_handlers.go:349-362): one assignment per supported path, in mask order,
and a return with invalid-argument at the first other path. -/
def optionsLoop (lite : LiteEnv) (opts : LiteRouteOptions) (idx : Nat) :
    List String → Shared GateConfig × GateConfig →
      Option ConnectError × (Shared GateConfig × GateConfig)
  | [], pair => (none, pair)
  | path :: rest, pair =>
      if path = "proxy_protocol" then
        optionsLoop lite opts idx rest
          (assignRoute idx (fun r => { r with ProxyProtocol := opts.ProxyProtocol }) pair)
      else if path = "tcp_shield_real_ip" then
        optionsLoop lite opts idx rest
          (assignRoute idx (fun r => { r with TCPShieldRealIP := opts.TcpShieldRealIp }) pair)
      else if path = "modify_virtual_host" then
        optionsLoop lite opts idx rest
          (assignRoute idx
            (fun r => { r with ModifyVirtualHost := opts.ModifyVirtualHost }) pair)
      else if path = "cache_ping_ttl_ms" then
        optionsLoop lite opts idx rest
          (assignRoute idx (fun r => { r with CachePingTTL := opts.CachePingTtlMs }) pair)
      else
        (some { code := Code.invalidArgument,
                err := GoError.leaf ("unsupported field mask path " ++ lite.quote path) },
          pair)

/-- The method `UpdateLiteRouteOptions` (api_handlers.go:329-364). `reqOptions`
is `none` for a request without options payload, `paths` are the paths of the
update mask. -/
def UpdateLiteRouteOptions (rt : Runtime) (u : Unicode) (env : ConfigEnv GateConfig)
    (lite : LiteEnv) (reqHost : String) (reqOptions : Option LiteRouteOptions)
    (paths : List String) (st : Shared GateConfig) :
    Option (Except ConnectError (List String) × Shared GateConfig) :=
  match reqOptions with
  | none => some (Except.error (invalidArgument "options payload is required"), st)
  | some opts =>
      let host := stringsTrimSpace u reqHost
      if host = "" then some (Except.error (invalidArgument "host is required"), st)
      else
        match copyConfig st with
        | none => none
        | some (newCfg, s1) =>
            let idx := findRouteIdxInConfig u newCfg host
            if idx < 0 then some (Except.error routeNotFound, s1)
            else
              let paths := if paths.length = 0 then allOptionPaths else paths
              match optionsLoop lite opts idx.toNat paths (s1, newCfg) with
              | (some err, edited) => some (Except.error err, edited.1)
              | (none, edited) => applyConfigUpdate rt env edited.2 edited.1

/-- The method `parseMOTD` (api_handlers.go:504-513). -/
def parseMOTD (rt : Runtime) (u : Unicode) (lite : LiteEnv) (s : String) :
    Except ConnectError (Option String) :=
  if stringsTrimSpace u s = "" then Except.ok none
  else
    match lite.parseTextComponent s with
    | Except.error err =>
        Except.error { code := Code.invalidArgument, err := errorf rt "invalid motd" err }
    | Except.ok tc => Except.ok (some tc)

/-- An assignment through the pointer `fb` to the fallback status of the
route at `idx`; like the route, the status it points to is shared. -/
def assignFallback (idx : Nat) (f : Status → Status)
    (pair : Shared GateConfig × GateConfig) : Shared GateConfig × GateConfig :=
  assignRoute idx (fun r => { r with Fallback := r.Fallback.map f }) pair

/-- The paths that `UpdateLiteRouteFallback` takes for an empty mask
(api_handlers.go:383-385). -/
def allFallbackPaths : List String :=
  ["motd_json", "version", "players", "favicon"]

/-- The loop over the mask paths of `UpdateLiteRouteFallback`
(api_handlers.go:386-424). -/
def fallbackLoop (rt : Runtime) (u : Unicode) (lite : LiteEnv)
    (reqFallback : Option LiteRouteFallback) (idx : Nat) :
    List String → Shared GateConfig × GateConfig →
      Option ConnectError × (Shared GateConfig × GateConfig)
  | [], pair => (none, pair)
  | path :: rest, pair =>
      if path = "motd_json" then
        match reqFallback with
        | none =>
            fallbackLoop rt u lite reqFallback idx rest
              (assignFallback idx (fun fb => { fb with MOTD := none }) pair)
        | some fallback =>
            if stringsTrimSpace u fallback.MotdJson = "" then
              fallbackLoop rt u lite reqFallback idx rest
                (assignFallback idx (fun fb => { fb with MOTD := none }) pair)
            else
              match parseMOTD rt u lite fallback.MotdJson with
              | Except.error err => (some err, pair)
              | Except.ok motd =>
                  fallbackLoop rt u lite reqFallback idx rest
                    (assignFallback idx (fun fb => { fb with MOTD := motd }) pair)
      else if path = "version" then
        match reqFallback.bind (fun fallback => fallback.Version) with
        | none =>
            fallbackLoop rt u lite reqFallback idx rest
              (assignFallback idx (fun fb => { fb with Version := ⟨"", 0⟩ }) pair)
        | some v =>
            fallbackLoop rt u lite reqFallback idx rest
              (assignFallback idx
                (fun fb => { fb with Version := ⟨v.Name, v.Protocol⟩ }) pair)
      else if path = "players" then
        match reqFallback.bind (fun fallback => fallback.Players) with
        | none =>
            fallbackLoop rt u lite reqFallback idx rest
              (assignFallback idx (fun fb => { fb with Players := none }) pair)
        | some pl =>
            fallbackLoop rt u lite reqFallback idx rest
              (assignFallback idx
                (fun fb => { fb with Players := some ⟨pl.Online, pl.Max⟩ }) pair)
      else if path = "favicon" then
        match reqFallback with
        | none =>
            fallbackLoop rt u lite reqFallback idx rest
              (assignFallback idx (fun fb => { fb with Favicon := "" }) pair)
        | some fallback =>
            if stringsTrimSpace u fallback.Favicon = "" then
              fallbackLoop rt u lite reqFallback idx rest
                (assignFallback idx (fun fb => { fb with Favicon := "" }) pair)
            else
              fallbackLoop rt u lite reqFallback idx rest
                (assignFallback idx (fun fb => { fb with Favicon := fallback.Favicon }) pair)
      else
        (some { code := Code.invalidArgument,
                err := GoError.leaf ("unsupported field mask path " ++ lite.quote path) },
          pair)

/-- The method `UpdateLiteRouteFallback` (api_handlers.go:366-426). A route
without fallback is first given an empty one (lines 378-380). -/
def UpdateLiteRouteFallback (rt : Runtime) (u : Unicode) (env : ConfigEnv GateConfig)
    (lite : LiteEnv) (reqHost : String) (reqFallback : Option LiteRouteFallback)
    (paths : List String) (st : Shared GateConfig) :
    Option (Except ConnectError (List String) × Shared GateConfig) :=
  let host := stringsTrimSpace u reqHost
  if host = "" then some (Except.error (invalidArgument "host is required"), st)
  else
    match copyConfig st with
    | none => none
    | some (newCfg, s1) =>
        let idx := findRouteIdxInConfig u newCfg host
        if idx < 0 then some (Except.error routeNotFound, s1)
        else
          let ensured := assignRoute idx.toNat
            (fun r =>
              match r.Fallback with
              | none => { r with Fallback := some ⟨none, ⟨"", 0⟩, none, ""⟩ }
              | some _ => r)
            (s1, newCfg)
          let paths := if paths.length = 0 then allFallbackPaths else paths
          match fallbackLoop rt u lite reqFallback idx.toNat paths ensured with
          | (some err, edited) => some (Except.error err, edited.1)
          | (none, edited) => applyConfigUpdate rt env edited.2 edited.1

/-- What a Lite mutation that has returned leaves behind, as the properties
below state it: after an error no event has been fired; after a success one
event has been fired, and both its configuration and its previous
configuration are the configuration that is now shared. -/
def EndsInPlace (st : Shared GateConfig) (r : Except ConnectError (List String))
    (s1 : Shared GateConfig) : Prop :=
  (∃ e, r = Except.error e ∧ firedEvents s1.steps = firedEvents st.steps) ∨
    (∃ w, r = Except.ok w ∧
      firedEvents s1.steps = firedEvents st.steps ++ [⟨s1.cfg, s1.cfg⟩])

/-! ## Example inputs for the Lite handlers -/

/-- A route for `mc.example.com` with two backends. -/
def lobbyRoute : Route :=
  { Host := ["mc.example.com", "Play.Example.com"], Backend := ["10.0.0.1:25565", "10.0.0.2:25565"],
    Strategy := "round-robin", ProxyProtocol := false, TCPShieldRealIP := false,
    ModifyVirtualHost := false, CachePingTTL := 0, Fallback := none }

/-- A route for `build.example.com` with one backend. -/
def buildRoute : Route :=
  { Host := ["build.example.com"], Backend := ["10.0.1.1:25565"],
    Strategy := "random", ProxyProtocol := false, TCPShieldRealIP := false,
    ModifyVirtualHost := false, CachePingTTL := 0, Fallback := none }

/-- A Lite configuration with the two example routes. -/
def liteConfig : GateConfig := { LiteEnabled := true, Routes := [lobbyRoute, buildRoute] }

/-- A handler state holding `liteConfig`, mutex free, no step taken yet. -/
def liteShared : Shared GateConfig := { cfg := liteConfig, locked := false, steps := [] }

/-- A stand-in for the validator of Lite configurations: a route without
backend is an error. The YAML codec is not used by the Lite handlers. -/
def routesEnv : ConfigEnv GateConfig :=
  { unmarshal := fun _ => Except.error (GoError.leaf "not used"),
    validate := fun c =>
      if c.Routes.any (fun r => r.Backend.isEmpty) then
        ([], [GoError.leaf "lite route has no backend"])
      else ([], []),
    marshal := fun _ => Except.ok "",
    writeFile := fun _ _ _ => none,
    liteEnabled := fun c => c.LiteEnabled,
    routeCount := fun c => c.Routes.length }

/-- A stand-in for the helpers of the Lite handlers: strategies 1 and 2 are
`random` and `round-robin`, every MOTD text parses to itself but `not json`,
and `%q` puts its argument between double quotes, which is what it does for a
text of plain letters. -/
def liteEnv : LiteEnv :=
  { strategyToString := fun n =>
      if n = 1 then "random" else if n = 2 then "round-robin" else "",
    strategyFromString := fun s =>
      if s = "random" then 1 else if s = "round-robin" then 2 else 0,
    parseTextComponent := fun s =>
      if s = "not json" then Except.error (GoError.leaf "invalid character") else Except.ok s,
    marshalMOTD := fun s => Except.ok s,
    activeConnections := fun _ => some 0,
    getTCPShieldRealIP := fun r => r.TCPShieldRealIP,
    quote := fun s => "\"" ++ s ++ "\"" }


/-! ## Event stream (`StreamEvents`, `subscribeToEvents`) -/

/-- The six kinds of event that `subscribeToEvents` has a listener for, named
as the constants `pb.EventType_EVENT_TYPE_*`. -/
inductive EventKind where
  | PLAYER_CONNECT
  | PLAYER_DISCONNECT
  | PLAYER_SERVER_SWITCH
  | CONFIG_UPDATE
  | READY
  | SHUTDOWN
  deriving DecidableEq, Repr

/-- All kinds, in the order in which the spec lists them. -/
def EventKind.all : List EventKind :=
  [EventKind.PLAYER_CONNECT, EventKind.PLAYER_DISCONNECT, EventKind.PLAYER_SERVER_SWITCH,
    EventKind.CONFIG_UPDATE, EventKind.READY, EventKind.SHUTDOWN]

/-- The category of a kind: the listeners of the three kinds of player event
are guarded by `includePlayer` in `subscribeToEvents`, those of the other
three by `includeSystem`. -/
def EventKind.isPlayer : EventKind → Bool
  | EventKind.PLAYER_CONNECT => true
  | EventKind.PLAYER_DISCONNECT => true
  | EventKind.PLAYER_SERVER_SWITCH => true
  | EventKind.CONFIG_UPDATE => false
  | EventKind.READY => false
  | EventKind.SHUTDOWN => false

/-- The numbers of the constants `pb.EventType_EVENT_TYPE_*`. They are
declared in the generated package `gatev1`, which is not among the sources,
and are therefore a parameter. -/
structure EventTypeEnum where
  number : EventKind → Int

/-- What the loop `for i := PLAYER_CONNECT; i <= SHUTDOWN; i++` of
`StreamEvents` (api_handlers.go:571) relies on: the number of every kind lies
between the numbers of `PLAYER_CONNECT` and `SHUTDOWN`. -/
def EventTypeEnum.Spans (E : EventTypeEnum) : Prop :=
  ∀ k ∈ EventKind.all,
    E.number EventKind.PLAYER_CONNECT ≤ E.number k ∧ E.number k ≤ E.number EventKind.SHUTDOWN

instance (E : EventTypeEnum) : Decidable E.Spans := by
  unfold EventTypeEnum.Spans
  infer_instance

/-- The numbering that counts the kinds from 1 in the order of the spec, 0
being left for an unspecified kind. -/
def protoEnum : EventTypeEnum where
  number
    | EventKind.PLAYER_CONNECT => 1
    | EventKind.PLAYER_DISCONNECT => 2
    | EventKind.PLAYER_SERVER_SWITCH => 3
    | EventKind.CONFIG_UPDATE => 4
    | EventKind.READY => 5
    | EventKind.SHUTDOWN => 6

/-- The map `eventTypes` that `StreamEvents` builds (api_handlers.go:564-574),
as the list of its keys, all of which map to `true`: the requested numbers, or
for a request without any the numbers from `PLAYER_CONNECT` to `SHUTDOWN`. -/
def eventTypesOf (E : EventTypeEnum) (requested : List Int) : List Int :=
  if requested.length > 0 then requested
  else
    (List.range (E.number EventKind.SHUTDOWN - E.number EventKind.PLAYER_CONNECT + 1).toNat).map
      (fun (i : Nat) => E.number EventKind.PLAYER_CONNECT + (i : Int))

/-- The map access `eventTypes[k]`, `false` for a missing key. -/
def lookupEventType (eventTypes : List Int) (k : Int) : Bool :=
  decide (k ∈ eventTypes)

/-- The method `subscribeToEvents` (api_handlers.go:615-791), as the kinds
whose listener it registers, in the order of registration: one entry for each
unsubscribe function it returns. -/
def subscribeToEvents (E : EventTypeEnum) (eventTypes : List Int)
    (includePlayer includeSystem : Bool) : List EventKind :=
  let u0 : List EventKind := []
  let u1 :=
    if includeSystem && lookupEventType eventTypes (E.number EventKind.CONFIG_UPDATE) then
      u0 ++ [EventKind.CONFIG_UPDATE]
    else u0
  let u2 :=
    if includePlayer && lookupEventType eventTypes (E.number EventKind.PLAYER_CONNECT) then
      u1 ++ [EventKind.PLAYER_CONNECT]
    else u1
  let u3 :=
    if includePlayer && lookupEventType eventTypes (E.number EventKind.PLAYER_DISCONNECT) then
      u2 ++ [EventKind.PLAYER_DISCONNECT]
    else u2
  let u4 :=
    if includePlayer && lookupEventType eventTypes (E.number EventKind.PLAYER_SERVER_SWITCH) then
      u3 ++ [EventKind.PLAYER_SERVER_SWITCH]
    else u3
  let u5 :=
    if includeSystem && lookupEventType eventTypes (E.number EventKind.READY) then
      u4 ++ [EventKind.READY]
    else u4
  let u6 :=
    if includeSystem && lookupEventType eventTypes (E.number EventKind.SHUTDOWN) then
      u5 ++ [EventKind.SHUTDOWN]
    else u5
  u6

/-- The set-up of `StreamEvents` (api_handlers.go:563-589): the filter map,
the two category flags with both-false read as both-true, and the call of
`subscribeToEvents`. -/
def streamSubscriptions (E : EventTypeEnum) (reqEventTypes : List Int)
    (reqIncludePlayerEvents reqIncludeSystemEvents : Bool) : List EventKind :=
  let eventTypes := eventTypesOf E reqEventTypes
  let flags :=
    if !reqIncludePlayerEvents && !reqIncludeSystemEvents then (true, true)
    else (reqIncludePlayerEvents, reqIncludeSystemEvents)
  subscribeToEvents E eventTypes flags.1 flags.2

/-- The values of `proxy.LoginStatus` that `convertLoginStatus` tells apart. -/
inductive LoginStatus where
  | SuccessfulLoginStatus
  | ConflictingLoginStatus
  | CanceledByUserLoginStatus
  | CanceledByProxyLoginStatus
  | CanceledByUserBeforeCompleteLoginStatus
  | other
  deriving DecidableEq, Repr

/-- The values of `pb.LoginStatus`. -/
inductive PbLoginStatus where
  | LOGIN_STATUS_UNSPECIFIED
  | LOGIN_STATUS_SUCCESSFUL
  | LOGIN_STATUS_CONFLICTING
  | LOGIN_STATUS_CANCELED_BY_USER
  | LOGIN_STATUS_CANCELED_BY_PROXY
  | LOGIN_STATUS_CANCELED_BEFORE_COMPLETE
  deriving DecidableEq, Repr

/-- The method `convertLoginStatus` (api_handlers.go:793-809). -/
def convertLoginStatus : LoginStatus → PbLoginStatus
  | LoginStatus.SuccessfulLoginStatus => PbLoginStatus.LOGIN_STATUS_SUCCESSFUL
  | LoginStatus.ConflictingLoginStatus => PbLoginStatus.LOGIN_STATUS_CONFLICTING
  | LoginStatus.CanceledByUserLoginStatus => PbLoginStatus.LOGIN_STATUS_CANCELED_BY_USER
  | LoginStatus.CanceledByProxyLoginStatus => PbLoginStatus.LOGIN_STATUS_CANCELED_BY_PROXY
  | LoginStatus.CanceledByUserBeforeCompleteLoginStatus =>
      PbLoginStatus.LOGIN_STATUS_CANCELED_BEFORE_COMPLETE
  | LoginStatus.other => PbLoginStatus.LOGIN_STATUS_UNSPECIFIED

/-- What the listeners read of a player. -/
structure PlayerInfo where
  ID : String
  Username : String
  RemoteAddr : Option String
  Protocol : Int
  deriving DecidableEq, Repr

/-- The events of the proxy that `subscribeToEvents` listens for, with what
the listeners read of them. -/
inductive ProxyFired (Cfg : Type) where
  | ConfigUpdateEvent (e : ConfigUpdateEvent Cfg)
  | PostLoginEvent (player : PlayerInfo)
  | DisconnectEvent (player : PlayerInfo) (loginStatus : LoginStatus)
  | ServerConnectedEvent (player : PlayerInfo) (previousServer : Option String)
      (server : String)
  | ReadyEvent (addr : String)
  | PreShutdownEvent (reason : Option String)

/-- The kind of the listener that receives an event of the proxy. -/
def ProxyFired.kind {Cfg : Type} : ProxyFired Cfg → EventKind
  | ProxyFired.ConfigUpdateEvent _ => EventKind.CONFIG_UPDATE
  | ProxyFired.PostLoginEvent _ => EventKind.PLAYER_CONNECT
  | ProxyFired.DisconnectEvent _ _ => EventKind.PLAYER_DISCONNECT
  | ProxyFired.ServerConnectedEvent _ _ _ => EventKind.PLAYER_SERVER_SWITCH
  | ProxyFired.ReadyEvent _ => EventKind.READY
  | ProxyFired.PreShutdownEvent _ => EventKind.SHUTDOWN

/-- The payload `EventData` of a `pb.ProxyEvent`. -/
inductive EventData where
  | ConfigUpdate (info : ConfigUpdateInfo)
  | PlayerConnect (playerId playerUsername remoteAddress : String) (protocolVersion : Int)
  | PlayerDisconnect (playerId playerUsername reason : String) (loginStatus : PbLoginStatus)
  | PlayerServerSwitch (playerId playerUsername fromServer toServer : String)
  | Ready (bindAddress : String) (liteMode : Bool)
  | Shutdown (reason : String)
  deriving DecidableEq, Repr

/-- A `pb.ProxyEvent` message. -/
structure ProxyEvent where
  EventType : Int
  TimestampMs : Int
  EventData : EventData
  deriving DecidableEq, Repr

/-- A buffered channel of `pb.ProxyEvent`: its capacity and the events it
holds, oldest first. -/
structure Chan where
  cap : Nat
  buf : List ProxyEvent
  deriving DecidableEq, Repr

/-- The channel `make(chan *pb.ProxyEvent, 100)` of `StreamEvents`
(api_handlers.go:560). -/
def makeEventChan : Chan := { cap := 100, buf := [] }

/-- The statement `select { case eventChan <- proxyEvent: default: }` that
ends every listener (api_handlers.go:637-641): the send goes through when the
buffer has room, and otherwise the default case is taken. -/
def Chan.offer (ch : Chan) (proxyEvent : ProxyEvent) : Chan :=
  if ch.buf.length < ch.cap then { ch with buf := ch.buf ++ [proxyEvent] }
  else ch

/-- The receive `<-eventChan` when an event is ready: the oldest event and
the channel without it. -/
def Chan.recv (ch : Chan) : Option (ProxyEvent × Chan) :=
  match ch.buf with
  | [] => none
  | e :: rest => some (e, { ch with buf := rest })

/-- The listener that `subscribeToEvents` registers for the type of the fired
event (api_handlers.go:620-642, 648-671, 677-697, 703-726, 732-758, 764-786),
at the time `now` in milliseconds: the listeners for the configuration update
and for the ready event take the mutex first, every listener builds its
message and ends with the offer to the channel. `marshalJSON` is
`json.Marshal` on the shutdown reason. The result is `none` while the mutex
is held by someone else, in which case the listener waits. -/
def listener {Cfg : Type} (E : EventTypeEnum) (env : ConfigEnv Cfg)
    (marshalJSON : String → Except GoError String) (now : Int) :
    ProxyFired Cfg → Shared Cfg → Chan → Option (Shared Cfg × Chan)
  | ProxyFired.ConfigUpdateEvent e, st, eventChan =>
      match onConfigUpdate env st e with
      | none => none
      | some (info, s1) =>
          some (s1, eventChan.offer
            ⟨E.number EventKind.CONFIG_UPDATE, now, EventData.ConfigUpdate info⟩)
  | ProxyFired.PostLoginEvent player, st, eventChan =>
      let remoteAddr := match player.RemoteAddr with
        | some addr => addr
        | none => ""
      some (st, eventChan.offer
        ⟨E.number EventKind.PLAYER_CONNECT, now,
          EventData.PlayerConnect player.ID player.Username remoteAddr (int32 player.Protocol)⟩)
  | ProxyFired.DisconnectEvent player status, st, eventChan =>
      let loginStatus := convertLoginStatus status
      some (st, eventChan.offer
        ⟨E.number EventKind.PLAYER_DISCONNECT, now,
          EventData.PlayerDisconnect player.ID player.Username "" loginStatus⟩)
  | ProxyFired.ServerConnectedEvent player previousServer server, st, eventChan =>
      let fromServer := match previousServer with
        | some name => name
        | none => ""
      some (st, eventChan.offer
        ⟨E.number EventKind.PLAYER_SERVER_SWITCH, now,
          EventData.PlayerServerSwitch player.ID player.Username fromServer server⟩)
  | ProxyFired.ReadyEvent addr, st, eventChan =>
      match st.Lock with
      | none => none
      | some s1 =>
          let isLiteMode := env.liteEnabled s1.cfg
          some (s1.Unlock, eventChan.offer
            ⟨E.number EventKind.READY, now, EventData.Ready addr isLiteMode⟩)
  | ProxyFired.PreShutdownEvent reason, st, eventChan =>
      let text := match reason with
        | none => ""
        | some r =>
            match marshalJSON r with
            | Except.ok data => data
            | Except.error _ => ""
      some (st, eventChan.offer
        ⟨E.number EventKind.SHUTDOWN, now, EventData.Shutdown text⟩)

/-- One call of `StreamEvents` in progress: the kinds whose listener it has
registered and its own channel. -/
structure Subscriber where
  subscriptions : List EventKind
  eventChan : Chan
  deriving DecidableEq, Repr

/-- The subscriber that a call of `StreamEvents` sets up
(api_handlers.go:560-589). -/
def StreamEvents (E : EventTypeEnum) (reqEventTypes : List Int)
    (reqIncludePlayerEvents reqIncludeSystemEvents : Bool) : Subscriber :=
  { subscriptions :=
      streamSubscriptions E reqEventTypes reqIncludePlayerEvents reqIncludeSystemEvents,
    eventChan := makeEventChan }

/-- The event manager delivering a fired event to one subscriber: the
listener registered for the type of the event runs, if the subscriber has
registered it. -/
def Subscriber.deliver {Cfg : Type} (E : EventTypeEnum) (env : ConfigEnv Cfg)
    (marshalJSON : String → Except GoError String) (now : Int) (ev : ProxyFired Cfg)
    (st : Shared Cfg) (sub : Subscriber) : Option (Shared Cfg × Subscriber) :=
  if ev.kind ∈ sub.subscriptions then
    match listener E env marshalJSON now ev st sub.eventChan with
    | none => none
    | some (s1, ch) => some (s1, { sub with eventChan := ch })
  else some (st, sub)

/-- The event manager delivering a fired event to all subscribers in turn. -/
def fireAll {Cfg : Type} (E : EventTypeEnum) (env : ConfigEnv Cfg)
    (marshalJSON : String → Except GoError String) (now : Int) (ev : ProxyFired Cfg) :
    Shared Cfg → List Subscriber → Option (Shared Cfg × List Subscriber)
  | st, [] => some (st, [])
  | st, sub :: rest =>
      match sub.deliver E env marshalJSON now ev st with
      | none => none
      | some (s1, sub1) =>
          match fireAll E env marshalJSON now ev s1 rest with
          | none => none
          | some (s2, rest1) => some (s2, sub1 :: rest1)

/-- What happens to one channel: an emitter offers an event, or the loop of
`StreamEvents` receives one and sends it to the client. -/
inductive ChanOp where
  | offer (proxyEvent : ProxyEvent)
  | send
  deriving DecidableEq, Repr

/-- A run of the channel of one subscriber and of the loop of `StreamEvents`
(api_handlers.go:597-611) over a schedule of offers and sends: the channel
and the events sent to the client so far, oldest first. A send with no event
ready waits, which leaves everything as it is. -/
def runChan : List ChanOp → Chan × List ProxyEvent → Chan × List ProxyEvent
  | [], s => s
  | ChanOp.offer e :: rest, (ch, sent) => runChan rest (ch.offer e, sent)
  | ChanOp.send :: rest, (ch, sent) =>
      match ch.recv with
      | none => runChan rest (ch, sent)
      | some (e, ch1) => runChan rest (ch1, sent ++ [e])

/-- The events offered in a schedule, oldest first. -/
def offered : List ChanOp → List ProxyEvent
  | [] => []
  | ChanOp.offer e :: rest => e :: offered rest
  | ChanOp.send :: rest => offered rest

/-- A player for the examples. -/
def alice : PlayerInfo :=
  { ID := "3f0c", Username := "alice", RemoteAddr := some "192.0.2.7:51000", Protocol := 763 }

/-- A stand-in for `json.Marshal` of a shutdown reason. -/
def quoteJSON (s : String) : Except GoError String := Except.ok ("\"" ++ s ++ "\"")

/-! ## Applying a configuration while subscribers listen -/

/-- Modelled from the spec: the delivery of a config-update event to the
subscribers of the event stream. `reload.FireConfigUpdate` and the event
manager behind it are not among the sources; the spec has the multiplexer
"emit events on the emitting task", so the listeners that
`subscribeToEvents` has registered run inside the call that publishes, one
subscriber after the other, in the state at the moment of publication. The
result is `none` when a listener waits for good. -/
def publishConfigUpdate {Cfg : Type} (E : EventTypeEnum) (env : ConfigEnv Cfg)
    (marshalJSON : String → Except GoError String) (now : Int) (subs : List Subscriber)
    (st : Shared Cfg) (config prev : Cfg) : Option (Shared Cfg × List Subscriber) :=
  fireAll E env marshalJSON now (ProxyFired.ConfigUpdateEvent ⟨config, prev⟩)
    (FireConfigUpdate st config prev) subs

/-- The locked section of `ApplyConfig` (api_handlers.go:157-161) and of
`applyConfigUpdate` (api_handlers.go:528-532) while `subs` listen: lock, copy
the old configuration, store the new one, publish, unlock. `none` when the
call does not return. -/
def swapAndPublish {Cfg : Type} (E : EventTypeEnum) (env : ConfigEnv Cfg)
    (marshalJSON : String → Except GoError String) (now : Int) (subs : List Subscriber)
    (st : Shared Cfg) (newCfg : Cfg) : Option (Shared Cfg × List Subscriber) :=
  match st.Lock with
  | none => none
  | some s1 =>
      let prev := s1.cfg
      let s2 := s1.store newCfg
      match publishConfigUpdate E env marshalJSON now subs s2 s2.cfg prev with
      | none => none
      | some (s3, subs1) => some (s3.Unlock, subs1)

/-- The order of steps in the words of the spec, "under lock, swap pointer,
record previous value, release lock, publish a config-update event with new
and previous": the locked section with the publication moved behind the
unlock. It is what the handlers are compared with, not what they do. -/
def swapThenPublish {Cfg : Type} (E : EventTypeEnum) (env : ConfigEnv Cfg)
    (marshalJSON : String → Except GoError String) (now : Int) (subs : List Subscriber)
    (st : Shared Cfg) (newCfg : Cfg) : Option (Shared Cfg × List Subscriber) :=
  match st.Lock with
  | none => none
  | some s1 =>
      let prev := s1.cfg
      let s2 := s1.store newCfg
      let s3 := s2.Unlock
      publishConfigUpdate E env marshalJSON now subs s3 s3.cfg prev

/-- The method `ConfigHandlerImpl.ApplyConfig` (api_handlers.go:142-180)
while `subs` listen: `ApplyConfig` with the listeners run at the point of
publication. -/
def ApplyConfigStreamed {Cfg : Type} (rt : Runtime) (E : EventTypeEnum) (env : ConfigEnv Cfg)
    (marshalJSON : String → Except GoError String) (now : Int) (subs : List Subscriber)
    (configFilePath : String) (config : String) (persist : Bool) (st : Shared Cfg) :
    Option (Except ConnectError (List String) × Shared Cfg × List Subscriber) :=
  match env.unmarshal config with
  | Except.error err =>
      some (Except.error ⟨Code.invalidArgument, errorf rt "invalid YAML/JSON" err⟩, st, subs)
  | Except.ok newCfg =>
      let warns := (env.validate newCfg).1
      let errs := (env.validate newCfg).2
      if errs.length > 0 then some (Except.error (validationFailed rt errs), st, subs)
      else
        match swapAndPublish E env marshalJSON now subs st newCfg with
        | none => none
        | some (s1, subs1) =>
            let warnStrs := warns.map (fun e => e.Error rt)
            if persist then
              match persistConfig rt env configFilePath newCfg s1 with
              | (some err, s2) =>
                  some (Except.ok (warnStrs ++
                    ["failed to persist config to disk: " ++ err.Error rt]), s2, subs1)
              | (none, s2) => some (Except.ok warnStrs, s2, subs1)
            else some (Except.ok warnStrs, s1, subs1)

/-- The method `LiteHandlerImpl.applyConfigUpdate` (api_handlers.go:515-535)
while `subs` listen. -/
def applyConfigUpdateStreamed {Cfg : Type} (rt : Runtime) (E : EventTypeEnum)
    (env : ConfigEnv Cfg) (marshalJSON : String → Except GoError String) (now : Int)
    (subs : List Subscriber) (newCfg : Cfg) (st : Shared Cfg) :
    Option (Except ConnectError (List String) × Shared Cfg × List Subscriber) :=
  let warns := (env.validate newCfg).1
  let errs := (env.validate newCfg).2
  if errs.length > 0 then some (Except.error (validationFailed rt errs), st, subs)
  else
    let warnStrs := warns.map (fun e => e.Error rt)
    match swapAndPublish E env marshalJSON now subs st newCfg with
    | none => none
    | some (s1, subs1) => some (Except.ok warnStrs, s1, subs1)

/-! ## Classifier: lemmas -/

/-- The loop of `errors.Is` succeeds exactly on the members of the chain. -/
theorem errorsIs_iff_mem_chain (e target : GoError) :
    errorsIs e target = true ↔ target ∈ e.chain := by
  induction e with
  | errno code => simp [errorsIs, GoError.chain, eq_comm]
  | leaf text => simp [errorsIs, GoError.chain, eq_comm]
  | wrap text inner ih =>
      simp only [errorsIs, GoError.chain, Bool.or_eq_true, decide_eq_true_eq, List.mem_cons, ih]
      rw [eq_comm]
  | verbosity level inner ih =>
      simp only [errorsIs, GoError.chain, Bool.or_eq_true, decide_eq_true_eq, List.mem_cons, ih]
      rw [eq_comm]

/-- The scan of `strings.Contains` succeeds exactly on the infixes. -/
theorem containsAux_iff_infix (sub s : List Char) :
    containsAux sub s = true ↔ sub <:+: s := by
  induction s with
  | nil => simp [containsAux, List.isEmpty_iff]
  | cons c cs ih =>
      simp only [containsAux, Bool.or_eq_true, ih, List.infix_cons_iff, List.isPrefixOf_iff_prefix]

/-- The classifier decides the condition of the spec. -/
theorem isConnectionRefused_iff (rt : Runtime) (err : Option GoError) :
    IsConnectionRefused rt err = true ↔ RefusedCause rt err := by
  cases err with
  | none => simp [IsConnectionRefused, RefusedCause]
  | some e =>
      simp [IsConnectionRefused, RefusedCause, errorsIs_iff_mem_chain, stringsContains,
        stringsToLower, containsAux_iff_infix]

/-- The connection-refused code sits at the end of the chain of any stack of
wrappers around it. -/
theorem errno_mem_chain_wrapped (code : Nat) (texts : List String) :
    GoError.errno code ∈ (texts.foldr GoError.wrap (GoError.errno code)).chain := by
  induction texts with
  | nil => simp [GoError.chain]
  | cons t ts ih => simp [GoError.chain, ih]

/-! ## Classifier: properties -/

/-- C1. `IsConnectionRefused(err)` is true exactly when `err` is not nil and
either its `Unwrap` chain holds `syscall.ECONNREFUSED` or its lower-cased
message holds "connection refused". It is false for nil, and true for
`ECONNREFUSED` under any number of wrappers, whatever their messages. -/
theorem isConnectionRefused_characterised (rt : Runtime) (err : Option GoError) :
    (IsConnectionRefused rt err = true ↔
        ∃ e, err = some e ∧
          (GoError.errno rt.ECONNREFUSED ∈ e.chain ∨
            "connection refused".data <:+: (e.Error rt).data.map rt.toLowerRune)) ∧
      IsConnectionRefused rt none = false ∧
      ∀ texts : List String,
        IsConnectionRefused rt
          (some (texts.foldr GoError.wrap (GoError.errno rt.ECONNREFUSED))) = true := by
  refine ⟨isConnectionRefused_iff rt err, rfl, fun texts => ?_⟩
  exact (isConnectionRefused_iff rt _).2
    ⟨_, rfl, Or.inl (errno_mem_chain_wrapped rt.ECONNREFUSED texts)⟩

/-- The table of `TestIsConnectionRefused`, read on linux. -/
theorem isConnectionRefused_test_table :
    IsConnectionRefused linux (some (GoError.errno 111)) = true ∧
      IsConnectionRefused linux
        (some (GoError.leaf "dial tcp 127.0.0.1:25566: connect: connection refused")) = true ∧
      IsConnectionRefused linux (some (GoError.leaf "Connection Refused by server")) = true ∧
      IsConnectionRefused linux
        (some (GoError.wrap "connection refused" (GoError.errno 111))) = true ∧
      IsConnectionRefused linux
        (some (GoError.leaf "dial tcp 127.0.0.1:25566: i/o timeout")) = false ∧
      IsConnectionRefused linux (some (GoError.leaf "dial tcp: missing address")) = false ∧
      IsConnectionRefused linux none = false := by
  decide

/-- C2. `getErrorVerbosity(err)` is 1 (debug) exactly when
`IsConnectionRefused(err)` holds and 0 (info) exactly when it does not; no
other value is returned. -/
theorem getErrorVerbosity_levels (rt : Runtime) (err : Option GoError) :
    (getErrorVerbosity rt err = 1 ↔ IsConnectionRefused rt err = true) ∧
      (getErrorVerbosity rt err = 0 ↔ IsConnectionRefused rt err = false) ∧
      (getErrorVerbosity rt err = 1 ∨ getErrorVerbosity rt err = 0) := by
  unfold getErrorVerbosity
  cases IsConnectionRefused rt err <;> simp

/-! ## Selector: lemmas -/

theorem lookup_of_mem {servers : List (String × ServerConfig)} {name : String}
    {sc : ServerConfig} (hnd : (servers.map Prod.fst).Nodup) (hmem : (name, sc) ∈ servers) :
    servers.lookup name = some sc := by
  induction servers with
  | nil => cases hmem
  | cons hd tl ih =>
      obtain ⟨k, v⟩ := hd
      simp only [List.map_cons, List.nodup_cons, List.mem_map, not_exists, not_and] at hnd
      rcases List.mem_cons.1 hmem with h | h
      · cases h
        simp [List.lookup]
      · have hne : name ≠ k := fun heq => hnd.1 (name, sc) h heq
        have hb : (name == k) = false := by simpa using hne
        simp only [List.lookup, hb]
        exact ih hnd.2 h

theorem mem_of_lookup {servers : List (String × ServerConfig)} {name : String}
    {sc : ServerConfig} (h : servers.lookup name = some sc) : (name, sc) ∈ servers := by
  induction servers with
  | nil => simp [List.lookup] at h
  | cons hd tl ih =>
      obtain ⟨k, v⟩ := hd
      by_cases hk : name = k
      · subst hk
        simp [List.lookup] at h
        subst h
        exact List.mem_cons_self _ _
      · have hb : (name == k) = false := by simpa using hk
        simp only [List.lookup, hb] at h
        exact List.mem_cons_of_mem _ (ih h)

theorem findInTry_some {servers : List (String × ServerConfig)} {names : List String}
    {sc : ServerConfig} {name : String} (h : findInTry servers names = some (sc, name)) :
    name ∈ names ∧ servers.lookup name = some sc ∧ sc.PassthroughMOTD = true := by
  induction names with
  | nil => simp [findInTry] at h
  | cons n rest ih =>
      unfold findInTry at h
      split at h
      · rename_i c hc
        split at h
        · rename_i hp
          simp only [Option.some.injEq, Prod.mk.injEq] at h
          obtain ⟨h1, h2⟩ := h
          subst h1; subst h2
          exact ⟨List.mem_cons_self _ _, hc, hp⟩
        · obtain ⟨a, b⟩ := ih h
          exact ⟨List.mem_cons_of_mem _ a, b⟩
      · obtain ⟨a, b⟩ := ih h
        exact ⟨List.mem_cons_of_mem _ a, b⟩


theorem findInTry_skip {servers : List (String × ServerConfig)} (pre rest : List String)
    (hpre : ∀ n ∈ pre, ¬ Eligible servers n) :
    findInTry servers (pre ++ rest) = findInTry servers rest := by
  induction pre with
  | nil => rfl
  | cons n pre ih =>
      have hn : ¬ Eligible servers n := hpre n (List.mem_cons_self _ _)
      have ih2 := ih (fun m hm => hpre m (List.mem_cons_of_mem _ hm))
      simp only [List.cons_append, findInTry]
      split
      · rename_i c hc
        split
        · rename_i hp
          exact absurd ⟨c, hc, hp⟩ hn
        · exact ih2
      · exact ih2

theorem findInTry_none_iff {servers : List (String × ServerConfig)} {names : List String} :
    findInTry servers names = none ↔ ∀ n ∈ names, ¬ Eligible servers n := by
  constructor
  · intro h
    induction names with
    | nil => intro n hn; cases hn
    | cons m rest ih =>
        unfold findInTry at h
        intro n hn
        split at h
        · rename_i c hc
          split at h
          · cases h
          · rcases List.mem_cons.1 hn with e | e
            · subst e
              rintro ⟨sc, h1, h2⟩
              rw [hc] at h1
              cases h1
              rename_i hp
              exact hp h2
            · exact ih h n e
        · rename_i hc
          rcases List.mem_cons.1 hn with e | e
          · subst e
            rintro ⟨sc, h1, _⟩
            rw [hc] at h1
            cases h1
          · exact ih h n e
  · intro h
    have := @findInTry_skip servers names [] h
    simpa [findInTry] using this

theorem findInRange_some {order : List (String × ServerConfig)}
    {sc : ServerConfig} {name : String} (h : findInRange order = some (sc, name)) :
    (name, sc) ∈ order ∧ sc.PassthroughMOTD = true := by
  induction order with
  | nil => simp [findInRange] at h
  | cons hd tl ih =>
      obtain ⟨k, v⟩ := hd
      unfold findInRange at h
      split at h
      · rename_i hp
        simp only [Option.some.injEq, Prod.mk.injEq] at h
        obtain ⟨h1, h2⟩ := h
        subst h1; subst h2
        exact ⟨List.mem_cons_self _ _, hp⟩
      · obtain ⟨a, b⟩ := ih h
        exact ⟨List.mem_cons_of_mem _ a, b⟩

theorem findInRange_none_iff {order : List (String × ServerConfig)} :
    findInRange order = none ↔ ∀ e ∈ order, e.2.PassthroughMOTD = false := by
  induction order with
  | nil => simp [findInRange]
  | cons hd tl ih =>
      obtain ⟨k, v⟩ := hd
      unfold findInRange
      split
      · rename_i hp
        simp [hp]
      · rename_i hp
        simp [ih, hp]


theorem findPassthroughServer_cases (cfg : Config) (order : List (String × ServerConfig)) :
    (∃ sc name, findPassthroughServer cfg order = (some sc, name) ∧
        (findInTry cfg.Servers cfg.Try = some (sc, name) ∨
          (findInTry cfg.Servers cfg.Try = none ∧ findInRange order = some (sc, name)))) ∨
      (findPassthroughServer cfg order = (none, "") ∧
        findInTry cfg.Servers cfg.Try = none ∧ findInRange order = none) := by
  unfold findPassthroughServer
  cases h1 : findInTry cfg.Servers cfg.Try with
  | some p =>
      obtain ⟨sc, name⟩ := p
      exact Or.inl ⟨sc, name, rfl, Or.inl rfl⟩
  | none =>
      cases h2 : findInRange order with
      | some p =>
          obtain ⟨sc, name⟩ := p
          exact Or.inl ⟨sc, name, rfl, Or.inr ⟨rfl, rfl⟩⟩
      | none => exact Or.inr ⟨rfl, rfl, rfl⟩

theorem findPassthroughServer_sound {cfg : Config} {order : List (String × ServerConfig)}
    (hwf : cfg.WellFormed) (hord : RangeOrder cfg order) {sc : ServerConfig} {name : String}
    (h : findPassthroughServer cfg order = (some sc, name)) :
    cfg.Servers.lookup name = some sc ∧ sc.PassthroughMOTD = true := by
  rcases findPassthroughServer_cases cfg order with ⟨sc', name', heq, hc⟩ | ⟨heq, _⟩
  · rw [heq] at h
    simp only [Prod.mk.injEq, Option.some.injEq] at h
    obtain ⟨h1, h2⟩ := h
    subst h1; subst h2
    rcases hc with hc | ⟨_, hc⟩
    · exact (findInTry_some hc).2
    · obtain ⟨hm, hp⟩ := findInRange_some hc
      exact ⟨lookup_of_mem hwf (hord.mem_iff.1 hm), hp⟩
  · rw [heq] at h
    cases h

theorem findPassthroughServer_order_irrelevant (cfg : Config)
    (o1 o2 : List (String × ServerConfig))
    (h1 : RangeOrder cfg o1) (h2 : RangeOrder cfg o2)
    (hdet : (∃ n ∈ cfg.Try, Eligible cfg.Servers n) ∨
      (∀ a ∈ cfg.Servers, ∀ b ∈ cfg.Servers,
        a.2.PassthroughMOTD = true → b.2.PassthroughMOTD = true → a = b)) :
    findPassthroughServer cfg o1 = findPassthroughServer cfg o2 := by
  cases ht : findInTry cfg.Servers cfg.Try with
  | some p => simp [findPassthroughServer, ht]
  | none =>
      have hno := findInTry_none_iff.1 ht
      rcases hdet with ⟨n, hn, he⟩ | huniq
      · exact absurd he (hno n hn)
      · have key : findInRange o1 = findInRange o2 := by
          cases r1 : findInRange o1 with
          | none =>
              have a1 := findInRange_none_iff.1 r1
              symm
              exact findInRange_none_iff.2
                (fun e he => a1 e (h1.mem_iff.2 (h2.mem_iff.1 he)))
          | some p1 =>
              obtain ⟨sc1, n1⟩ := p1
              obtain ⟨m1, p1⟩ := findInRange_some r1
              cases r2 : findInRange o2 with
              | none =>
                  have a2 := findInRange_none_iff.1 r2 (n1, sc1) (h2.mem_iff.2 (h1.mem_iff.1 m1))
                  simp only at a2
                  rw [p1] at a2
                  cases a2
              | some p2 =>
                  obtain ⟨sc2, n2⟩ := p2
                  obtain ⟨m2, p2⟩ := findInRange_some r2
                  have := huniq (n1, sc1) (h1.mem_iff.1 m1) (n2, sc2) (h2.mem_iff.1 m2) p1 p2
                  simp only [Prod.mk.injEq] at this
                  obtain ⟨e1, e2⟩ := this
                  subst e1; subst e2
                  rfl
        simp [findPassthroughServer, ht, key]

/-! ## Selector: properties -/

/-- C3. Under a well-formed server map, `findPassthroughServer` returns a
server exactly when some entry of `Servers` has `PassthroughMOTD`; a returned
`(sc, name)` has `name` among the keys, `sc = Servers[name]` and
`sc.PassthroughMOTD`; when no server is returned the result is `(nil, "")`. -/
theorem selector_returns_iff_passthrough_exists (cfg : Config)
    (order : List (String × ServerConfig))
    (hwf : cfg.WellFormed) (hord : RangeOrder cfg order) :
    ((findPassthroughServer cfg order).1.isSome = true ↔
        ∃ e ∈ cfg.Servers, e.2.PassthroughMOTD = true) ∧
      (∀ sc name, findPassthroughServer cfg order = (some sc, name) →
        name ∈ cfg.Servers.map Prod.fst ∧ cfg.Servers.lookup name = some sc ∧
          sc.PassthroughMOTD = true) ∧
      ((findPassthroughServer cfg order).1 = none →
        findPassthroughServer cfg order = (none, "")) := by
  refine ⟨⟨?_, ?_⟩, ?_, ?_⟩
  · intro h
    rcases findPassthroughServer_cases cfg order with ⟨sc, name, heq, _⟩ | ⟨heq, _⟩
    · obtain ⟨hl, hp⟩ := findPassthroughServer_sound hwf hord heq
      exact ⟨(name, sc), mem_of_lookup hl, hp⟩
    · rw [heq] at h
      cases h
  · rintro ⟨e, he, hp⟩
    rcases findPassthroughServer_cases cfg order with ⟨sc, name, heq, _⟩ | ⟨_, _, hr⟩
    · rw [heq]; rfl
    · have := findInRange_none_iff.1 hr e (hord.mem_iff.2 he)
      rw [hp] at this
      cases this
  · intro sc name h
    obtain ⟨hl, hp⟩ := findPassthroughServer_sound hwf hord h
    exact ⟨List.mem_map.2 ⟨(name, sc), mem_of_lookup hl, rfl⟩, hl, hp⟩
  · intro h
    rcases findPassthroughServer_cases cfg order with ⟨sc, name, heq, _⟩ | ⟨heq, _⟩
    · rw [heq] at h
      cases h
    · exact heq

/-- C3 on the first table row of `TestFindPassthroughServer`: `server2` is
returned. -/
theorem selector_returns_iff_passthrough_exists_witness :
    tryConfig.WellFormed ∧ RangeOrder tryConfig tryConfig.Servers ∧
      (∃ e ∈ tryConfig.Servers, e.2.PassthroughMOTD = true) ∧
      findPassthroughServer tryConfig tryConfig.Servers =
        (some ⟨"localhost:25562", true, 0⟩, "server2") ∧
      tryConfig.Servers.lookup "server2" = some ⟨"localhost:25562", true, 0⟩ :=
  ⟨by decide, by decide,
    (selector_returns_iff_passthrough_exists tryConfig tryConfig.Servers
      (by decide) (by decide)).1.1 (by decide),
    by decide,
    ((selector_returns_iff_passthrough_exists tryConfig tryConfig.Servers
      (by decide) (by decide)).2.1 _ _ (by decide)).2.1⟩

/-- C4. When the Try list reads `pre ++ name :: post`, no name of `pre` is
eligible (each is missing from the map or has passthrough off) and `name` is a
key whose server has passthrough on, `findPassthroughServer` returns that
server under `name`, whatever the map order; and the Try pass only ever yields
a Try name that is a key with passthrough on. -/
theorem selector_prefers_try_order (cfg : Config) (order : List (String × ServerConfig))
    (pre post : List String) (name : String) (sc : ServerConfig)
    (htry : cfg.Try = pre ++ name :: post)
    (hpre : ∀ n ∈ pre, ¬ Eligible cfg.Servers n)
    (hkey : cfg.Servers.lookup name = some sc) (hpass : sc.PassthroughMOTD = true) :
    findPassthroughServer cfg order = (some sc, name) ∧
      ∀ sc1 name1, findInTry cfg.Servers cfg.Try = some (sc1, name1) →
        name1 ∈ cfg.Try ∧ cfg.Servers.lookup name1 = some sc1 ∧ sc1.PassthroughMOTD = true := by
  refine ⟨?_, fun sc1 name1 h => findInTry_some h⟩
  have h : findInTry cfg.Servers cfg.Try = some (sc, name) := by
    rw [htry, findInTry_skip pre _ hpre]
    simp [findInTry, hkey, hpass]
  simp [findPassthroughServer, h]

/-- C4 on `fallbackConfig` with `fallbackB` put on the Try list after a server
without passthrough and a name that is no key. -/
theorem selector_prefers_try_order_witness :
    findPassthroughServer
        { fallbackConfig with Try := ["server1", "ghost", "fallbackB", "fallbackA"] }
        fallbackConfig.Servers =
      (some ⟨"localhost:25564", true, 0⟩, "fallbackB") :=
  (selector_prefers_try_order
    { fallbackConfig with Try := ["server1", "ghost", "fallbackB", "fallbackA"] }
    fallbackConfig.Servers ["server1", "ghost"] ["fallbackA"] "fallbackB"
    ⟨"localhost:25564", true, 0⟩ rfl (by decide) (by decide) rfl).1

/-- C5, as stated, fails: on `fallbackConfig` no Try name is eligible and two
visiting orders of the same map give two different servers. -/
theorem selector_depends_on_map_order :
    fallbackConfig.WellFormed ∧
      RangeOrder fallbackConfig fallbackConfig.Servers ∧
      RangeOrder fallbackConfig fallbackConfig.Servers.reverse ∧
      findPassthroughServer fallbackConfig fallbackConfig.Servers =
        (some ⟨"localhost:25563", true, 0⟩, "fallbackA") ∧
      findPassthroughServer fallbackConfig fallbackConfig.Servers.reverse =
        (some ⟨"localhost:25564", true, 0⟩, "fallbackB") ∧
      findPassthroughServer fallbackConfig fallbackConfig.Servers ≠
        findPassthroughServer fallbackConfig fallbackConfig.Servers.reverse := by
  decide

/-- C5, amended. The result depends on the configuration and the visiting
order of the map only. Two evaluations on one configuration return the same
pair whenever some Try name is eligible or at most one entry has passthrough
on; in every case both evaluations agree on whether a server is returned, and
a returned server is an entry of `Servers` with passthrough on. -/
theorem selector_deterministic_up_to_fallback (cfg : Config)
    (o1 o2 : List (String × ServerConfig))
    (h1 : RangeOrder cfg o1) (h2 : RangeOrder cfg o2) :
    (((∃ n ∈ cfg.Try, Eligible cfg.Servers n) ∨
        (∀ a ∈ cfg.Servers, ∀ b ∈ cfg.Servers,
          a.2.PassthroughMOTD = true → b.2.PassthroughMOTD = true → a = b)) →
        findPassthroughServer cfg o1 = findPassthroughServer cfg o2) ∧
      ((findPassthroughServer cfg o1).1.isSome = (findPassthroughServer cfg o2).1.isSome) ∧
      ∀ sc name, findPassthroughServer cfg o1 = (some sc, name) →
        (name, sc) ∈ cfg.Servers ∧ sc.PassthroughMOTD = true := by
  refine ⟨findPassthroughServer_order_irrelevant cfg o1 o2 h1 h2, ?_, ?_⟩
  · rcases findPassthroughServer_cases cfg o1 with ⟨sc1, n1, e1, c1⟩ | ⟨e1, t1, r1⟩
    · rcases findPassthroughServer_cases cfg o2 with ⟨sc2, n2, e2, _⟩ | ⟨_, t2, r2⟩
      · simp [e1, e2]
      · rcases c1 with c1 | ⟨_, c1⟩
        · rw [t2] at c1
          cases c1
        · obtain ⟨m, hp⟩ := findInRange_some c1
          have := findInRange_none_iff.1 r2 _ (h2.mem_iff.2 (h1.mem_iff.1 m))
          simp only at this
          rw [hp] at this
          cases this
    · rcases findPassthroughServer_cases cfg o2 with ⟨sc2, n2, _, c2⟩ | ⟨e2, _, _⟩
      · rcases c2 with c2 | ⟨_, c2⟩
        · rw [t1] at c2
          cases c2
        · obtain ⟨m, hp⟩ := findInRange_some c2
          have := findInRange_none_iff.1 r1 _ (h1.mem_iff.2 (h2.mem_iff.1 m))
          simp only at this
          rw [hp] at this
          cases this
      · simp [e1, e2]
  · intro sc name h
    rcases findPassthroughServer_cases cfg o1 with ⟨sc1, n1, e1, c1⟩ | ⟨e1, _, _⟩
    · rw [e1] at h
      simp only [Prod.mk.injEq, Option.some.injEq] at h
      obtain ⟨a, b⟩ := h
      subst a; subst b
      rcases c1 with c1 | ⟨_, c1⟩
      · exact ⟨mem_of_lookup (findInTry_some c1).2.1, (findInTry_some c1).2.2⟩
      · obtain ⟨m, hp⟩ := findInRange_some c1
        exact ⟨h1.mem_iff.1 m, hp⟩
    · rw [e1] at h
      cases h

/-- C5 amended, on `tryConfig`: a Try name is eligible, so the two visiting
orders give the same server. -/
theorem selector_deterministic_up_to_fallback_witness :
    RangeOrder tryConfig tryConfig.Servers ∧
      RangeOrder tryConfig tryConfig.Servers.reverse ∧
      findPassthroughServer tryConfig tryConfig.Servers =
        findPassthroughServer tryConfig tryConfig.Servers.reverse :=
  ⟨by decide, by decide,
    (selector_deterministic_up_to_fallback tryConfig tryConfig.Servers
      tryConfig.Servers.reverse (by decide) (by decide)).1
      (Or.inl ⟨"server2", by decide, ⟨"localhost:25562", true, 0⟩, by decide, rfl⟩)⟩

/-- C6. `CachePingEnabled` holds exactly when passthrough is on and the TTL is
positive: it is false for a zero TTL and false with passthrough off whatever
the TTL. The four rows of `TestServerConfig_CachePingEnabled` come out as the
test expects. -/
theorem cachePingEnabled_characterised (sc : ServerConfig) :
    (sc.CachePingEnabled = true ↔ sc.PassthroughMOTD = true ∧ 0 < sc.CachePingTTL) ∧
      (∀ (addr : String) (pass : Bool),
        ServerConfig.CachePingEnabled ⟨addr, pass, 0⟩ = false) ∧
      (∀ (addr : String) (ttl : Int),
        ServerConfig.CachePingEnabled ⟨addr, false, ttl⟩ = false) ∧
      ServerConfig.CachePingEnabled ⟨"", true, 5000000000⟩ = true ∧
      ServerConfig.CachePingEnabled ⟨"", false, 0⟩ = false ∧
      ServerConfig.CachePingEnabled ⟨"", false, 5000000000⟩ = false := by
  refine ⟨by simp [ServerConfig.CachePingEnabled], fun addr pass => ?_, fun addr ttl => ?_,
    by decide, by decide, by decide⟩
  · simp [ServerConfig.CachePingEnabled]
  · simp [ServerConfig.CachePingEnabled]

/-! ## Orchestrator: lemmas -/

/-- The dial answers the same in every world and only appends
network actions to the trace. -/
theorem dial_world (rt : Runtime) (cfg : Config) (net : Backend) (addr : String)
    (p : Protocol) :
    ∃ evs : List Event, (∀ e ∈ evs, e.isNetwork = true) ∧
      ∃ r : Except GoError Addr, ∀ w : World,
        dialPassthroughServer rt cfg net addr p w = (r, { w with trace := w.trace ++ evs }) := by
  cases hp : net.parse addr with
  | error err =>
      exact ⟨[], by simp, Except.error (errorf rt ("failed to parse server address " ++ addr) err),
        fun w => by simp [dialPassthroughServer, hp]⟩
  | ok a =>
      cases hd : net.dial a.text cfg.ConnectionTimeout with
      | some err =>
          exact ⟨[Event.dial a.text cfg.ConnectionTimeout], by simp [Event.isNetwork],
            Except.error (GoError.verbosity (getErrorVerbosity rt (some err))
              (errorf rt ("failed to connect to backend " ++ addr) err)),
            fun w => by simp [dialPassthroughServer, hp, hd, World.emit]⟩
      | none =>
          cases hh : net.writeHandshake (statusHandshake a p) with
          | some err =>
              exact ⟨[Event.dial a.text cfg.ConnectionTimeout,
                  Event.handshake (statusHandshake a p)],
                by simp [Event.isNetwork],
                Except.error (errorf rt "failed to send handshake packet" err),
                fun w => by
                  simp [dialPassthroughServer, hp, hd, hh, World.emit, sendHandshakeToBackend]⟩
          | none =>
              exact ⟨[Event.dial a.text cfg.ConnectionTimeout,
                  Event.handshake (statusHandshake a p)],
                by simp [Event.isNetwork], Except.ok a,
                fun w => by
                  simp [dialPassthroughServer, hp, hd, hh, World.emit, sendHandshakeToBackend]⟩

/-- The `load` closure answers the same in every world, leaves cache and
pending stores alone, and appends one load action followed by network
actions; the clock moves by `net.elapsed` exactly when the dialog ends. -/
theorem load_world (rt : Runtime) (cfg : Config) (net : Backend) (sc : ServerConfig)
    (name : String) (p : Protocol) :
    ∃ evs : List Event, (∀ e ∈ evs, e.isNetwork = true) ∧
      ∃ r : Option (Option StatusResponse × Option GoError), ∀ w : World,
        load rt cfg net sc name p w =
          (r, { w with
                trace := w.trace ++ Event.load name p :: evs,
                now := if r.isSome then w.now + net.elapsed else w.now }) := by
  obtain ⟨evs, hevs, r, hr⟩ := dial_world rt cfg net sc.Address p
  cases r with
  | error err =>
      refine ⟨evs, hevs, some (none, some (GoError.verbosity (getErrorVerbosity rt (some err))
          (errorf rt ("failed to dial passthrough server " ++ name) err))), fun w => ?_⟩
      simp [load, hr, World.emit]
  | ok a =>
      cases hw : net.writeStatusRequest with
      | some err =>
          refine ⟨evs ++ [Event.statusRequest], ?_, some (none,
            some (errorf rt "failed to write status request packet to backend" err)),
            fun w => ?_⟩
          · intro e he
            rcases List.mem_append.1 he with h | h
            · exact hevs e h
            · simp at h; subst h; rfl
          · simp [load, hr, World.emit, fetchMOTDFromBackend, hw]
      | none =>
          refine ⟨evs ++ [Event.statusRequest], ?_, readStatus rt net.decode, fun w => ?_⟩
          · intro e he
            rcases List.mem_append.1 he with h | h
            · exact hevs e h
            · simp at h; subst h; rfl
          · simp only [load, hr, World.emit, fetchMOTDFromBackend, hw]
            cases readStatus rt net.decode <;> simp


/-- A touch keeps the value. -/
theorem touch_value (it : Item) (now : Int) : (it.touch now).value = it.value := by
  unfold Item.touch; split <;> rfl

/-- A touch keeps the key. -/
theorem touch_key (it : Item) (now : Int) : (it.touch now).key = it.key := by
  unfold Item.touch; split <;> rfl

/-- The item found under a key carries that key. -/
theorem cacheFind_key {items : List Item} {key : motdCacheKey} {it : Item}
    (h : cacheFind items key = some it) : it.key = key := by
  have := List.find?_some h
  simpa using this

/-- A fresh item under the key is a hit with the same value. -/
theorem cacheLookup_hit {items : List Item} {key : motdCacheKey} {it : Item} {now : Int}
    (hfind : cacheFind items key = some it) (hfresh : it.isExpired now = false) :
    ∃ it1 items1, cacheLookup now items key = (some it1, items1) ∧ it1.value = it.value ∧
      it1.key = key := by
  unfold cacheLookup
  simp only [hfind, hfresh, Bool.false_eq_true, if_false]
  split
  · exact ⟨_, _, rfl, touch_value it now, (touch_key it now).trans (cacheFind_key hfind)⟩
  · exact ⟨_, _, rfl, rfl, cacheFind_key hfind⟩

/-- With no fresh item under the key the lookup misses and leaves the items
as they are. -/
theorem cacheLookup_miss {items : List Item} {key : motdCacheKey} {now : Int}
    (h : ∀ it, cacheFind items key = some it → it.isExpired now = true) :
    cacheLookup now items key = (none, items) := by
  unfold cacheLookup
  cases hf : cacheFind items key with
  | none => rfl
  | some it => simp [h it hf]

/-- With passthrough off on every entry the selector returns `(nil, "")`. -/
theorem findPassthroughServer_none {cfg : Config} {order : List (String × ServerConfig)}
    (hord : RangeOrder cfg order)
    (hnone : ∀ e ∈ cfg.Servers, e.2.PassthroughMOTD = false) :
    findPassthroughServer cfg order = (none, "") := by
  have h1 : findInTry cfg.Servers cfg.Try = none := by
    apply findInTry_none_iff.2
    rintro n _ ⟨sc, hl, hp⟩
    have := hnone (n, sc) (mem_of_lookup hl)
    simp only at this
    rw [hp] at this
    cases this
  have h2 : findInRange order = none :=
    findInRange_none_iff.2 (fun e he => hnone e (hord.mem_iff.1 he))
  simp [findPassthroughServer, h1, h2]


/-- An item stored under another key does not change what is found. -/
theorem cacheFind_cons_ne (items : List Item) (key : motdCacheKey) (extra : Item)
    (h : extra.key ≠ key) : cacheFind (extra :: items) key = cacheFind items key := by
  simp [cacheFind, List.find?, h]

/-- A stored item is found under its key. -/
theorem cacheFind_store (items : List Item) (it : Item) :
    cacheFind (cacheStore items it) it.key = some it := by
  simp [cacheFind, cacheStore, List.find?]

/-- What the lookup hands back is settled by the item found under the key. -/
theorem cacheLookup_fst (now : Int) (items : List Item) (key : motdCacheKey) :
    (cacheLookup now items key).1 =
      match cacheFind items key with
      | none => none
      | some it =>
          if it.isExpired now then none
          else if it.ttl > 0 then some (it.touch now) else some it := by
  unfold cacheLookup
  cases cacheFind items key with
  | none => rfl
  | some it =>
      simp only
      split
      · rfl
      · split <;> rfl

/-- A call that finds a fresh item on the fast path returns its value and adds
one cache read to the trace. -/
theorem resolve_hit (rt : Runtime) (cfg : Config) (order : List (String × ServerConfig))
    (net : Backend) (p : Protocol) (w : World) (sc : ServerConfig) (name : String)
    (it : Item)
    (hsel : findPassthroughServer cfg order = (some sc, name))
    (hon : sc.CachePingEnabled = true)
    (hfind : cacheFind w.cache ⟨name, p⟩ = some it) (hfresh : it.isExpired w.now = false) :
    (resolveMOTDPassthrough rt cfg order net p w).1 = some (it.value.res, it.value.err) ∧
      (resolveMOTDPassthrough rt cfg order net p w).2.trace =
        w.trace ++ [Event.cacheGet ⟨name, p⟩] := by
  obtain ⟨it1, items1, hl, hv, _⟩ := cacheLookup_hit hfind hfresh
  simp [resolveMOTDPassthrough, hsel, hon, World.Get, hl, hv, World.emit]

/-- The goroutine's `Get` with the loader, started on a miss. -/
theorem get_loader_miss (rt : Runtime) (cfg : Config) (net : Backend) (sc : ServerConfig)
    (name : String) (p : Protocol) (ttl : Int) :
    ∃ evs : List Event, (∀ e ∈ evs, e.isNetwork = true) ∧
      ∃ r : Option (Option StatusResponse × Option GoError),
        (∀ w : World, (load rt cfg net sc name p w).1 = r) ∧
        ∀ (w : World) (key : motdCacheKey), cacheLookup w.now w.cache key = (none, w.cache) →
          World.Get w key (some (withMOTDLoader motdSingleFlight ttl
              (loadResult rt cfg net sc name p))) =
            match r with
            | some out =>
                (some (Item.touch ⟨key, ⟨out.1, out.2⟩, ttl, 0⟩ (w.now + net.elapsed)),
                  { now := w.now + net.elapsed,
                    cache := cacheStore w.cache
                      (Item.touch ⟨key, ⟨out.1, out.2⟩, ttl, 0⟩ (w.now + net.elapsed)),
                    trace := w.trace ++ Event.cacheGet key :: Event.load name p :: evs ++
                      [Event.cacheSet key],
                    pending := w.pending })
            | none =>
                (none, { w with
                  trace := w.trace ++ Event.cacheGet key :: Event.load name p :: evs }) := by
  obtain ⟨evs, hevs, r, hr⟩ := load_world rt cfg net sc name p
  refine ⟨evs, hevs, r, fun w => by rw [hr], fun w key hmiss => ?_⟩
  cases r with
  | none =>
      simp [World.Get, hmiss, withMOTDLoader, loadResult, hr, World.emit]
  | some out =>
      obtain ⟨res, err⟩ := out
      simp [World.Get, hmiss, withMOTDLoader, loadResult, hr, World.emit, World.Set]


/-- A call on the slow path of a cache-enabled backend: the pair it returns,
and the world it leaves when the load ends before the deadline. -/
theorem resolve_miss (rt : Runtime) (cfg : Config) (order : List (String × ServerConfig))
    (net : Backend) (p : Protocol) (sc : ServerConfig) (name : String)
    (hsel : findPassthroughServer cfg order = (some sc, name))
    (hon : sc.CachePingEnabled = true) :
    ∃ evs : List Event, (∀ e ∈ evs, e.isNetwork = true) ∧
      ∃ r : Option (Option StatusResponse × Option GoError),
        (∀ w : World, (load rt cfg net sc name p w).1 = r) ∧
        ∀ w : World, cacheLookup w.now w.cache ⟨name, p⟩ = (none, w.cache) →
          (resolveMOTDPassthrough rt cfg order net p w).1 =
              some (match r with
                | some out =>
                    if (net.elapsed : Int) < motdTimeout then out
                    else (none, some (GoError.leaf "MOTD passthrough request timed out"))
                | none => (none, some (GoError.leaf "MOTD passthrough request timed out"))) ∧
            ∀ out, r = some out → (net.elapsed : Int) < motdTimeout →
              (resolveMOTDPassthrough rt cfg order net p w).2 =
                { now := w.now + net.elapsed,
                  cache := cacheStore w.cache
                    ⟨⟨name, p⟩, ⟨out.1, out.2⟩, sc.CachePingTTL,
                      w.now + net.elapsed + sc.CachePingTTL⟩,
                  trace := w.trace ++ Event.cacheGet ⟨name, p⟩ :: Event.cacheGet ⟨name, p⟩ ::
                    Event.load name p :: evs ++ [Event.cacheSet ⟨name, p⟩],
                  pending := w.pending } := by
  obtain ⟨evs, hevs, r, hr, hget⟩ :=
    get_loader_miss rt cfg net sc name p sc.GetCachePingTTL
  refine ⟨evs, hevs, r, hr, fun w hmiss => ?_⟩
  have hpos : ¬ sc.CachePingTTL ≤ 0 := by
    simp [ServerConfig.CachePingEnabled] at hon
    omega
  have hmiss1 : cacheLookup (w.emit (Event.cacheGet ⟨name, p⟩)).now
      (w.emit (Event.cacheGet ⟨name, p⟩)).cache ⟨name, p⟩ =
      (none, (w.emit (Event.cacheGet ⟨name, p⟩)).cache) := hmiss
  have hfast : World.Get w ⟨name, p⟩ none = (none, w.emit (Event.cacheGet ⟨name, p⟩)) := by
    simp [World.Get, hmiss]
  have hres : resolveMOTDPassthrough rt cfg order net p w =
      (some (awaitResult (w.emit (Event.cacheGet ⟨name, p⟩)) ⟨name, p⟩
          (loadResult rt cfg net sc name p) sc.GetCachePingTTL).1,
        (awaitResult (w.emit (Event.cacheGet ⟨name, p⟩)) ⟨name, p⟩
          (loadResult rt cfg net sc name p) sc.GetCachePingTTL).2) := by
    simp [resolveMOTDPassthrough, hsel, hon, hfast]
  have hg := hget (w.emit (Event.cacheGet ⟨name, p⟩)) ⟨name, p⟩ hmiss1
  rw [hres]
  cases r with
  | none =>
      refine ⟨?_, fun out h => by cases h⟩
      simp only [awaitResult, hg]
  | some out =>
      have hnow : (w.emit (Event.cacheGet ⟨name, p⟩)).now = w.now := rfl
      by_cases hfastE : (net.elapsed : Int) < motdTimeout
      · have hlt : w.now + (net.elapsed : Int) < w.now + motdTimeout := by omega
        refine ⟨?_, fun out1 h _ => ?_⟩
        · simp [awaitResult, hg, hnow, hlt, hfastE, touch_value]
        · cases h
          simp only [awaitResult, hg, hnow, hlt, if_true]
          simp [Item.touch, ServerConfig.GetCachePingTTL, hpos, World.emit]
      · have hlt : ¬ w.now + (net.elapsed : Int) < w.now + motdTimeout := by omega
        refine ⟨?_, fun out1 _ h => absurd h hfastE⟩
        simp [awaitResult, hg, hnow, hlt, hfastE]

/-! ## Orchestrator: properties -/

/-- C7. When no server has `PassthroughMOTD`, `resolveMOTDPassthrough` returns
a nil status with the error "no server with MOTD passthrough enabled" and
leaves the world as it found it: no cache read, no cache write, no dial. -/
theorem resolve_without_passthrough_fails (rt : Runtime) (cfg : Config)
    (order : List (String × ServerConfig))
    (net : Backend) (p : Protocol) (w : World) (hord : RangeOrder cfg order)
    (hnone : ∀ e ∈ cfg.Servers, e.2.PassthroughMOTD = false) :
    resolveMOTDPassthrough rt cfg order net p w =
      (some (none, some (GoError.leaf "no server with MOTD passthrough enabled")), w) := by
  simp [resolveMOTDPassthrough, findPassthroughServer_none hord hnone]

/-- C7 on the second table row of `TestFindPassthroughServer`, with a warm
cache and a live backend at hand: neither is used. -/
theorem resolve_without_passthrough_fails_witness :
    RangeOrder plainConfig plainConfig.Servers ∧
      resolveMOTDPassthrough linux plainConfig plainConfig.Servers liveBackend 763 warmWorld =
        (some (none, some (GoError.leaf "no server with MOTD passthrough enabled")),
          warmWorld) :=
  ⟨by decide,
    resolve_without_passthrough_fails linux plainConfig plainConfig.Servers liveBackend 763
      warmWorld (by decide) (by decide)⟩

/-- C8. For a selected backend with the cache enabled: a fresh item under
`(name, protocol)` is returned as it is, response and error alike, and the
call adds one cache read to the trace and nothing else, so no load and no
dial; and an item stored under any other key, another protocol or another
server name, never changes what the call returns. -/
theorem resolve_returns_cached_entry (rt : Runtime) (cfg : Config)
    (order : List (String × ServerConfig))
    (net : Backend) (p : Protocol) (w : World) (sc : ServerConfig) (name : String)
    (hsel : findPassthroughServer cfg order = (some sc, name))
    (hon : sc.CachePingEnabled = true) :
    (∀ it, cacheFind w.cache ⟨name, p⟩ = some it → it.isExpired w.now = false →
        (resolveMOTDPassthrough rt cfg order net p w).1 = some (it.value.res, it.value.err) ∧
        (resolveMOTDPassthrough rt cfg order net p w).2.trace =
          w.trace ++ [Event.cacheGet ⟨name, p⟩]) ∧
      (∀ extra : Item, extra.key ≠ ⟨name, p⟩ →
        (resolveMOTDPassthrough rt cfg order net p { w with cache := extra :: w.cache }).1 =
          (resolveMOTDPassthrough rt cfg order net p w).1) := by
  refine ⟨fun it hfind hfresh => resolve_hit rt cfg order net p w sc name it hsel hon hfind hfresh,
    fun extra hne => ?_⟩
  have hfe : cacheFind (extra :: w.cache) ⟨name, p⟩ = cacheFind w.cache ⟨name, p⟩ :=
    cacheFind_cons_ne w.cache ⟨name, p⟩ extra hne
  by_cases hfresh : ∃ it, cacheFind w.cache ⟨name, p⟩ = some it ∧ it.isExpired w.now = false
  · obtain ⟨it, hfind, hf⟩ := hfresh
    rw [(resolve_hit rt cfg order net p w sc name it hsel hon hfind hf).1]
    exact (resolve_hit rt cfg order net p { w with cache := extra :: w.cache } sc name it
      hsel hon (hfe.trans hfind) hf).1
  · have hall : ∀ it, cacheFind w.cache ⟨name, p⟩ = some it → it.isExpired w.now = true := by
      intro it hfind
      cases hx : it.isExpired w.now with
      | true => rfl
      | false => exact absurd ⟨it, hfind, hx⟩ hfresh
    obtain ⟨evs, _, r, _, hres⟩ := resolve_miss rt cfg order net p sc name hsel hon
    have m1 := cacheLookup_miss hall
    have m2 : cacheLookup w.now (extra :: w.cache) ⟨name, p⟩ = (none, extra :: w.cache) :=
      cacheLookup_miss (fun it hfind => hall it (hfe ▸ hfind))
    rw [(hres w m1).1]
    exact (hres { w with cache := extra :: w.cache } m2).1

/-- C8 on the second scenario's configuration with a warm cache: the entry of
`(s2, 763)` is returned, not the one of `(s2, 47)`, and the backend, which
would drop the connection, is not asked. -/
theorem resolve_returns_cached_entry_witness :
    findPassthroughServer (scenarioConfig 5000000000) (scenarioConfig 5000000000).Servers =
        (some (scenarioServer 5000000000), "s2") ∧
      (scenarioServer 5000000000).CachePingEnabled = true ∧
      (resolveMOTDPassthrough linux (scenarioConfig 5000000000)
          (scenarioConfig 5000000000).Servers droppingBackend 763 warmWorld).1 =
        some (some ⟨"hi"⟩, none) ∧
      (resolveMOTDPassthrough linux (scenarioConfig 5000000000)
          (scenarioConfig 5000000000).Servers droppingBackend 763 warmWorld).2.trace =
        [Event.cacheGet ⟨"s2", 763⟩] :=
  ⟨by decide, by decide,
    ((resolve_returns_cached_entry linux (scenarioConfig 5000000000)
      (scenarioConfig 5000000000).Servers droppingBackend 763 warmWorld
      (scenarioServer 5000000000) "s2" (by decide) (by decide)).1
      ⟨⟨"s2", 763⟩, ⟨some ⟨"hi"⟩, none⟩, 5000000000, 5000000000⟩ (by decide) (by decide)).1,
    ((resolve_returns_cached_entry linux (scenarioConfig 5000000000)
      (scenarioConfig 5000000000).Servers droppingBackend 763 warmWorld
      (scenarioServer 5000000000) "s2" (by decide) (by decide)).1
      ⟨⟨"s2", 763⟩, ⟨some ⟨"hi"⟩, none⟩, 5000000000, 5000000000⟩ (by decide) (by decide)).2⟩

/-- C9. For a selected backend with the cache enabled and no fresh item under
`(name, protocol)`, when the load ends before the deadline
`resolveMOTDPassthrough` returns the load's outcome, and the cache then holds
under `(name, protocol)` an item with that outcome, response or error, the TTL
of the server, and an expiry one TTL after the store. A later call that
selects the same backend, at any instant up to that expiry and against any
network, returns the same outcome and adds only a cache read to the trace. -/
theorem resolve_stores_load_outcome (rt : Runtime) (cfg : Config)
    (order : List (String × ServerConfig))
    (net : Backend) (p : Protocol) (w : World) (sc : ServerConfig) (name : String)
    (out : Option StatusResponse × Option GoError)
    (hsel : findPassthroughServer cfg order = (some sc, name))
    (hon : sc.CachePingEnabled = true)
    (hmiss : ∀ it, cacheFind w.cache ⟨name, p⟩ = some it → it.isExpired w.now = true)
    (hload : (load rt cfg net sc name p w).1 = some out)
    (hfast : (net.elapsed : Int) < motdTimeout) :
    (resolveMOTDPassthrough rt cfg order net p w).1 = some out ∧
      cacheFind (resolveMOTDPassthrough rt cfg order net p w).2.cache ⟨name, p⟩ =
        some ⟨⟨name, p⟩, ⟨out.1, out.2⟩, sc.CachePingTTL,
          w.now + net.elapsed + sc.CachePingTTL⟩ ∧
      (resolveMOTDPassthrough rt cfg order net p w).2.now = w.now + net.elapsed ∧
      ∀ (order2 : List (String × ServerConfig)) (net2 : Backend) (w2 : World),
        findPassthroughServer cfg order2 = (some sc, name) →
        w2.cache = (resolveMOTDPassthrough rt cfg order net p w).2.cache →
        (resolveMOTDPassthrough rt cfg order net p w).2.now ≤ w2.now →
        w2.now ≤ (resolveMOTDPassthrough rt cfg order net p w).2.now + sc.CachePingTTL →
        (resolveMOTDPassthrough rt cfg order2 net2 p w2).1 = some out ∧
          (resolveMOTDPassthrough rt cfg order2 net2 p w2).2.trace =
            w2.trace ++ [Event.cacheGet ⟨name, p⟩] := by
  obtain ⟨evs, _, r, hr, hres⟩ := resolve_miss rt cfg order net p sc name hsel hon
  have hro : r = some out := (hr w).symm.trans hload
  obtain ⟨h1, h2⟩ := hres w (cacheLookup_miss hmiss)
  have hw := h2 out hro hfast
  have hpos : 0 < sc.CachePingTTL := by
    simp [ServerConfig.CachePingEnabled] at hon
    omega
  refine ⟨?_, ?_, ?_, ?_⟩
  · rw [h1, hro]
    simp [hfast]
  · rw [hw]
    exact cacheFind_store w.cache
      ⟨⟨name, p⟩, ⟨out.1, out.2⟩, sc.CachePingTTL, w.now + net.elapsed + sc.CachePingTTL⟩
  · rw [hw]
  · intro order2 net2 w2 hsel2 hcache hge hle
    rw [hw] at hcache hge hle
    simp only at hcache hge hle
    have hfind : cacheFind w2.cache ⟨name, p⟩ =
        some ⟨⟨name, p⟩, ⟨out.1, out.2⟩, sc.CachePingTTL,
          w.now + net.elapsed + sc.CachePingTTL⟩ := by
      rw [hcache]
      exact cacheFind_store w.cache
        ⟨⟨name, p⟩, ⟨out.1, out.2⟩, sc.CachePingTTL, w.now + net.elapsed + sc.CachePingTTL⟩
    have hf : (Item.mk ⟨name, p⟩ ⟨out.1, out.2⟩ sc.CachePingTTL
        (w.now + net.elapsed + sc.CachePingTTL)).isExpired w2.now = false := by
      simp only [Item.isExpired, Bool.and_eq_false_iff, decide_eq_false_iff_not]
      right
      omega
    exact resolve_hit rt cfg order2 net2 p w2 sc name _ hsel2 hon hfind hf

/-- C9 on the spec's third scenario: `s2` caches for five seconds and drops
the connection after the handshake; the first caller gets the error, and a
caller four seconds later gets the same error although the backend has come
back to life. -/
theorem resolve_stores_load_outcome_witness :
    (resolveMOTDPassthrough linux (scenarioConfig 5000000000)
        (scenarioConfig 5000000000).Servers droppingBackend 763 coldWorld).1 =
        some (none, some droppedError) ∧
      (resolveMOTDPassthrough linux (scenarioConfig 5000000000)
        (scenarioConfig 5000000000).Servers liveBackend 763
        { (resolveMOTDPassthrough linux (scenarioConfig 5000000000)
            (scenarioConfig 5000000000).Servers droppingBackend 763 coldWorld).2 with
          now := 4000000000 }).1 = some (none, some droppedError) :=
  ⟨(resolve_stores_load_outcome linux (scenarioConfig 5000000000)
      (scenarioConfig 5000000000).Servers droppingBackend 763 coldWorld
      (scenarioServer 5000000000) "s2" (none, some droppedError)
      (by decide) (by decide) (by decide) (by decide) (by decide)).1,
    ((resolve_stores_load_outcome linux (scenarioConfig 5000000000)
      (scenarioConfig 5000000000).Servers droppingBackend 763 coldWorld
      (scenarioServer 5000000000) "s2" (none, some droppedError)
      (by decide) (by decide) (by decide) (by decide) (by decide)).2.2.2
      (scenarioConfig 5000000000).Servers liveBackend
      { (resolveMOTDPassthrough linux (scenarioConfig 5000000000)
          (scenarioConfig 5000000000).Servers droppingBackend 763 coldWorld).2 with
        now := 4000000000 }
      (by decide) rfl (by decide) (by decide)).1⟩

/-- C10. For a selected backend with the cache disabled,
`resolveMOTDPassthrough` is one synchronous run of the load: it returns what
the load returns, the items of the cache are the same before and after, and
the actions it adds to the trace hold exactly one load and no cache read or
write. -/
theorem resolve_uncached_runs_load_once (rt : Runtime) (cfg : Config)
    (order : List (String × ServerConfig))
    (net : Backend) (p : Protocol) (w : World) (sc : ServerConfig) (name : String)
    (hsel : findPassthroughServer cfg order = (some sc, name))
    (hoff : sc.CachePingEnabled = false) :
    resolveMOTDPassthrough rt cfg order net p w = load rt cfg net sc name p w ∧
      (resolveMOTDPassthrough rt cfg order net p w).2.cache = w.cache ∧
      ∃ evs : List Event,
        (resolveMOTDPassthrough rt cfg order net p w).2.trace = w.trace ++ evs ∧
        evs.filter Event.isLoad = [Event.load name p] ∧
        evs.filter Event.isCache = [] := by
  have heq : resolveMOTDPassthrough rt cfg order net p w = load rt cfg net sc name p w := by
    simp [resolveMOTDPassthrough, hsel, hoff]
  obtain ⟨evs, hevs, r, hr⟩ := load_world rt cfg net sc name p
  refine ⟨heq, ?_, Event.load name p :: evs, ?_, ?_, ?_⟩
  · rw [heq, hr]
  · rw [heq, hr]
  · have : evs.filter Event.isLoad = [] := by
      apply List.filter_eq_nil_iff.2
      intro e he
      have := hevs e he
      cases e <;> simp_all [Event.isLoad, Event.isNetwork]
    simp [List.filter, Event.isLoad, this]
  · have : evs.filter Event.isCache = [] := by
      apply List.filter_eq_nil_iff.2
      intro e he
      have := hevs e he
      cases e <;> simp_all [Event.isCache, Event.isNetwork]
    simp [List.filter, Event.isCache, this]

/-- C10 on the scenario configuration with TTL zero and a warm cache: the live
backend is asked, the cached `hi` items are neither read nor replaced. -/
theorem resolve_uncached_runs_load_once_witness :
    findPassthroughServer (scenarioConfig 0) (scenarioConfig 0).Servers =
        (some (scenarioServer 0), "s2") ∧
      (scenarioServer 0).CachePingEnabled = false ∧
      (resolveMOTDPassthrough linux (scenarioConfig 0) (scenarioConfig 0).Servers
          liveBackend 763 warmWorld).2.cache = warmWorld.cache ∧
      resolveMOTDPassthrough linux (scenarioConfig 0) (scenarioConfig 0).Servers
          liveBackend 763 warmWorld =
        load linux (scenarioConfig 0) liveBackend (scenarioServer 0) "s2" 763 warmWorld :=
  ⟨by decide, by decide,
    (resolve_uncached_runs_load_once linux (scenarioConfig 0) (scenarioConfig 0).Servers
      liveBackend 763 warmWorld (scenarioServer 0) "s2" (by decide) (by decide)).2.1,
    (resolve_uncached_runs_load_once linux (scenarioConfig 0) (scenarioConfig 0).Servers
      liveBackend 763 warmWorld (scenarioServer 0) "s2" (by decide) (by decide)).1⟩

/-! ## Upstream dialog: lemmas -/

/-- The read loop skips packets that are no status response. -/
theorem readStatus_skip (rt : Runtime) (ids : List Nat) (rest : List (Except GoError Packet)) :
    readStatus rt (ids.map (fun i => Except.ok (Packet.other i)) ++ rest) = readStatus rt rest := by
  induction ids with
  | nil => rfl
  | cons i ids ih => simpa [readStatus] using ih

/-- An error built by `errorf` has its cause next in the chain. -/
theorem mem_chain_errorf (rt : Runtime) (pre : String) (e : GoError) :
    e ∈ (errorf rt pre e).chain := by
  cases e <;> simp [errorf, GoError.chain]

/-- Every error is the head of its own chain. -/
theorem mem_chain_self (e : GoError) : e ∈ e.chain := by
  cases e <;> simp [GoError.chain]

/-- The chain of a wrapper holds the chain of what it wraps. -/
theorem chain_subset_errorf (rt : Runtime) (pre : String) (e x : GoError)
    (h : x ∈ e.chain) : x ∈ (errorf rt pre e).chain := by
  simp [errorf, GoError.chain, h]

/-- The chain of a verbosity error holds the chain of what it carries. -/
theorem chain_subset_verbosity (level : Int) (e x : GoError)
    (h : x ∈ e.chain) : x ∈ (GoError.verbosity level e).chain := by
  simp [GoError.chain, h]

/-- The message built by `errorf` holds every piece of its prefix. -/
theorem errorf_message_contains (rt : Runtime) (pre name : String) (e : GoError) :
    MessageContains rt (errorf rt (pre ++ name) e) name := by
  unfold MessageContains errorf
  simp only [GoError.Error, String.data_append]
  exact ⟨pre.data, ": ".data ++ (e.Error rt).data, by simp [List.append_assoc]⟩

/-- The error that `load` makes of a failed dial: it carries the cause in its
chain and the server name in its message. -/
theorem dialFailure_wraps (rt : Runtime) (name : String) (err cause : GoError)
    (h : cause ∈ err.chain) :
    cause ∈ (GoError.verbosity (getErrorVerbosity rt (some err))
        (errorf rt ("failed to dial passthrough server " ++ name) err)).chain ∧
      MessageContains rt (GoError.verbosity (getErrorVerbosity rt (some err))
        (errorf rt ("failed to dial passthrough server " ++ name) err)) name :=
  ⟨chain_subset_verbosity _ _ _ (chain_subset_errorf rt _ _ _ h),
    errorf_message_contains rt "failed to dial passthrough server " name err⟩

/-! ## Upstream dialog: properties -/

/-- C15, as stated, fails: a load against a backend that drops the connection
after the handshake returns the decode error wrapped once, and the message
`failed to read status response from backend: EOF` does not hold the server
name `s2`. -/
theorem load_decode_error_lacks_server_name :
    (load linux (scenarioConfig 5000000000) droppingBackend (scenarioServer 5000000000)
        "s2" 763 coldWorld).1 = some (none, some droppedError) ∧
      droppedError.Error linux = "failed to read status response from backend: EOF" ∧
      ¬ MessageContains linux droppedError "s2" := by
  decide

/-- C15, amended. For each step of the dialog that fails, the error that
`load` returns has the cause in its `Unwrap` chain. For the three steps inside
`dialPassthroughServer` (address parse, TCP connect, handshake write) its
message also holds the server name. For a failed status-request write and a
failed decode the error is the cause wrapped once with a fixed prefix, without
the server name. -/
theorem load_error_wraps_cause (rt : Runtime) (cfg : Config) (net : Backend)
    (sc : ServerConfig) (name : String) (p : Protocol) (w : World) :
    (∀ e, net.parse sc.Address = Except.error e →
        ∃ E, (load rt cfg net sc name p w).1 = some (none, some E) ∧
          e ∈ E.chain ∧ MessageContains rt E name) ∧
      (∀ a e, net.parse sc.Address = Except.ok a →
        net.dial a.text cfg.ConnectionTimeout = some e →
        ∃ E, (load rt cfg net sc name p w).1 = some (none, some E) ∧
          e ∈ E.chain ∧ MessageContains rt E name) ∧
      (∀ a e, net.parse sc.Address = Except.ok a →
        net.dial a.text cfg.ConnectionTimeout = none →
        net.writeHandshake (statusHandshake a p) = some e →
        ∃ E, (load rt cfg net sc name p w).1 = some (none, some E) ∧
          e ∈ E.chain ∧ MessageContains rt E name) ∧
      (∀ a e, net.parse sc.Address = Except.ok a →
        net.dial a.text cfg.ConnectionTimeout = none →
        net.writeHandshake (statusHandshake a p) = none →
        net.writeStatusRequest = some e →
        (load rt cfg net sc name p w).1 =
            some (none,
              some (errorf rt "failed to write status request packet to backend" e)) ∧
          e ∈ (errorf rt "failed to write status request packet to backend" e).chain) ∧
      (∀ a (ids : List Nat) e rest, net.parse sc.Address = Except.ok a →
        net.dial a.text cfg.ConnectionTimeout = none →
        net.writeHandshake (statusHandshake a p) = none →
        net.writeStatusRequest = none →
        net.decode = ids.map (fun i => Except.ok (Packet.other i)) ++
          Except.error e :: rest →
        (load rt cfg net sc name p w).1 =
            some (none, some (errorf rt "failed to read status response from backend" e)) ∧
          e ∈ (errorf rt "failed to read status response from backend" e).chain) := by
  refine ⟨fun e hp => ?_, fun a e hp hd => ?_, fun a e hp hd hh => ?_,
    fun a e hp hd hh hw => ⟨?_, mem_chain_errorf _ _ _⟩,
    fun a ids e rest hp hd hh hw hdec => ⟨?_, mem_chain_errorf _ _ _⟩⟩
  · refine ⟨_, ?_, dialFailure_wraps rt name
      (errorf rt ("failed to parse server address " ++ sc.Address) e) e
      (mem_chain_errorf rt _ e)⟩
    simp [load, dialPassthroughServer, hp]
  · refine ⟨_, ?_, dialFailure_wraps rt name
      (GoError.verbosity (getErrorVerbosity rt (some e))
        (errorf rt ("failed to connect to backend " ++ sc.Address) e)) e
      (chain_subset_verbosity _ _ _ (mem_chain_errorf rt _ e))⟩
    simp [load, dialPassthroughServer, hp, hd]
  · refine ⟨_, ?_, dialFailure_wraps rt name
      (errorf rt "failed to send handshake packet" e) e (mem_chain_errorf rt _ e)⟩
    simp [load, dialPassthroughServer, hp, hd, hh, sendHandshakeToBackend]
  · simp [load, dialPassthroughServer, hp, hd, hh, sendHandshakeToBackend,
      fetchMOTDFromBackend, hw]
  · simp [load, dialPassthroughServer, hp, hd, hh, sendHandshakeToBackend,
      fetchMOTDFromBackend, hw, hdec, readStatus_skip, readStatus]

/-- C15 amended, on a backend that refuses the connection: the error of the
load holds the refusal in its chain and `s2` in its message. -/
theorem load_error_wraps_cause_witness :
    ∃ E, (load linux (scenarioConfig 5000000000) refusedBackend (scenarioServer 5000000000)
        "s2" 763 coldWorld).1 = some (none, some E) ∧
      GoError.wrap "dial tcp 127.0.0.1:25562: connect: connection refused"
        (GoError.errno 111) ∈ E.chain ∧
      MessageContains linux E "s2" :=
  (load_error_wraps_cause linux (scenarioConfig 5000000000) refusedBackend
    (scenarioServer 5000000000) "s2" 763 coldWorld).2.1
    ⟨"127.0.0.1:25562", "127.0.0.1", 25562⟩ _ rfl rfl

/-- C16. When the address parses and the connection opens,
`dialPassthroughServer` dials and then writes one handshake; that handshake has
the client's protocol, the host of the parsed address, next state 1, and the
parsed port with 0 replaced by 25565, so its port is never 0. -/
theorem dial_sends_status_handshake (rt : Runtime) (cfg : Config) (net : Backend)
    (serverAddr : String) (p : Protocol) (w : World) (addr : Addr)
    (hparse : net.parse serverAddr = Except.ok addr)
    (hdial : net.dial addr.text cfg.ConnectionTimeout = none) :
    (dialPassthroughServer rt cfg net serverAddr p w).2.trace =
        w.trace ++ [Event.dial addr.text cfg.ConnectionTimeout,
          Event.handshake (statusHandshake addr p)] ∧
      (statusHandshake addr p).ProtocolVersion = p ∧
      (statusHandshake addr p).ServerAddress = addr.host ∧
      (statusHandshake addr p).NextStatus = 1 ∧
      (statusHandshake addr p).Port = (if addr.port = 0 then 25565 else (addr.port : Int)) ∧
      (statusHandshake addr p).Port ≠ 0 := by
  refine ⟨?_, rfl, rfl, rfl, ?_, ?_⟩
  · cases hh : net.writeHandshake (statusHandshake addr p) <;>
      simp [dialPassthroughServer, hparse, hdial, hh, sendHandshakeToBackend, World.emit]
  · simp only [statusHandshake]
    split <;> simp
  · simp only [statusHandshake]
    split
    · simp
    · rename_i h
      exact_mod_cast h

/-- C16 on an address that parses to port 0: the handshake carries 25565. -/
theorem dial_sends_status_handshake_witness :
    (dialPassthroughServer linux (scenarioConfig 5000000000) portlessBackend "mc.example.com" 763
        coldWorld).2.trace =
        coldWorld.trace ++ [Event.dial "mc.example.com" 5000000000,
          Event.handshake (statusHandshake ⟨"mc.example.com", "mc.example.com", 0⟩ 763)] ∧
      statusHandshake ⟨"mc.example.com", "mc.example.com", 0⟩ 763 =
        ⟨763, "mc.example.com", 25565, 1⟩ :=
  ⟨(dial_sends_status_handshake linux (scenarioConfig 5000000000) portlessBackend "mc.example.com"
      763 coldWorld ⟨"mc.example.com", "mc.example.com", 0⟩ rfl rfl).1, by decide⟩

/-- C17. After a status request that was written, `fetchMOTDFromBackend`
returns the first status response of the decode results when only packets of
other types come before it, and returns a nil response with the wrapped decode
error when a decode error comes before any status response. After a status
request that failed to be written it returns that error wrapped, whatever the
decode results would be. -/
theorem fetch_returns_first_status (rt : Runtime) (net : Backend) (w : World) :
    (∀ (ids : List Nat) (r : StatusResponse) (rest : List (Except GoError Packet)),
        net.writeStatusRequest = none →
        net.decode = ids.map (fun i => Except.ok (Packet.other i)) ++
          Except.ok (Packet.statusResponse r) :: rest →
        (fetchMOTDFromBackend rt net w).1 = some (some r, none)) ∧
      (∀ (ids : List Nat) (e : GoError) (rest : List (Except GoError Packet)),
        net.writeStatusRequest = none →
        net.decode = ids.map (fun i => Except.ok (Packet.other i)) ++
          Except.error e :: rest →
        (fetchMOTDFromBackend rt net w).1 =
            some (none, some (errorf rt "failed to read status response from backend" e)) ∧
          e ∈ (errorf rt "failed to read status response from backend" e).chain) ∧
      (∀ (e : GoError) (frames : List (Except GoError Packet)),
        net.writeStatusRequest = some e →
        (fetchMOTDFromBackend rt { net with decode := frames } w).1 =
            some (none,
              some (errorf rt "failed to write status request packet to backend" e)) ∧
          e ∈ (errorf rt "failed to write status request packet to backend" e).chain) := by
  refine ⟨fun ids r rest hw hd => ?_, fun ids e rest hw hd => ⟨?_, mem_chain_errorf _ _ _⟩,
    fun e frames hw => ⟨?_, mem_chain_errorf _ _ _⟩⟩
  · simp [fetchMOTDFromBackend, hw, hd, readStatus_skip, readStatus]
  · simp [fetchMOTDFromBackend, hw, hd, readStatus_skip, readStatus]
  · simp [fetchMOTDFromBackend, hw]

/-- C17 on `liveBackend`, which sends one unrelated packet and then `hi`. -/
theorem fetch_returns_first_status_witness :
    (fetchMOTDFromBackend linux liveBackend coldWorld).1 = some (some ⟨"hi"⟩, none) :=
  (fetch_returns_first_status linux liveBackend coldWorld).1 [1] ⟨"hi"⟩ [] rfl rfl

/-! ## Orchestrator: further lemmas -/

/-- The read loop ends in an exclusive pair. -/
theorem readStatus_exclusive (rt : Runtime) (frames : List (Except GoError Packet))
    (out : Option StatusResponse × Option GoError) (h : readStatus rt frames = some out) :
    Exclusive out := by
  induction frames with
  | nil => simp [readStatus] at h
  | cons f rest ih =>
      cases f with
      | error e =>
          simp [readStatus] at h
          subst h
          exact Or.inr ⟨rfl, rfl⟩
      | ok pkt =>
          cases pkt with
          | statusResponse r =>
              simp [readStatus] at h
              subst h
              exact Or.inl ⟨rfl, rfl⟩
          | other i =>
              simp only [readStatus] at h
              exact ih h

/-- The `load` closure ends in an exclusive pair. -/
theorem load_exclusive (rt : Runtime) (cfg : Config) (net : Backend) (sc : ServerConfig)
    (name : String) (p : Protocol) (w : World)
    (out : Option StatusResponse × Option GoError)
    (h : (load rt cfg net sc name p w).1 = some out) : Exclusive out := by
  unfold load at h
  split at h
  · simp at h
    subst h
    exact Or.inr ⟨rfl, rfl⟩
  · rename_i a w1 hd
    unfold fetchMOTDFromBackend at h
    cases hw : net.writeStatusRequest with
    | some e =>
        simp [hw] at h
        subst h
        exact Or.inr ⟨rfl, rfl⟩
    | none =>
        simp only [hw] at h
        cases hr : readStatus rt net.decode with
        | none => simp [hr] at h
        | some o =>
            simp [hr] at h
            subst h
            exact readStatus_exclusive rt _ _ hr

/-- An item found under a key is one of the items. -/
theorem cacheFind_mem {items : List Item} {key : motdCacheKey} {it : Item}
    (h : cacheFind items key = some it) : it ∈ items :=
  List.mem_of_find?_eq_some h

/-- The lookup neither invents a value nor drops the soundness of the
items. -/
theorem cacheLookup_values (now : Int) (items : List Item) (key : motdCacheKey) :
    (∀ it1, (cacheLookup now items key).1 = some it1 → ∃ y ∈ items, it1.value = y.value) ∧
      (∀ x ∈ (cacheLookup now items key).2, ∃ y ∈ items, x.value = y.value) := by
  unfold cacheLookup
  cases hf : cacheFind items key with
  | none => exact ⟨fun it1 h => by simp at h, fun x hx => ⟨x, hx, rfl⟩⟩
  | some it =>
      have hm := cacheFind_mem hf
      simp only
      split
      · exact ⟨fun it1 h => by simp at h, fun x hx => ⟨x, hx, rfl⟩⟩
      · split
        · refine ⟨fun it1 h => ?_, fun x hx => ?_⟩
          · simp at h
            subst h
            exact ⟨it, hm, touch_value it now⟩
          · simp only [cacheStore, List.mem_cons, List.mem_filter] at hx
            rcases hx with rfl | ⟨hx, _⟩
            · exact ⟨it, hm, touch_value it now⟩
            · exact ⟨x, hx, rfl⟩
        · refine ⟨fun it1 h => ?_, fun x hx => ⟨x, hx, rfl⟩⟩
          simp at h
          subst h
          exact ⟨it, hm, rfl⟩

/-- The goroutine's `Get` as far as it has come while its load is still
running, started on a miss. -/
theorem get_blocked_miss (rt : Runtime) (cfg : Config) (net : Backend) (sc : ServerConfig)
    (name : String) (p : Protocol) (ttl : Int) :
    ∃ evs : List Event, (∀ e ∈ evs, e.isNetwork = true) ∧
      (∀ (w : World) (key : motdCacheKey), cacheLookup w.now w.cache key = (none, w.cache) →
        (World.Get w key (some (withMOTDLoader motdSingleFlight ttl
            (fun k w0 => (none,
              { (loadResult rt cfg net sc name p k w0).2 with now := w0.now }))))).2 =
          { w with trace := w.trace ++ Event.cacheGet key :: Event.load name p :: evs }) ∧
      ∃ r : Option (Option StatusResponse × Option GoError),
        (∀ w : World, (load rt cfg net sc name p w).1 = r) ∧
        ∀ (w : World) (key : motdCacheKey), cacheLookup w.now w.cache key = (none, w.cache) →
          World.Get w key (some (withMOTDLoader motdSingleFlight ttl
              (loadResult rt cfg net sc name p))) =
            match r with
            | some out =>
                (some (Item.touch ⟨key, ⟨out.1, out.2⟩, ttl, 0⟩ (w.now + net.elapsed)),
                  { now := w.now + net.elapsed,
                    cache := cacheStore w.cache
                      (Item.touch ⟨key, ⟨out.1, out.2⟩, ttl, 0⟩ (w.now + net.elapsed)),
                    trace := w.trace ++ Event.cacheGet key :: Event.load name p :: evs ++
                      [Event.cacheSet key],
                    pending := w.pending })
            | none =>
                (none, { w with
                  trace := w.trace ++ Event.cacheGet key :: Event.load name p :: evs }) := by
  obtain ⟨evs, hevs, r, hr⟩ := load_world rt cfg net sc name p
  refine ⟨evs, hevs, fun w key hmiss => ?_, r, fun w => by rw [hr], fun w key hmiss => ?_⟩
  · cases r with
    | none => simp [World.Get, hmiss, withMOTDLoader, loadResult, hr, World.emit]
    | some out =>
        obtain ⟨res, err⟩ := out
        simp [World.Get, hmiss, withMOTDLoader, loadResult, hr, World.emit]
  · cases r with
    | none => simp [World.Get, hmiss, withMOTDLoader, loadResult, hr, World.emit]
    | some out =>
        obtain ⟨res, err⟩ := out
        simp [World.Get, hmiss, withMOTDLoader, loadResult, hr, World.emit, World.Set]


/-- A touch keeps the TTL. -/
theorem touch_ttl (it : Item) (now : Int) : (it.touch now).ttl = it.ttl := by
  unfold Item.touch; split <;> rfl

/-- A call on the slow path of a cache-enabled backend whose load does not
end before the deadline: the timeout error, the clock at the deadline, the
cache untouched, and the store of a load that ends later kept as pending. -/
theorem resolve_miss_late (rt : Runtime) (cfg : Config) (order : List (String × ServerConfig))
    (net : Backend) (p : Protocol) (sc : ServerConfig) (name : String)
    (hsel : findPassthroughServer cfg order = (some sc, name))
    (hon : sc.CachePingEnabled = true) :
    ∃ evs : List Event, (∀ e ∈ evs, e.isNetwork = true) ∧
      ∃ r : Option (Option StatusResponse × Option GoError),
        (∀ w : World, (load rt cfg net sc name p w).1 = r) ∧
        ∀ w : World, cacheLookup w.now w.cache ⟨name, p⟩ = (none, w.cache) →
          (r = none ∨ ¬ (net.elapsed : Int) < motdTimeout) →
          resolveMOTDPassthrough rt cfg order net p w =
            (some (none, some (GoError.leaf "MOTD passthrough request timed out")),
              { now := w.now + motdTimeout,
                cache := w.cache,
                trace := w.trace ++ Event.cacheGet ⟨name, p⟩ :: Event.cacheGet ⟨name, p⟩ ::
                  Event.load name p :: evs,
                pending := w.pending ++
                  match r with
                  | some out =>
                      [⟨w.now + net.elapsed, ⟨name, p⟩, ⟨out.1, out.2⟩, sc.CachePingTTL⟩]
                  | none => [] }) := by
  obtain ⟨evs, hevs, hblocked, r, hr, hget⟩ :=
    get_blocked_miss rt cfg net sc name p sc.GetCachePingTTL
  refine ⟨evs, hevs, r, hr, fun w hmiss hlate => ?_⟩
  have hmiss1 : cacheLookup (w.emit (Event.cacheGet ⟨name, p⟩)).now
      (w.emit (Event.cacheGet ⟨name, p⟩)).cache ⟨name, p⟩ =
      (none, (w.emit (Event.cacheGet ⟨name, p⟩)).cache) := hmiss
  have hfast : World.Get w ⟨name, p⟩ none = (none, w.emit (Event.cacheGet ⟨name, p⟩)) := by
    simp [World.Get, hmiss]
  have hres : resolveMOTDPassthrough rt cfg order net p w =
      (some (awaitResult (w.emit (Event.cacheGet ⟨name, p⟩)) ⟨name, p⟩
          (loadResult rt cfg net sc name p) sc.GetCachePingTTL).1,
        (awaitResult (w.emit (Event.cacheGet ⟨name, p⟩)) ⟨name, p⟩
          (loadResult rt cfg net sc name p) sc.GetCachePingTTL).2) := by
    simp [resolveMOTDPassthrough, hsel, hon, hfast]
  have hg := hget (w.emit (Event.cacheGet ⟨name, p⟩)) ⟨name, p⟩ hmiss1
  have hb := hblocked (w.emit (Event.cacheGet ⟨name, p⟩)) ⟨name, p⟩ hmiss1
  have hnow : (w.emit (Event.cacheGet ⟨name, p⟩)).now = w.now := rfl
  rw [hres]
  cases r with
  | none =>
      simp only [awaitResult, hg, hb]
      simp [World.emit]
  | some out =>
      have hslow : ¬ (net.elapsed : Int) < motdTimeout := by
        rcases hlate with h | h
        · cases h
        · exact h
      have hlt : ¬ w.now + (net.elapsed : Int) < w.now + motdTimeout := by omega
      simp only [awaitResult, hg, hb, hnow, hlt, if_false]
      simp [World.emit, touch_value, touch_ttl, ServerConfig.GetCachePingTTL]


/-- A lookup that hands back nothing leaves the items as they are. -/
theorem cacheLookup_none {now : Int} {items : List Item} {key : motdCacheKey}
    (h : (cacheLookup now items key).1 = none) : cacheLookup now items key = (none, items) := by
  unfold cacheLookup at h ⊢
  cases hf : cacheFind items key with
  | none => rfl
  | some it =>
      simp only [hf] at h ⊢
      by_cases hx : it.isExpired now = true
      · simp [hx]
      · by_cases ht : it.ttl > 0
        · simp [hx, ht] at h
        · simp [hx, ht] at h

/-- The fast path on a hit: the value of the item, the touched items, one
cache read. -/
theorem resolve_hit_world (rt : Runtime) (cfg : Config) (order : List (String × ServerConfig))
    (net : Backend) (p : Protocol) (w : World) (sc : ServerConfig) (name : String)
    (it1 : Item) (items1 : List Item)
    (hsel : findPassthroughServer cfg order = (some sc, name))
    (hon : sc.CachePingEnabled = true)
    (hl : cacheLookup w.now w.cache ⟨name, p⟩ = (some it1, items1)) :
    resolveMOTDPassthrough rt cfg order net p w =
      (some (it1.value.res, it1.value.err),
        { w with trace := w.trace ++ [Event.cacheGet ⟨name, p⟩], cache := items1 }) := by
  simp [resolveMOTDPassthrough, hsel, hon, World.Get, hl, World.emit]

/-- A call keeps the world sound and hands back an exclusive pair. -/
theorem resolve_sound (rt : Runtime) (cfg : Config)
    (order : List (String × ServerConfig)) (net : Backend) (p : Protocol) (w : World)
    (hsound : w.Sound) :
    (∀ out, (resolveMOTDPassthrough rt cfg order net p w).1 = some out → Exclusive out) ∧
      (resolveMOTDPassthrough rt cfg order net p w).2.Sound := by
  cases hsel : findPassthroughServer cfg order with
  | mk osc name =>
  cases osc with
  | none =>
      have : resolveMOTDPassthrough rt cfg order net p w =
          (some (none, some (GoError.leaf "no server with MOTD passthrough enabled")), w) := by
        simp [resolveMOTDPassthrough, hsel]
      rw [this]
      refine ⟨fun out h => ?_, hsound⟩
      simp at h
      subst h
      exact Or.inr ⟨rfl, rfl⟩
  | some sc =>
      cases hon : sc.CachePingEnabled with
      | false =>
          have heq : resolveMOTDPassthrough rt cfg order net p w =
              load rt cfg net sc name p w := by
            simp [resolveMOTDPassthrough, hsel, hon]
          obtain ⟨evs, _, r, hr⟩ := load_world rt cfg net sc name p
          rw [heq]
          refine ⟨fun out h => load_exclusive rt cfg net sc name p w out h, ?_⟩
          rw [hr]
          exact hsound
      | true =>
          cases hl : cacheLookup w.now w.cache ⟨name, p⟩ with
          | mk o items1 =>
          have hvals := cacheLookup_values w.now w.cache ⟨name, p⟩
          rw [hl] at hvals
          cases o with
          | some it1 =>
              rw [resolve_hit_world rt cfg order net p w sc name it1 items1 hsel hon hl]
              obtain ⟨y, hy, hv⟩ := hvals.1 it1 rfl
              refine ⟨fun out h => ?_, fun x hx => ?_, hsound.2⟩
              · simp at h
                subst h
                rw [hv]
                exact hsound.1 y hy
              · obtain ⟨z, hz, hzv⟩ := hvals.2 x hx
                rw [hzv]
                exact hsound.1 z hz
          | none =>
              have hmiss : cacheLookup w.now w.cache ⟨name, p⟩ = (none, w.cache) :=
                cacheLookup_none (by rw [hl])
              obtain ⟨evs, _, r, hr, hres⟩ := resolve_miss rt cfg order net p sc name hsel hon
              obtain ⟨evs2, _, r2, hr2, hlate⟩ :=
                resolve_miss_late rt cfg order net p sc name hsel hon
              have hrr : r2 = r := (hr2 w).symm.trans (hr w)
              subst hrr
              by_cases hcase : r2 = none ∨ ¬ (net.elapsed : Int) < motdTimeout
              · rw [hlate w hmiss hcase]
                refine ⟨fun out h => ?_, hsound.1, fun ps hps => ?_⟩
                · simp at h
                  subst h
                  exact Or.inr ⟨rfl, rfl⟩
                · rcases List.mem_append.1 hps with h | h
                  · exact hsound.2 ps h
                  · cases r2 with
                    | none => simp at h
                    | some out =>
                        simp at h
                        subst h
                        exact load_exclusive rt cfg net sc name p w out (hr w)
              · have hne : r2 ≠ none := fun h => hcase (Or.inl h)
                have hfast : (net.elapsed : Int) < motdTimeout := by
                  by_contra h
                  exact hcase (Or.inr h)
                cases r2 with
                | none => exact absurd rfl hne
                | some out =>
                    obtain ⟨h1, h2⟩ := hres w hmiss
                    have hex := load_exclusive rt cfg net sc name p w out (hr w)
                    refine ⟨fun o h => ?_, ?_⟩
                    · rw [h1] at h
                      simp [hfast] at h
                      subst h
                      exact hex
                    · rw [h2 out rfl hfast]
                      refine ⟨fun x hx => ?_, hsound.2⟩
                      simp only [cacheStore, List.mem_cons, List.mem_filter] at hx
                      rcases hx with rfl | ⟨hx, _⟩
                      · exact hex
                      · exact hsound.1 x hx

/-- A store of an exclusive pair keeps the cache sound. -/
theorem set_sound (w : World) (key : motdCacheKey) (value : motdCacheResult) (ttl : Int)
    (hw : w.Sound) (hv : Exclusive (value.res, value.err)) : (World.Set w key value ttl).2.Sound := by
  refine ⟨fun x hx => ?_, hw.2⟩
  simp only [World.Set, World.emit, cacheStore, List.mem_cons, List.mem_filter] at hx
  rcases hx with rfl | ⟨hx, _⟩
  · rw [touch_value]
    exact hv
  · exact hw.1 x hx

/-- Performing owed stores of exclusive pairs keeps the cache sound. -/
theorem foldl_set_sound (due : List PendingSet)
    (hdue : ∀ ps ∈ due, Exclusive (ps.value.res, ps.value.err)) (w : World) (hw : w.Sound) :
    (due.foldl (fun (acc : World) ps =>
      (World.Set { acc with now := ps.due } ps.key ps.value ps.ttl).2) w).Sound := by
  induction due generalizing w with
  | nil => exact hw
  | cons ps rest ih =>
      simp only [List.foldl_cons]
      apply ih (fun x hx => hdue x (List.mem_cons_of_mem _ hx))
      exact set_sound { w with now := ps.due } ps.key ps.value ps.ttl ⟨hw.1, hw.2⟩
        (hdue ps (List.mem_cons_self _ _))

/-- The pending stores are not changed by a store into the cache. -/
theorem foldl_set_pending (due : List PendingSet) (w : World) :
    (due.foldl (fun (acc : World) ps =>
      (World.Set { acc with now := ps.due } ps.key ps.value ps.ttl).2) w).pending =
      w.pending := by
  induction due generalizing w with
  | nil => rfl
  | cons ps rest ih =>
      simp only [List.foldl_cons]
      rw [ih]
      rfl

/-- Letting time pass keeps the world sound. -/
theorem advance_sound (w : World) (t : Int) (hw : w.Sound) : (w.advance t).Sound := by
  have h1 := foldl_set_sound (w.pending.filter (fun ps => decide (ps.due ≤ t)))
    (fun ps hps => hw.2 ps (List.mem_filter.1 hps).1) w hw
  refine ⟨h1.1, fun ps hps => ?_⟩
  simp only [World.advance, List.mem_filter] at hps
  exact hw.2 ps hps.1

/-- Emptying the cache keeps the world sound. -/
theorem reset_sound (w : World) (hw : w.Sound) : (ResetMOTDPassthroughCache w).Sound :=
  ⟨fun x hx => by simp [ResetMOTDPassthroughCache] at hx, hw.2⟩

/-! ## Orchestrator: single flight, deadline, result pairs -/

/-- C11, where the code departs from the claim. The loader built by
`withMOTDLoader` is the same for every group, so the group is never asked; and
a second invocation for `(s2, 763)`, made while a first one is still inside
its load and with a group that lists the key as in flight, runs the load a
second time. -/
theorem loader_calls_load_directly :
    (∀ (g1 g2 : SingleflightGroup) (ttl : Int)
        (load : motdCacheKey → World → Option motdCacheResult × World),
        withMOTDLoader g1 ttl load = withMOTDLoader g2 ttl load) ∧
      ((withMOTDLoader ⟨["s2"]⟩ 5000000000
          (loadResult linux (scenarioConfig 5000000000) liveBackend
            (scenarioServer 5000000000) "s2" 763)
          ⟨"s2", 763⟩
          { (load linux (scenarioConfig 5000000000) liveBackend
              (scenarioServer 5000000000) "s2" 763 coldWorld).2 with now := 0 }).2.trace.filter
            Event.isLoad = [Event.load "s2" 763, Event.load "s2" 763]) := by
  refine ⟨fun g1 g2 ttl load => rfl, ?_⟩
  decide

/-- C12, where the code departs from the claim. A first call for `(s2, 763)`
against a backend that needs seven seconds times out at five seconds with its
dialog still running (its store is due at seven seconds); a second call made
at that moment dials the backend again, so two dialogs for the key are in
flight at once. -/
theorem overlapping_calls_dial_twice :
    (resolveMOTDPassthrough linux (scenarioConfig 5000000000)
        (scenarioConfig 5000000000).Servers slowBackend 763 coldWorld).2.now = 5000000000 ∧
      (resolveMOTDPassthrough linux (scenarioConfig 5000000000)
        (scenarioConfig 5000000000).Servers slowBackend 763 coldWorld).2.pending =
        [⟨7000000000, ⟨"s2", 763⟩, ⟨some ⟨"hi"⟩, none⟩, 5000000000⟩] ∧
      (resolveMOTDPassthrough linux (scenarioConfig 5000000000)
        (scenarioConfig 5000000000).Servers liveBackend 763
        (resolveMOTDPassthrough linux (scenarioConfig 5000000000)
          (scenarioConfig 5000000000).Servers slowBackend 763 coldWorld).2).2.trace.filter
          Event.isDial =
        [Event.dial "127.0.0.1:25562" 5000000000, Event.dial "127.0.0.1:25562" 5000000000] := by
  decide

/-- C13, as stated, fails: with the cache disabled a call against a backend
that answers after seven seconds returns that answer at seven seconds, and a
call against a backend that never answers never returns. -/
theorem uncached_call_outlasts_deadline :
    findPassthroughServer (scenarioConfig 0) (scenarioConfig 0).Servers =
        (some (scenarioServer 0), "s2") ∧
      resolveMOTDPassthrough linux (scenarioConfig 0) (scenarioConfig 0).Servers
          slowBackend 763 coldWorld =
        (some (some ⟨"hi"⟩, none),
          { now := 7000000000, cache := [],
            trace := [Event.load "s2" 763, Event.dial "127.0.0.1:25562" 5000000000,
              Event.handshake ⟨763, "127.0.0.1", 25562, 1⟩, Event.statusRequest],
            pending := [] }) ∧
      (resolveMOTDPassthrough linux (scenarioConfig 0) (scenarioConfig 0).Servers
          stuckBackend 763 coldWorld).1 = none := by
  decide

/-- C13, amended. A call that selects a cache-enabled backend always returns,
and not later than five seconds after it started. When no fresh item is cached
and the load never ends or takes longer than five seconds, the call returns
a nil status with the error "MOTD passthrough request timed out" exactly five
seconds after it started. -/
theorem cached_call_meets_deadline (rt : Runtime) (cfg : Config)
    (order : List (String × ServerConfig)) (net : Backend) (p : Protocol) (w : World)
    (sc : ServerConfig) (name : String)
    (hsel : findPassthroughServer cfg order = (some sc, name))
    (hon : sc.CachePingEnabled = true) :
    (resolveMOTDPassthrough rt cfg order net p w).1.isSome = true ∧
      w.now ≤ (resolveMOTDPassthrough rt cfg order net p w).2.now ∧
      (resolveMOTDPassthrough rt cfg order net p w).2.now ≤ w.now + motdTimeout ∧
      ((∀ it, cacheFind w.cache ⟨name, p⟩ = some it → it.isExpired w.now = true) →
        ((load rt cfg net sc name p w).1 = none ∨ motdTimeout < (net.elapsed : Int)) →
        (resolveMOTDPassthrough rt cfg order net p w).1 =
            some (none, some (GoError.leaf "MOTD passthrough request timed out")) ∧
          (resolveMOTDPassthrough rt cfg order net p w).2.now = w.now + motdTimeout) := by
  have hpos : (0 : Int) < motdTimeout := by decide
  obtain ⟨evs2, _, r, hr, hlate⟩ := resolve_miss_late rt cfg order net p sc name hsel hon
  refine ⟨?_, ?_, ?_, fun hmiss hstuck => ?_⟩
  case refine_4 =>
    have hcase : r = none ∨ ¬ (net.elapsed : Int) < motdTimeout := by
      rcases hstuck with h | h
      · exact Or.inl ((hr w).symm.trans h)
      · exact Or.inr (by omega)
    rw [hlate w (cacheLookup_miss hmiss) hcase]
    exact ⟨rfl, rfl⟩
  all_goals
    cases hl : cacheLookup w.now w.cache ⟨name, p⟩ with
    | mk o items1 =>
    cases o with
    | some it1 =>
        rw [resolve_hit_world rt cfg order net p w sc name it1 items1 hsel hon hl] <;>
          first | rfl | (simp only; omega)
    | none =>
        have hmiss : cacheLookup w.now w.cache ⟨name, p⟩ = (none, w.cache) :=
          cacheLookup_none (by rw [hl])
        by_cases hcase : r = none ∨ ¬ (net.elapsed : Int) < motdTimeout
        · rw [hlate w hmiss hcase] <;> first | rfl | (simp only; omega)
        · have hne : r ≠ none := fun h => hcase (Or.inl h)
          have hfast : (net.elapsed : Int) < motdTimeout := by
            by_contra h
            exact hcase (Or.inr h)
          obtain ⟨evs, _, r1, hr1, hres⟩ := resolve_miss rt cfg order net p sc name hsel hon
          have hrr : r1 = r := (hr1 w).symm.trans (hr w)
          subst hrr
          cases r1 with
          | none => exact absurd rfl hne
          | some out =>
              obtain ⟨h1, h2⟩ := hres w hmiss
              first
                | (rw [h1] <;> rfl)
                | (rw [h2 out rfl hfast]; simp only; omega)

/-- C13 amended, on a cache-enabled backend that never answers: the call ends
at five seconds with the timeout error. -/
theorem cached_call_meets_deadline_witness :
    (resolveMOTDPassthrough linux (scenarioConfig 5000000000) (scenarioConfig 5000000000).Servers
        stuckBackend 763 coldWorld).1 =
        some (none, some (GoError.leaf "MOTD passthrough request timed out")) ∧
      (resolveMOTDPassthrough linux (scenarioConfig 5000000000) (scenarioConfig 5000000000).Servers
        stuckBackend 763 coldWorld).2.now = coldWorld.now + motdTimeout :=
  (cached_call_meets_deadline linux (scenarioConfig 5000000000) (scenarioConfig 5000000000).Servers
    stuckBackend 763 coldWorld (scenarioServer 5000000000) "s2" (by decide) (by decide)).2.2.2
    (by decide) (Or.inl (by decide))

/-- C14. When every item of the cache and every pending store holds an
exclusive pair, a call of `resolveMOTDPassthrough` that returns hands back an
exclusive pair, a response without error or an error without response, and
leaves a cache and pending stores of which the same is true. The passing of
time, with the stores it brings, and a reset of the cache keep that state
too. -/
theorem resolve_keeps_pairs_exclusive (rt : Runtime) (cfg : Config)
    (order : List (String × ServerConfig)) (net : Backend) (p : Protocol) (w : World)
    (hsound : w.Sound) :
    (∀ out, (resolveMOTDPassthrough rt cfg order net p w).1 = some out → Exclusive out) ∧
      (resolveMOTDPassthrough rt cfg order net p w).2.Sound ∧
      (∀ t, (w.advance t).Sound) ∧
      (ResetMOTDPassthroughCache w).Sound :=
  ⟨(resolve_sound rt cfg order net p w hsound).1,
    (resolve_sound rt cfg order net p w hsound).2,
    fun t => advance_sound w t hsound, reset_sound w hsound⟩

/-- C14 on the empty cache, which is sound, and a backend that drops the
connection: the pair returned and the item stored are exclusive. -/
theorem resolve_keeps_pairs_exclusive_witness :
    coldWorld.Sound ∧
      Exclusive (none, some droppedError) ∧
      (resolveMOTDPassthrough linux (scenarioConfig 5000000000) (scenarioConfig 5000000000).Servers
        droppingBackend 763 coldWorld).2.Sound :=
  ⟨by decide,
    (resolve_keeps_pairs_exclusive linux (scenarioConfig 5000000000) (scenarioConfig 5000000000).Servers
      droppingBackend 763 coldWorld (by decide)).1 _ (by decide),
    (resolve_keeps_pairs_exclusive linux (scenarioConfig 5000000000) (scenarioConfig 5000000000).Servers
      droppingBackend 763 coldWorld (by decide)).2.1⟩

/-! ## Handlers: lemmas -/

/-- Whether persisting fails does not depend on the shared state. -/
theorem persistConfig_fst {Cfg : Type} (rt : Runtime) (env : ConfigEnv Cfg) (path : String)
    (cfg : Cfg) (st st1 : Shared Cfg) :
    (persistConfig rt env path cfg st).1 = (persistConfig rt env path cfg st1).1 := by
  unfold persistConfig
  simp only
  split
  · rfl
  · split
    · cases env.marshal cfg with
      | error e => rfl
      | ok data =>
          simp only
          cases env.writeFile path data 420 <;> rfl
    · rfl

/-- Persisting adds nothing to the steps but writes to disk, and leaves the
configuration and the mutex alone. -/
theorem persistConfig_steps {Cfg : Type} (rt : Runtime) (env : ConfigEnv Cfg) (path : String)
    (cfg : Cfg) (st : Shared Cfg) :
    ∃ tail : List (Step Cfg),
      (∀ s ∈ tail, ∃ f data mode, s = Step.writeFile f data mode) ∧
      (persistConfig rt env path cfg st).2 = { st with steps := st.steps ++ tail } := by
  unfold persistConfig
  simp only
  split
  · exact ⟨[], by simp, by simp⟩
  · split
    · cases env.marshal cfg with
      | error e => exact ⟨[], by simp, by simp⟩
      | ok data =>
          simp only
          cases env.writeFile path data 420 <;>
            exact ⟨[Step.writeFile path data 420], by simp, rfl⟩
    · exact ⟨[], by simp, by simp⟩

/-- The locked section on a free mutex. -/
theorem swapAndFire_free {Cfg : Type} (st : Shared Cfg) (newCfg : Cfg)
    (hfree : st.locked = false) :
    swapAndFire st newCfg =
      some { cfg := newCfg, locked := false,
             steps := st.steps ++ [Step.lock, Step.store newCfg,
               Step.fire ⟨newCfg, st.cfg⟩ true, Step.unlock] } := by
  simp [swapAndFire, Shared.Lock, hfree, Shared.store, FireConfigUpdate, Shared.Unlock]

/-- Events fired in two runs of steps. -/
theorem firedEvents_append {Cfg : Type} (a b : List (Step Cfg)) :
    firedEvents (a ++ b) = firedEvents a ++ firedEvents b := by
  induction a with
  | nil => rfl
  | cons s a ih => cases s <;> simp [firedEvents, ih]

/-- Writes to disk fire no event. -/
theorem firedEvents_writes {Cfg : Type} (tail : List (Step Cfg))
    (h : ∀ s ∈ tail, ∃ f data mode, s = Step.writeFile f data mode) :
    firedEvents tail = [] := by
  induction tail with
  | nil => rfl
  | cons s tail ih =>
      obtain ⟨f, data, mode, hs⟩ := h s (List.mem_cons_self _ _)
      subst hs
      simpa [firedEvents] using ih (fun x hx => h x (List.mem_cons_of_mem _ hx))

/-- A list with an element has positive length. -/
theorem length_pos_of_ne_nil_errs (errs : List GoError) (h : errs ≠ []) : errs.length > 0 :=
  List.length_pos.2 h

/-! ## Handlers: properties -/

/-- C18. When the text does not parse, or parses to a configuration with at
least one validation error, `ApplyConfig` returns an invalid-argument error
and the shared state is exactly what it was: the same configuration, no event
fired, nothing written, whether or not persisting was asked for. -/
theorem applyConfig_rejects_without_effect {Cfg : Type} (rt : Runtime) (env : ConfigEnv Cfg)
    (path text : String) (persist : Bool) (st : Shared Cfg)
    (hbad : (∃ e, env.unmarshal text = Except.error e) ∨
      (∃ c, env.unmarshal text = Except.ok c ∧ (env.validate c).2 ≠ [])) :
    ∃ cause, ApplyConfig rt env path text persist st =
      some (Except.error ⟨Code.invalidArgument, cause⟩, st) := by
  rcases hbad with ⟨e, he⟩ | ⟨c, hc, hv⟩
  · exact ⟨errorf rt "invalid YAML/JSON" e, by simp [ApplyConfig, he]⟩
  · refine ⟨(validationFailed rt (env.validate c).2).err, ?_⟩
    have hpos := length_pos_of_ne_nil_errs _ hv
    simp [ApplyConfig, hc, hpos, validationFailed]

/-- C18 on a configuration that fails validation, with persist requested. -/
theorem applyConfig_rejects_without_effect_witness :
    ∃ cause, ApplyConfig linux textEnv "/etc/gate/config.yml" "bind: nowhere" true
        idleShared =
      some (Except.error ⟨Code.invalidArgument, cause⟩, idleShared) :=
  applyConfig_rejects_without_effect linux textEnv "/etc/gate/config.yml" "bind: nowhere"
    true idleShared (Or.inr ⟨"bind: nowhere", rfl, by decide⟩)

/-- C19, as stated, fails: with persist requested and no configuration file
path, a configuration that validates with one warning is applied and two
warnings are returned, the validation warning and the persist failure. -/
theorem applyConfig_appends_persist_warning :
    textEnv.unmarshal "legacy: true" = Except.ok "legacy: true" ∧
      (textEnv.validate "legacy: true").2 = [] ∧
      (textEnv.validate "legacy: true").1.map (fun e => e.Error linux) =
        ["legacy is deprecated"] ∧
      ApplyConfig linux textEnv "" "legacy: true" true idleShared =
        some (Except.ok ["legacy is deprecated",
            "failed to persist config to disk: config file path not available - cannot persist config"],
          { cfg := "legacy: true", locked := false,
            steps := [Step.lock, Step.store "legacy: true",
              Step.fire ⟨"legacy: true", "bind: here"⟩ true, Step.unlock] }) := by
  decide

/-- C19, amended. When the text parses to a configuration without validation
errors and the mutex is free, `ApplyConfig` succeeds, the shared configuration
is the new one, exactly one event is fired, carrying the new configuration and
the one held before, and it is fired after the store. The returned warnings
are the validation warnings in order when persisting is not requested or
succeeds, and those warnings followed by one persist-failure warning when
persisting is requested and fails. `applyConfigUpdate` does the same and
returns the validation warnings in order. -/
theorem applyConfig_swaps_then_fires {Cfg : Type} (rt : Runtime) (env : ConfigEnv Cfg)
    (path text : String) (persist : Bool) (st : Shared Cfg) (newCfg : Cfg)
    (hparse : env.unmarshal text = Except.ok newCfg)
    (hvalid : (env.validate newCfg).2 = [])
    (hfree : st.locked = false) :
    (∃ warns st1, ApplyConfig rt env path text persist st = some (Except.ok warns, st1) ∧
        st1.cfg = newCfg ∧
        firedEvents st1.steps = firedEvents st.steps ++ [⟨newCfg, st.cfg⟩] ∧
        (∃ pre post, st1.steps =
          pre ++ Step.store newCfg :: Step.fire ⟨newCfg, st.cfg⟩ true :: post) ∧
        ((persist = false ∨ (persistConfig rt env path newCfg st).1 = none) →
          warns = (env.validate newCfg).1.map (fun e => e.Error rt)) ∧
        (∀ err, persist = true → (persistConfig rt env path newCfg st).1 = some err →
          warns = (env.validate newCfg).1.map (fun e => e.Error rt) ++
            ["failed to persist config to disk: " ++ err.Error rt])) ∧
      (∃ st2, applyConfigUpdate rt env newCfg st =
          some (Except.ok ((env.validate newCfg).1.map (fun e => e.Error rt)), st2) ∧
        st2.cfg = newCfg ∧
        firedEvents st2.steps = firedEvents st.steps ++ [⟨newCfg, st.cfg⟩]) := by
  obtain ⟨s1, hs1, hsw⟩ : ∃ s1 : Shared Cfg,
      s1 = { cfg := newCfg, locked := false,
             steps := st.steps ++ [Step.lock, Step.store newCfg,
               Step.fire ⟨newCfg, st.cfg⟩ true, Step.unlock] } ∧
        swapAndFire st newCfg = some s1 :=
    ⟨_, rfl, swapAndFire_free st newCfg hfree⟩
  have hcfg : s1.cfg = newCfg := by rw [hs1]
  have hsteps : s1.steps = st.steps ++ [Step.lock, Step.store newCfg,
      Step.fire ⟨newCfg, st.cfg⟩ true, Step.unlock] := by rw [hs1]
  have hfired : firedEvents s1.steps = firedEvents st.steps ++ [⟨newCfg, st.cfg⟩] := by
    rw [hsteps]
    simp [firedEvents_append, firedEvents]
  constructor
  · cases persist with
    | false =>
        refine ⟨(env.validate newCfg).1.map (fun e => e.Error rt), s1,
          by simp [ApplyConfig, hparse, hvalid, hsw], hcfg, hfired,
          ⟨st.steps ++ [Step.lock], [Step.unlock], by simp [hsteps]⟩,
          fun _ => rfl, fun err h => by cases h⟩
    | true =>
        obtain ⟨tail, htail, hst⟩ := persistConfig_steps rt env path newCfg s1
        have hfst := persistConfig_fst rt env path newCfg s1 st
        cases hp : persistConfig rt env path newCfg s1 with
        | mk perr st2 =>
        rw [hp] at hst hfst
        simp only at hst hfst
        have h2cfg : st2.cfg = newCfg := by rw [hst]; exact hcfg
        have h2steps : st2.steps = s1.steps ++ tail := by rw [hst]
        have h2fired : firedEvents st2.steps = firedEvents st.steps ++ [⟨newCfg, st.cfg⟩] := by
          rw [h2steps, firedEvents_append, hfired, firedEvents_writes tail htail]
          simp
        have h2order : ∃ pre post, st2.steps =
            pre ++ Step.store newCfg :: Step.fire ⟨newCfg, st.cfg⟩ true :: post :=
          ⟨st.steps ++ [Step.lock], Step.unlock :: tail, by simp [h2steps, hsteps]⟩
        cases perr with
        | none =>
            refine ⟨(env.validate newCfg).1.map (fun e => e.Error rt), st2,
              by simp [ApplyConfig, hparse, hvalid, hsw, hp], h2cfg, h2fired, h2order,
              fun _ => rfl, fun err _ h => ?_⟩
            rw [← hfst] at h
            cases h
        | some perr =>
            refine ⟨(env.validate newCfg).1.map (fun e => e.Error rt) ++
                ["failed to persist config to disk: " ++ perr.Error rt], st2,
              by simp [ApplyConfig, hparse, hvalid, hsw, hp], h2cfg, h2fired, h2order,
              fun h => ?_, fun err _ h => ?_⟩
            · rcases h with h | h
              · cases h
              · rw [← hfst] at h
                cases h
            · rw [← hfst] at h
              cases h
              rfl
  · exact ⟨s1, by simp [applyConfigUpdate, hvalid, hsw], hcfg, hfired⟩

/-- C19 amended, on a configuration with one warning that is persisted to a
YAML file. -/
theorem applyConfig_swaps_then_fires_witness :
    ∃ st2, applyConfigUpdate linux textEnv "legacy: true" idleShared =
        some (Except.ok ((textEnv.validate "legacy: true").1.map
          (fun e => e.Error linux)), st2) ∧
      st2.cfg = "legacy: true" ∧
      firedEvents st2.steps =
        firedEvents idleShared.steps ++ [⟨"legacy: true", idleShared.cfg⟩] :=
  (applyConfig_swaps_then_fires linux textEnv "/etc/gate/config.yml" "legacy: true" true
    idleShared "legacy: true" rfl rfl rfl).2

/-- The steps on the example configuration: in a successful `ApplyConfig` and in
`applyConfigUpdate` the steps are lock, store, fire, unlock, so the event is
published before the mutex is released; and the config-update listener, run in
the state at the moment of publication, cannot take the mutex. -/
theorem applyConfig_fires_before_unlock :
    ApplyConfig linux textEnv "/etc/gate/config.yml" "lite: true" false idleShared =
        some (Except.ok [],
          { cfg := "lite: true", locked := false,
            steps := [Step.lock, Step.store "lite: true",
              Step.fire ⟨"lite: true", "bind: here"⟩ true, Step.unlock] }) ∧
      applyConfigUpdate linux textEnv "lite: true" idleShared =
        some (Except.ok [],
          { cfg := "lite: true", locked := false,
            steps := [Step.lock, Step.store "lite: true",
              Step.fire ⟨"lite: true", "bind: here"⟩ true, Step.unlock] }) ∧
      onConfigUpdate textEnv
          { cfg := "lite: true", locked := true,
            steps := [Step.lock, Step.store "lite: true"] }
          ⟨"lite: true", "bind: here"⟩ = none := by
  decide

/-- The order of steps. In every successful apply on a free mutex the steps are, in
this order: acquire the mutex, store the new configuration, publish the event
while the mutex is held, release the mutex; `ApplyConfig` may then write the
file. A listener that takes the mutex cannot proceed while it is held. -/
theorem apply_fires_while_mutex_held {Cfg : Type} (rt : Runtime) (env : ConfigEnv Cfg)
    (path text : String) (persist : Bool) (st : Shared Cfg) (newCfg : Cfg)
    (hparse : env.unmarshal text = Except.ok newCfg)
    (hvalid : (env.validate newCfg).2 = [])
    (hfree : st.locked = false) :
    (∃ warns st1 tail, ApplyConfig rt env path text persist st = some (Except.ok warns, st1) ∧
        st1.steps = st.steps ++ [Step.lock, Step.store newCfg,
          Step.fire ⟨newCfg, st.cfg⟩ true, Step.unlock] ++ tail ∧
        (∀ s ∈ tail, ∃ f data mode, s = Step.writeFile f data mode) ∧
        st1.locked = false) ∧
      (∃ warns st2, applyConfigUpdate rt env newCfg st = some (Except.ok warns, st2) ∧
        st2.steps = st.steps ++ [Step.lock, Step.store newCfg,
          Step.fire ⟨newCfg, st.cfg⟩ true, Step.unlock] ∧
        st2.locked = false) ∧
      (∀ (busy : Shared Cfg) (e : ConfigUpdateEvent Cfg), busy.locked = true →
        onConfigUpdate env busy e = none) := by
  obtain ⟨s1, hs1, hsw⟩ : ∃ s1 : Shared Cfg,
      s1 = { cfg := newCfg, locked := false,
             steps := st.steps ++ [Step.lock, Step.store newCfg,
               Step.fire ⟨newCfg, st.cfg⟩ true, Step.unlock] } ∧
        swapAndFire st newCfg = some s1 :=
    ⟨_, rfl, swapAndFire_free st newCfg hfree⟩
  have hsteps : s1.steps = st.steps ++ [Step.lock, Step.store newCfg,
      Step.fire ⟨newCfg, st.cfg⟩ true, Step.unlock] := by rw [hs1]
  have hlocked : s1.locked = false := by rw [hs1]
  refine ⟨?_, ⟨(env.validate newCfg).1.map (fun e => e.Error rt), s1,
      by simp [applyConfigUpdate, hvalid, hsw], hsteps, hlocked⟩,
    fun busy e hb => by simp [onConfigUpdate, Shared.Lock, hb]⟩
  cases persist with
  | false =>
      exact ⟨(env.validate newCfg).1.map (fun e => e.Error rt), s1, [],
        by simp [ApplyConfig, hparse, hvalid, hsw], by simp [hsteps], by simp, hlocked⟩
  | true =>
      obtain ⟨tail, htail, hst⟩ := persistConfig_steps rt env path newCfg s1
      cases hp : persistConfig rt env path newCfg s1 with
      | mk perr st2 =>
      rw [hp] at hst
      simp only at hst
      have h2steps : st2.steps = st.steps ++ [Step.lock, Step.store newCfg,
          Step.fire ⟨newCfg, st.cfg⟩ true, Step.unlock] ++ tail := by
        rw [hst, ← hsteps]
      have h2locked : st2.locked = false := by rw [hst]; exact hlocked
      cases perr with
      | none =>
          exact ⟨(env.validate newCfg).1.map (fun e => e.Error rt), st2, tail,
            by simp [ApplyConfig, hparse, hvalid, hsw, hp], h2steps, htail, h2locked⟩
      | some perr =>
          exact ⟨(env.validate newCfg).1.map (fun e => e.Error rt) ++
              ["failed to persist config to disk: " ++ perr.Error rt], st2, tail,
            by simp [ApplyConfig, hparse, hvalid, hsw, hp], h2steps, htail, h2locked⟩

/-- The order of steps, on `applyConfigUpdate` with the example configuration. -/
theorem apply_fires_while_mutex_held_witness :
    ∃ warns st2, applyConfigUpdate linux textEnv "lite: true" idleShared =
        some (Except.ok warns, st2) ∧
      st2.steps = idleShared.steps ++ [Step.lock, Step.store "lite: true",
        Step.fire ⟨"lite: true", idleShared.cfg⟩ true, Step.unlock] ∧
      st2.locked = false :=
  (apply_fires_while_mutex_held linux textEnv "/etc/gate/config.yml" "lite: true" false
    idleShared "lite: true" rfl rfl rfl).2.1

/-! ## Persistence: lemmas -/

/-- The four ways in which persisting fails and the one in which it writes,
by the path, its extension, the serialiser and the disk. -/
theorem persistConfig_cases {Cfg : Type} (rt : Runtime) (env : ConfigEnv Cfg) (path : String)
    (cfg : Cfg) (st : Shared Cfg) :
    (path = "" → persistConfig rt env path cfg st =
        (some (GoError.leaf "config file path not available - cannot persist config"), st)) ∧
      (path ≠ "" → ¬ (pathExt path = ".yaml" ∨ pathExt path = ".yml") →
        persistConfig rt env path cfg st =
          (some (GoError.leaf ("unsupported config file format: " ++ path ++
            " (only .yml and .yaml are supported)")), st)) ∧
      (path ≠ "" → (pathExt path = ".yaml" ∨ pathExt path = ".yml") →
        ∀ e, env.marshal cfg = Except.error e →
          persistConfig rt env path cfg st =
            (some (errorf rt "failed to marshal config" e), st)) ∧
      (path ≠ "" → (pathExt path = ".yaml" ∨ pathExt path = ".yml") →
        ∀ data, env.marshal cfg = Except.ok data →
          persistConfig rt env path cfg st =
            ((env.writeFile path data 420).map
                (errorf rt ("failed to write config file " ++ path)),
              { st with steps := st.steps ++ [Step.writeFile path data 420] })) := by
  refine ⟨fun h => by simp [persistConfig, h], fun h hext => ?_, fun h hext e he => ?_,
    fun h hext data hd => ?_⟩
  · unfold persistConfig
    simp only [if_neg h, if_neg hext]
  · unfold persistConfig
    simp only [if_neg h, if_pos hext, he]
  · unfold persistConfig
    simp only [if_neg h, if_pos hext, hd]
    cases env.writeFile path data 420 <;> rfl

/-- Files written in two runs of steps. -/
theorem writtenFiles_append {Cfg : Type} (a b : List (Step Cfg)) :
    writtenFiles (a ++ b) = writtenFiles a ++ writtenFiles b := by
  induction a with
  | nil => rfl
  | cons s a ih => cases s <;> simp [writtenFiles, ih]

/-- C21. For a request that parses and validates, made with the mutex free:
persisting fails exactly when the path is empty, the extension is not `.yaml`
or `.yml`, the serialiser fails or the write fails; when persisting is asked
for and fails with `err`, `ApplyConfig` still returns success, the shared
configuration is the new one, the one event (new, previous) was fired, and
the warnings are the validation warnings followed by the one warning
`failed to persist config to disk: ` with the message of `err`; when
persisting is not asked for, nothing is written and the warnings are the
validation warnings alone. -/
theorem applyConfig_persist_failure_is_warning {Cfg : Type} (rt : Runtime)
    (env : ConfigEnv Cfg) (path text : String) (st : Shared Cfg) (newCfg : Cfg)
    (hparse : env.unmarshal text = Except.ok newCfg)
    (hvalid : (env.validate newCfg).2 = [])
    (hfree : st.locked = false) :
    (((persistConfig rt env path newCfg st).1 ≠ none) ↔
        (path = "" ∨ ¬ (pathExt path = ".yaml" ∨ pathExt path = ".yml") ∨
          (∃ e, env.marshal newCfg = Except.error e) ∨
          (∃ data e, env.marshal newCfg = Except.ok data ∧
            env.writeFile path data 420 = some e))) ∧
      (∀ err, (persistConfig rt env path newCfg st).1 = some err →
        ∃ st1, ApplyConfig rt env path text true st =
            some (Except.ok ((env.validate newCfg).1.map (fun e => e.Error rt) ++
              ["failed to persist config to disk: " ++ err.Error rt]), st1) ∧
          st1.cfg = newCfg ∧
          firedEvents st1.steps = firedEvents st.steps ++ [⟨newCfg, st.cfg⟩]) ∧
      (∃ st0, ApplyConfig rt env path text false st =
          some (Except.ok ((env.validate newCfg).1.map (fun e => e.Error rt)), st0) ∧
        st0.cfg = newCfg ∧
        firedEvents st0.steps = firedEvents st.steps ++ [⟨newCfg, st.cfg⟩] ∧
        writtenFiles st0.steps = writtenFiles st.steps) := by
  obtain ⟨s1, hs1, hsw⟩ : ∃ s1 : Shared Cfg,
      s1 = { cfg := newCfg, locked := false,
             steps := st.steps ++ [Step.lock, Step.store newCfg,
               Step.fire ⟨newCfg, st.cfg⟩ true, Step.unlock] } ∧
        swapAndFire st newCfg = some s1 :=
    ⟨_, rfl, swapAndFire_free st newCfg hfree⟩
  have hcfg : s1.cfg = newCfg := by rw [hs1]
  have hsteps : s1.steps = st.steps ++ [Step.lock, Step.store newCfg,
      Step.fire ⟨newCfg, st.cfg⟩ true, Step.unlock] := by rw [hs1]
  have hfired : firedEvents s1.steps = firedEvents st.steps ++ [⟨newCfg, st.cfg⟩] := by
    rw [hsteps]
    simp [firedEvents_append, firedEvents]
  obtain ⟨hc1, hc2, hc3, hc4⟩ := persistConfig_cases rt env path newCfg st
  refine ⟨?_, ?_, ?_⟩
  · by_cases hp : path = ""
    · rw [hc1 hp]
      simp [hp]
    · by_cases hext : pathExt path = ".yaml" ∨ pathExt path = ".yml"
      · cases hm : env.marshal newCfg with
        | error e =>
            rw [hc3 hp hext e hm]
            simp [hp, hext]
        | ok data =>
            rw [hc4 hp hext data hm]
            cases hw : env.writeFile path data 420 with
            | none => simp [hp, hext, hw]
            | some e => simp [hp, hext, hw]
      · rw [hc2 hp hext]
        simp only [ne_eq, reduceCtorEq, not_false_eq_true, true_iff]
        exact Or.inr (Or.inl hext)
  · intro err herr
    obtain ⟨tail, htail, hst⟩ := persistConfig_steps rt env path newCfg s1
    have hfst := persistConfig_fst rt env path newCfg s1 st
    cases hp : persistConfig rt env path newCfg s1 with
    | mk perr st2 =>
    rw [hp] at hst hfst
    simp only at hst hfst
    rw [← hfst] at herr
    subst herr
    refine ⟨st2, by simp [ApplyConfig, hparse, hvalid, hsw, hp], by rw [hst]; exact hcfg, ?_⟩
    have h2steps : st2.steps = s1.steps ++ tail := by rw [hst]
    rw [h2steps, firedEvents_append, hfired, firedEvents_writes tail htail]
    simp
  · refine ⟨s1, by simp [ApplyConfig, hparse, hvalid, hsw], hcfg, hfired, ?_⟩
    rw [hsteps, writtenFiles_append]
    simp [writtenFiles]

/-- C21 on the example configuration with one warning, persisted to a file
whose extension is not a YAML one. -/
theorem applyConfig_persist_failure_is_warning_witness :
    ∃ st1, ApplyConfig linux textEnv "/etc/gate/config.json" "legacy: true" true idleShared =
        some (Except.ok (["legacy is deprecated"] ++
          ["failed to persist config to disk: " ++
            "unsupported config file format: /etc/gate/config.json" ++
            " (only .yml and .yaml are supported)"]), st1) ∧
      st1.cfg = "legacy: true" ∧
      firedEvents st1.steps = firedEvents idleShared.steps ++ [⟨"legacy: true", "bind: here"⟩] :=
  (applyConfig_persist_failure_is_warning linux textEnv "/etc/gate/config.json" "legacy: true"
    idleShared "legacy: true" rfl rfl rfl).2.1
      (GoError.leaf ("unsupported config file format: /etc/gate/config.json" ++
        " (only .yml and .yaml are supported)")) (by decide)

/-- C22, as stated, fails. The path `/etc/gate/config.yml` is not empty and
its extension is `.yml`, yet with a serialiser that fails `persistConfig`
returns an error and writes nothing. -/
theorem persistConfig_marshal_failure_writes_nothing :
    pathExt "/etc/gate/config.yml" = ".yml" ∧
      persistConfig linux brokenCodecEnv "/etc/gate/config.yml" "bind: here" idleShared =
        (some (GoError.wrap "failed to marshal config: yaml: cannot marshal"
          (GoError.leaf "yaml: cannot marshal")), idleShared) ∧
      writtenFiles
        (persistConfig linux brokenCodecEnv "/etc/gate/config.yml" "bind: here"
          idleShared).2.steps = [] := by
  decide

/-- C22, amended. The serialiser is reached exactly when the path is not
empty and its extension is `.yaml` or `.yml`: then, if it succeeds with
`data`, the one file written is the path with `data` and mode 0644 (420), and
the call fails only with the wrapped error of the write; if it fails, the call
returns the wrapped error and writes nothing. For an empty path and for any
other extension the call returns an error that names the cause and writes
nothing, whatever the serialiser and the disk would do. So a file is written
if and only if the path is not empty, the extension is one of the two, and
the serialiser succeeds. -/
theorem persistConfig_format_by_extension {Cfg : Type} (rt : Runtime) (env : ConfigEnv Cfg)
    (path : String) (cfg : Cfg) (st : Shared Cfg) :
    (path ≠ "" → (pathExt path = ".yaml" ∨ pathExt path = ".yml") →
        (∀ data, env.marshal cfg = Except.ok data →
          writtenFiles (persistConfig rt env path cfg st).2.steps =
              writtenFiles st.steps ++ [(path, data, 420)] ∧
            (persistConfig rt env path cfg st).1 =
              (env.writeFile path data 420).map
                (errorf rt ("failed to write config file " ++ path))) ∧
        (∀ e, env.marshal cfg = Except.error e →
          persistConfig rt env path cfg st =
            (some (errorf rt "failed to marshal config" e), st))) ∧
      (path = "" → persistConfig rt env path cfg st =
        (some (GoError.leaf "config file path not available - cannot persist config"), st)) ∧
      (path ≠ "" → ¬ (pathExt path = ".yaml" ∨ pathExt path = ".yml") →
        persistConfig rt env path cfg st =
          (some (GoError.leaf ("unsupported config file format: " ++ path ++
            " (only .yml and .yaml are supported)")), st)) ∧
      (writtenFiles (persistConfig rt env path cfg st).2.steps ≠ writtenFiles st.steps ↔
        path ≠ "" ∧ (pathExt path = ".yaml" ∨ pathExt path = ".yml") ∧
          ∃ data, env.marshal cfg = Except.ok data) ∧
      pathExt "/etc/gate/config" = "" ∧ pathExt "/etc/gate/config.YAML" = ".YAML" ∧
      pathExt "/etc/gate/config.Yml" = ".Yml" ∧ pathExt "/etc/gate.yml/config" = "" ∧
      pathExt "/etc/gate/config.yaml.bak" = ".bak" := by
  obtain ⟨hc1, hc2, hc3, hc4⟩ := persistConfig_cases rt env path cfg st
  refine ⟨fun hp hext => ⟨fun data hd => ?_, fun e he => hc3 hp hext e he⟩, hc1, hc2, ?_,
    by decide, by decide, by decide, by decide, by decide⟩
  · rw [hc4 hp hext data hd]
    simp [writtenFiles_append, writtenFiles]
  · by_cases hp : path = ""
    · rw [hc1 hp]
      simp [hp]
    · by_cases hext : pathExt path = ".yaml" ∨ pathExt path = ".yml"
      · cases hm : env.marshal cfg with
        | error e =>
            rw [hc3 hp hext e hm]
            simp [hp]
        | ok data =>
            rw [hc4 hp hext data hm]
            simp [hp, hext, writtenFiles_append, writtenFiles]
      · rw [hc2 hp hext]
        simp only [ne_eq, not_true_eq_false, false_iff, not_and, not_exists]
        exact fun _ h => absurd h hext

/-- C22 amended, on the example configuration and the path
`/etc/gate/config.yaml`. -/
theorem persistConfig_format_by_extension_witness :
    writtenFiles
        (persistConfig linux textEnv "/etc/gate/config.yaml" "bind: here" idleShared).2.steps =
        writtenFiles idleShared.steps ++ [("/etc/gate/config.yaml", "bind: here", 420)] ∧
      (persistConfig linux textEnv "/etc/gate/config.yaml" "bind: here" idleShared).1 =
        (textEnv.writeFile "/etc/gate/config.yaml" "bind: here" 420).map
          (errorf linux ("failed to write config file " ++ "/etc/gate/config.yaml")) :=
  ((persistConfig_format_by_extension linux textEnv "/etc/gate/config.yaml" "bind: here"
    idleShared).1 (by decide) (by decide)).1 "bind: here" rfl

/-! ## Lite routes: field masks -/

/-- A mask with a path outside the supported ones makes the loop over the
option paths end with an invalid-argument error. -/
theorem optionsLoop_rejects (lite : LiteEnv) (opts : LiteRouteOptions) (idx : Nat)
    (paths : List String) (pair : Shared GateConfig × GateConfig)
    (h : ∃ p ∈ paths, p ∉ allOptionPaths) :
    ∃ err, (optionsLoop lite opts idx paths pair).1 = some err ∧
      err.code = Code.invalidArgument := by
  induction paths generalizing pair with
  | nil => simp at h
  | cons p rest ih =>
      by_cases hp : p ∈ allOptionPaths
      · have hrest : ∃ q ∈ rest, q ∉ allOptionPaths := by
          obtain ⟨q, hq, hn⟩ := h
          rcases List.mem_cons.1 hq with rfl | hq
          · exact absurd hp hn
          · exact ⟨q, hq, hn⟩
        simp only [allOptionPaths, List.mem_cons, List.mem_singleton, List.not_mem_nil,
          or_false] at hp
        rcases hp with rfl | rfl | rfl | rfl <;>
          simpa [optionsLoop] using ih _ hrest
      · simp only [allOptionPaths, List.mem_cons, List.mem_singleton, List.not_mem_nil,
          or_false, not_or] at hp
        obtain ⟨h1, h2, h3, h4⟩ := hp
        exact ⟨{ code := Code.invalidArgument,
                 err := GoError.leaf ("unsupported field mask path " ++ lite.quote p) },
          by simp [optionsLoop, h1, h2, h3, h4], rfl⟩

/-- The error of `parseMOTD` is an invalid-argument error. -/
theorem parseMOTD_error_code (rt : Runtime) (u : Unicode) (lite : LiteEnv) (s : String)
    (err : ConnectError) (h : parseMOTD rt u lite s = Except.error err) :
    err.code = Code.invalidArgument := by
  unfold parseMOTD at h
  split at h
  · cases h
  · split at h
    · cases h
      rfl
    · cases h

/-- A mask with a path outside the supported ones makes the loop over the
fallback paths end with an invalid-argument error. -/
theorem fallbackLoop_rejects (rt : Runtime) (u : Unicode) (lite : LiteEnv)
    (reqFallback : Option LiteRouteFallback) (idx : Nat)
    (paths : List String) (pair : Shared GateConfig × GateConfig)
    (h : ∃ p ∈ paths, p ∉ allFallbackPaths) :
    ∃ err, (fallbackLoop rt u lite reqFallback idx paths pair).1 = some err ∧
      err.code = Code.invalidArgument := by
  induction paths generalizing pair with
  | nil => simp at h
  | cons p rest ih =>
      by_cases hp : p ∈ allFallbackPaths
      · have hrest : ∃ q ∈ rest, q ∉ allFallbackPaths := by
          obtain ⟨q, hq, hn⟩ := h
          rcases List.mem_cons.1 hq with rfl | hq
          · exact absurd hp hn
          · exact ⟨q, hq, hn⟩
        simp only [allFallbackPaths, List.mem_cons, List.mem_singleton, List.not_mem_nil,
          or_false] at hp
        rcases hp with rfl | rfl | rfl | rfl
        · cases reqFallback with
          | none => simpa [fallbackLoop] using ih _ hrest
          | some fallback =>
              by_cases hb : stringsTrimSpace u fallback.MotdJson = ""
              · simpa [fallbackLoop, hb] using ih _ hrest
              · cases hm : parseMOTD rt u lite fallback.MotdJson with
                | error err =>
                    exact ⟨err, by simp [fallbackLoop, hb, hm],
                      parseMOTD_error_code rt u lite _ err hm⟩
                | ok motd => simpa [fallbackLoop, hb, hm] using ih _ hrest
        · cases hv : reqFallback.bind (fun fallback => fallback.Version) with
          | none => simpa [fallbackLoop, hv] using ih _ hrest
          | some v => simpa [fallbackLoop, hv] using ih _ hrest
        · cases hv : reqFallback.bind (fun fallback => fallback.Players) with
          | none => simpa [fallbackLoop, hv] using ih _ hrest
          | some v => simpa [fallbackLoop, hv] using ih _ hrest
        · cases reqFallback with
          | none => simpa [fallbackLoop] using ih _ hrest
          | some fallback =>
              by_cases hb : stringsTrimSpace u fallback.Favicon = ""
              · simpa [fallbackLoop, hb] using ih _ hrest
              · simpa [fallbackLoop, hb] using ih _ hrest
      · simp only [allFallbackPaths, List.mem_cons, List.mem_singleton, List.not_mem_nil,
          or_false, not_or] at hp
        obtain ⟨h1, h2, h3, h4⟩ := hp
        exact ⟨{ code := Code.invalidArgument,
                 err := GoError.leaf ("unsupported field mask path " ++ lite.quote p) },
          by simp [fallbackLoop, h1, h2, h3, h4], rfl⟩

/-- C23. The code rejects a mask with an unknown path with invalid-argument
wherever the path stands, but it does not leave the route alone: the paths
that precede the unknown one are already written to the route of the shared
configuration when the call returns. With the mask `proxy_protocol`, `bogus`
the route keeps the new proxy-protocol flag; with the mask `favicon`, `bogus`
a route without fallback keeps a fallback with the new favicon. -/
theorem unknown_mask_path_keeps_earlier_paths :
    (∀ (lite : LiteEnv) (opts : LiteRouteOptions) (idx : Nat) (paths : List String)
        (pair : Shared GateConfig × GateConfig), (∃ p ∈ paths, p ∉ allOptionPaths) →
        ∃ err, (optionsLoop lite opts idx paths pair).1 = some err ∧
          err.code = Code.invalidArgument) ∧
      (∀ (rt : Runtime) (u : Unicode) (lite : LiteEnv) (fb : Option LiteRouteFallback)
        (idx : Nat) (paths : List String) (pair : Shared GateConfig × GateConfig),
        (∃ p ∈ paths, p ∉ allFallbackPaths) →
        ∃ err, (fallbackLoop rt u lite fb idx paths pair).1 = some err ∧
          err.code = Code.invalidArgument) ∧
      UpdateLiteRouteOptions linux ascii routesEnv liteEnv "mc.example.com"
          (some ⟨true, true, true, 5000⟩) ["proxy_protocol", "bogus"] liteShared =
        some (Except.error
            { code := Code.invalidArgument,
              err := GoError.leaf "unsupported field mask path \"bogus\"" },
          { cfg := { liteConfig with
                     Routes := [{ lobbyRoute with ProxyProtocol := true }, buildRoute] },
            locked := false, steps := [Step.lock, Step.unlock] }) ∧
      UpdateLiteRouteFallback linux ascii routesEnv liteEnv "mc.example.com"
          (some ⟨"", none, none, "data:image/png;base64,AAAA"⟩) ["favicon", "bogus"]
          liteShared =
        some (Except.error
            { code := Code.invalidArgument,
              err := GoError.leaf "unsupported field mask path \"bogus\"" },
          { cfg := { liteConfig with
                     Routes := [{ lobbyRoute with
                                  Fallback := some ⟨none, ⟨"", 0⟩, none,
                                    "data:image/png;base64,AAAA"⟩ }, buildRoute] },
            locked := false, steps := [Step.lock, Step.unlock] }) :=
  ⟨optionsLoop_rejects, fallbackLoop_rejects, by decide, by decide⟩

/-- C28. The code stores the number of `cache_ping_ttl_ms` as it is in the
route's `CachePingTTL`, a count of nanoseconds, and reports the count of
nanoseconds as it is in `cache_ping_ttl_ms`. A request for 5000 ms leaves the
route with a TTL of 5000 ns, not with the 5000000000 ns of 5 seconds, and a
route with a TTL of 5 seconds is reported with `cache_ping_ttl_ms` =
5000000000, not 5000. -/
theorem cache_ping_ttl_ms_taken_as_nanoseconds :
    (∀ (lite : LiteEnv) (route : Route),
        (toProtoRoute lite route).Options.CachePingTtlMs = route.CachePingTTL) ∧
      (toProtoRoute liteEnv
          { lobbyRoute with CachePingTTL := millisecondsAsDuration 5000 }).Options.CachePingTtlMs =
        5000000000 ∧
      millisecondsAsDuration 5000 = 5000000000 ∧
      (UpdateLiteRouteOptions linux ascii routesEnv liteEnv "mc.example.com"
            (some ⟨false, false, false, 5000⟩) ["cache_ping_ttl_ms"] liteShared).map
          (fun r => (r.1, r.2.cfg.Routes)) =
        some (Except.ok [], [{ lobbyRoute with CachePingTTL := 5000 }, buildRoute]) ∧
      (5000 : Int) ≠ millisecondsAsDuration 5000 := by
  refine ⟨fun _ _ => rfl, by decide, by decide, by decide, by decide⟩

/-! ## Lite routes: lemmas -/

/-- The inner loops of the two lookups are the same function. -/
theorem hostMatches_eq (u : Unicode) (host : String) (hs : List String) :
    hostMatches u host hs = hostMatchesInConfig u host hs := by
  induction hs with
  | nil => rfl
  | cons h rest ih => simp [hostMatches, hostMatchesInConfig, ih]

/-- The outer loops of the two lookups are the same function. -/
theorem findRouteIdxLoop_eq (u : Unicode) (host : String) (routes : List Route) (i : Nat) :
    findRouteIdxLoop u host routes i = findRouteIdxInConfigLoop u host routes i := by
  induction routes generalizing i with
  | nil => rfl
  | cons r rest ih => simp [findRouteIdxLoop, findRouteIdxInConfigLoop, ih, hostMatches_eq]

/-- The inner loop finds a pattern exactly when there is one. -/
theorem hostMatchesInConfig_iff (u : Unicode) (host : String) (hs : List String) :
    hostMatchesInConfig u host hs = true ↔ ∃ h ∈ hs, stringsEqualFold u h host = true := by
  induction hs with
  | nil => simp [hostMatchesInConfig]
  | cons h rest ih =>
      by_cases hh : stringsEqualFold u h host = true
      · simp [hostMatchesInConfig, hh]
      · simp [hostMatchesInConfig, hh, ih]

/-- The outer loop returns -1 when no route matches, and otherwise the index of
the first route that does, counted from `start`. -/
theorem findRouteIdxInConfigLoop_spec (u : Unicode) (host : String) (routes : List Route)
    (start : Nat) :
    (findRouteIdxInConfigLoop u host routes start = -1 ∧
        ∀ x ∈ routes, hostMatchesInConfig u host x.Host = false) ∨
      (∃ k route, findRouteIdxInConfigLoop u host routes start = ((start + k : Nat) : Int) ∧
        routes.get? k = some route ∧ hostMatchesInConfig u host route.Host = true ∧
        ∀ j, j < k → ∀ x, routes.get? j = some x →
          hostMatchesInConfig u host x.Host = false) := by
  induction routes generalizing start with
  | nil => exact Or.inl ⟨rfl, by simp⟩
  | cons r rest ih =>
      by_cases hr : hostMatchesInConfig u host r.Host = true
      · exact Or.inr ⟨0, r, by simp [findRouteIdxInConfigLoop, hr], rfl, hr,
          fun j hj => absurd hj (Nat.not_lt_zero j)⟩
      · have hr0 : hostMatchesInConfig u host r.Host = false := by
          cases h : hostMatchesInConfig u host r.Host with
          | true => exact absurd h hr
          | false => rfl
        rcases ih (start + 1) with ⟨h1, h2⟩ | ⟨k, route, h1, h2, h3, h4⟩
        · refine Or.inl ⟨by simp [findRouteIdxInConfigLoop, hr0, h1], fun x hx => ?_⟩
          rcases List.mem_cons.1 hx with rfl | hx
          · exact hr0
          · exact h2 x hx
        · refine Or.inr ⟨k + 1, route, ?_, by simpa using h2, h3, fun j hj x hx => ?_⟩
          · simp only [findRouteIdxInConfigLoop, hr0, Bool.false_eq_true, if_false, h1]
            congr 1
            omega
          · cases j with
            | zero =>
                simp only [List.get?_cons_zero, Option.some.injEq] at hx
                subst hx
                exact hr0
            | succ j =>
                simp only [List.get?_cons_succ] at hx
                exact h4 j (by omega) x hx

/-- The lookup by the first matching route: when route `i` has a matching
pattern and no earlier route has one, the lookup returns `i`. -/
theorem findRouteIdxInConfig_first (u : Unicode) (c : GateConfig) (host : String)
    (i : Nat) (r : Route) (hr : c.Routes.get? i = some r)
    (hm : hostMatchesInConfig u host r.Host = true)
    (hfirst : ∀ j, j < i → ∀ x, c.Routes.get? j = some x →
      hostMatchesInConfig u host x.Host = false) :
    findRouteIdxInConfig u c host = (i : Int) := by
  unfold findRouteIdxInConfig
  rcases findRouteIdxInConfigLoop_spec u host c.Routes 0 with
    ⟨_, h2⟩ | ⟨k, route, h1, h2, h3, h4⟩
  · have := h2 r (List.get?_mem hr)
    rw [hm] at this
    cases this
  · rw [h1]
    rcases Nat.lt_trichotomy k i with hlt | heq | hgt
    · have := hfirst k hlt route h2
      rw [h3] at this
      cases this
    · subst heq
      simp
    · have := h4 i hgt r hr
      rw [hm] at this
      cases this

/-- A lookup that does not return a negative number returns the index of a
route, the first with a matching pattern. -/
theorem findRouteIdxInConfig_found (u : Unicode) (c : GateConfig) (host : String)
    (h : ¬ findRouteIdxInConfig u c host < 0) :
    ∃ (i : Nat) (route : Route), findRouteIdxInConfig u c host = (i : Int) ∧
      c.Routes.get? i = some route ∧
      hostMatchesInConfig u host route.Host = true ∧
      ∀ j, j < i → ∀ x, c.Routes.get? j = some x →
        hostMatchesInConfig u host x.Host = false := by
  unfold findRouteIdxInConfig at h ⊢
  rcases findRouteIdxInConfigLoop_spec u host c.Routes 0 with
    ⟨h1, _⟩ | ⟨k, route, h1, h2, h3, h4⟩
  · rw [h1] at h
    exact absurd (by decide) h
  · exact ⟨k, route, by simpa using h1, h2, h3, h4⟩

/-- The copy that opens a mutation, on a free mutex. -/
theorem copyConfig_free (st : Shared GateConfig) (hfree : st.locked = false) :
    copyConfig st =
      some (st.cfg, { cfg := st.cfg, locked := false,
                      steps := st.steps ++ [Step.lock, Step.unlock] }) := by
  simp [copyConfig, Shared.Lock, hfree, Shared.Unlock]

/-- The copy that opens a mutation waits while the mutex is held. -/
theorem copyConfig_held (st : Shared GateConfig) (hheld : st.locked = true) :
    copyConfig st = none := by
  simp [copyConfig, Shared.Lock, hheld]

/-- Reading the routes after a change of the route at `idx`. -/
theorem updateAt_get? (f : Route → Route) (routes : List Route) (idx j : Nat) :
    (updateAt f routes idx).get? j =
      if j = idx then (routes.get? j).map f else routes.get? j := by
  induction routes generalizing idx j with
  | nil => cases idx <;> simp [updateAt]
  | cons r rest ih =>
      cases idx with
      | zero =>
          cases j with
          | zero => simp [updateAt]
          | succ j => simp [updateAt]
      | succ idx =>
          cases j with
          | zero => simp [updateAt]
          | succ j => simpa [updateAt] using ih idx j

/-- A change of one route keeps the number of routes. -/
theorem updateAt_length (f : Route → Route) (routes : List Route) (idx : Nat) :
    (updateAt f routes idx).length = routes.length := by
  induction routes generalizing idx with
  | nil => cases idx <;> rfl
  | cons r rest ih => cases idx <;> simp [updateAt, ih]

/-- Two changes of the same route are one change. -/
theorem updateAt_updateAt (f g : Route → Route) (routes : List Route) (idx : Nat) :
    updateAt g (updateAt f routes idx) idx = updateAt (fun r => g (f r)) routes idx := by
  induction routes generalizing idx with
  | nil => cases idx <;> rfl
  | cons r rest ih => cases idx <;> simp [updateAt, ih]

/-- A change that changes nothing. -/
theorem updateAt_id (f : Route → Route) (hf : ∀ r, f r = r) (routes : List Route) (idx : Nat) :
    updateAt f routes idx = routes := by
  induction routes generalizing idx with
  | nil => cases idx <;> rfl
  | cons r rest ih => cases idx <;> simp [updateAt, ih, hf]

/-- Two assignments to the same route are one assignment. -/
theorem assignRoute_assignRoute (idx : Nat) (f g : Route → Route)
    (pair : Shared GateConfig × GateConfig) :
    assignRoute idx g (assignRoute idx f pair) = assignRoute idx (fun r => g (f r)) pair := by
  simp [assignRoute, updateAt_updateAt]

/-- The loop of `AddLiteRouteBackend` finds a backend exactly when there is
one equal ignoring case. -/
theorem backendExists_iff (u : Unicode) (backend : String) (bs : List String) :
    backendExists u backend bs = true ↔ ∃ x ∈ bs, stringsEqualFold u x backend = true := by
  induction bs with
  | nil => simp [backendExists]
  | cons b rest ih =>
      by_cases hb : stringsEqualFold u b backend = true
      · simp [backendExists, hb]
      · simp [backendExists, hb, ih]

/-- The loop of `RemoveLiteRouteBackend` is a filter. -/
theorem filterBackends_eq_filter (u : Unicode) (backend : String) (bs : List String) :
    filterBackends u backend bs = bs.filter (fun x => !stringsEqualFold u x backend) := by
  induction bs with
  | nil => rfl
  | cons b rest ih =>
      by_cases hb : stringsEqualFold u b backend = true
      · simp [filterBackends, hb, ih]
      · simp [filterBackends, hb, ih]

/-- Every text equals itself ignoring case. -/
theorem stringsEqualFold_self (u : Unicode) (s : String) : stringsEqualFold u s s = true := by
  simp [stringsEqualFold]

/-- A validated configuration is stored by `applyConfigUpdate` on a free
mutex. -/
theorem applyConfigUpdate_valid {Cfg : Type} (rt : Runtime) (env : ConfigEnv Cfg) (c : Cfg)
    (s : Shared Cfg) (hvalid : (env.validate c).2 = []) (hfree : s.locked = false) :
    applyConfigUpdate rt env c s =
      some (Except.ok ((env.validate c).1.map (fun e => e.Error rt)),
        { cfg := c, locked := false,
          steps := s.steps ++ [Step.lock, Step.store c, Step.fire ⟨c, s.cfg⟩ true,
            Step.unlock] }) := by
  simp [applyConfigUpdate, hvalid, swapAndFire_free s c hfree]

/-- A successful `applyConfigUpdate` stores the configuration it was given and
touches nothing else of it. -/
theorem applyConfigUpdate_ok {Cfg : Type} (rt : Runtime) (env : ConfigEnv Cfg) (c : Cfg)
    (s s1 : Shared Cfg) (warns : List String)
    (h : applyConfigUpdate rt env c s = some (Except.ok warns, s1)) : s1.cfg = c := by
  unfold applyConfigUpdate at h
  simp only at h
  split at h
  · cases h
  · cases hl : s.locked with
    | true =>
        simp [swapAndFire, Shared.Lock, hl] at h
    | false =>
        rw [swapAndFire_free s c hl] at h
        simp only [Option.some.injEq, Prod.mk.injEq, Except.ok.injEq] at h
        rw [← h.2]

/-- A refused `applyConfigUpdate` leaves the state it was given as it is. -/
theorem applyConfigUpdate_error {Cfg : Type} (rt : Runtime) (env : ConfigEnv Cfg) (c : Cfg)
    (s s1 : Shared Cfg) (e : ConnectError)
    (h : applyConfigUpdate rt env c s = some (Except.error e, s1)) : s1 = s := by
  unfold applyConfigUpdate at h
  simp only at h
  split at h
  · simp only [Option.some.injEq, Prod.mk.injEq] at h
    exact h.2.symm
  · cases hl : s.locked with
    | true =>
        simp [swapAndFire, Shared.Lock, hl] at h
    | false =>
        rw [swapAndFire_free s c hl] at h
        simp at h

/-! ## Lite routes: properties -/

/-- The message that `toProtoFallback` builds, field by field: the MOTD as the
JSON text of its serialisation, empty when there is none or when it cannot be
serialised; the version when its name or its protocol is set; the players
when there are any; the favicon as it is. -/
theorem toProtoFallback_eq_map (lite : LiteEnv) (src : Option Status) :
    toProtoFallback lite src =
      src.map (fun (s : Status) =>
        { MotdJson := (s.MOTD.bind (fun motd => (lite.marshalMOTD motd).toOption)).getD "",
          Version :=
            if s.Version.Name ≠ "" ∨ s.Version.Protocol ≠ 0 then
              some { Name := s.Version.Name, Protocol := int32 s.Version.Protocol }
            else none,
          Players := s.Players.map (fun (pl : Players) =>
            { Online := int32 pl.Online, Max := int32 pl.Max }),
          Favicon := s.Favicon }) := by
  cases src with
  | none => rfl
  | some s =>
      obtain ⟨motd, version, players, fav⟩ := s
      cases motd with
      | none => cases players <;> simp [toProtoFallback]
      | some m =>
          cases hm : lite.marshalMOTD m <;> cases players <;>
            simp [toProtoFallback, hm, Except.toOption]

/-- C24. With the mutex free, `GetLiteRoute` returns invalid-argument when the
host is empty after trimming; not-found when no pattern of any route equals
the trimmed host ignoring case; and otherwise the message of the first route,
in the order of the configuration, that has such a pattern: the message has
the hosts of that route, its strategy, its four options, one backend entry
for each of its backends in their order with the address and the count of
active connections, and its fallback, field by field. The two lookups
`findRouteIdx` and `findRouteIdxInConfig` return the same number on the same
routes and host. -/
theorem getLiteRoute_returns_first_match (u : Unicode) (lite : LiteEnv) (reqHost : String)
    (st : Shared GateConfig) (hfree : st.locked = false) :
    (stringsTrimSpace u reqHost = "" →
        GetLiteRoute u lite reqHost st =
          some (Except.error (invalidArgument "host is required"), st)) ∧
      (stringsTrimSpace u reqHost ≠ "" →
        (∀ r ∈ st.cfg.Routes, ∀ h ∈ r.Host,
          stringsEqualFold u h (stringsTrimSpace u reqHost) = false) →
        ∃ st1, GetLiteRoute u lite reqHost st = some (Except.error routeNotFound, st1) ∧
          st1.cfg = st.cfg ∧ st1.locked = false) ∧
      (stringsTrimSpace u reqHost ≠ "" →
        ∀ (i : Nat) (r : Route), st.cfg.Routes.get? i = some r →
          (∃ h ∈ r.Host, stringsEqualFold u h (stringsTrimSpace u reqHost) = true) →
          (∀ j, j < i → ∀ x, st.cfg.Routes.get? j = some x → ∀ h ∈ x.Host,
            stringsEqualFold u h (stringsTrimSpace u reqHost) = false) →
          ∃ st1, GetLiteRoute u lite reqHost st =
              some (Except.ok
                { Hosts := r.Host,
                  Strategy := lite.strategyFromString r.Strategy,
                  Options :=
                    { ProxyProtocol := r.ProxyProtocol,
                      TcpShieldRealIp := lite.getTCPShieldRealIP r,
                      ModifyVirtualHost := r.ModifyVirtualHost,
                      CachePingTtlMs := r.CachePingTTL },
                  Backends := r.Backend.map (fun (backend : String) =>
                    { Address := backend,
                      ActiveConnections := (lite.activeConnections backend).getD 0 }),
                  Fallback := r.Fallback.map (fun (s : Status) =>
                    { MotdJson :=
                        (s.MOTD.bind (fun motd => (lite.marshalMOTD motd).toOption)).getD "",
                      Version :=
                        if s.Version.Name ≠ "" ∨ s.Version.Protocol ≠ 0 then
                          some { Name := s.Version.Name, Protocol := int32 s.Version.Protocol }
                        else none,
                      Players := s.Players.map (fun (pl : Players) =>
                        { Online := int32 pl.Online, Max := int32 pl.Max }),
                      Favicon := s.Favicon }) }, st1) ∧
            st1.cfg = st.cfg ∧ st1.locked = false) ∧
      (∀ host, findRouteIdx u st host = findRouteIdxInConfig u st.cfg host) ∧
      (∀ host, findRouteIdxInConfig u st.cfg host = -1 ∨
        ∃ (i : Nat), findRouteIdxInConfig u st.cfg host = (i : Int) ∧
          i < st.cfg.Routes.length) := by
  have hlock : st.Lock = some { st with locked := true, steps := st.steps ++ [Step.lock] } := by
    simp [Shared.Lock, hfree]
  have heq : ∀ (s : Shared GateConfig) host,
      findRouteIdx u s host = findRouteIdxInConfig u s.cfg host := fun s host => by
    simp [findRouteIdx, findRouteIdxInConfig, findRouteIdxLoop_eq]
  refine ⟨fun h => by simp [GetLiteRoute, h], fun hne hnone => ?_, fun hne i r hr hm hfirst => ?_,
    heq st, fun host => ?_⟩
  · have hidx : findRouteIdxInConfig u st.cfg (stringsTrimSpace u reqHost) = -1 := by
      unfold findRouteIdxInConfig
      rcases findRouteIdxInConfigLoop_spec u (stringsTrimSpace u reqHost) st.cfg.Routes 0 with
        ⟨h1, _⟩ | ⟨k, route, _, h2, h3, _⟩
      · exact h1
      · obtain ⟨h, hh, he⟩ := (hostMatchesInConfig_iff u _ _).1 h3
        rw [hnone route (List.get?_mem h2) h hh] at he
        cases he
    refine ⟨{ cfg := st.cfg, locked := false, steps := st.steps ++ [Step.lock, Step.unlock] },
      ?_, rfl, rfl⟩
    simp [GetLiteRoute, hne, hlock, heq, hidx, Shared.Unlock]
  · have hm1 : hostMatchesInConfig u (stringsTrimSpace u reqHost) r.Host = true :=
      (hostMatchesInConfig_iff u _ _).2 hm
    have hf1 : ∀ j, j < i → ∀ x, st.cfg.Routes.get? j = some x →
        hostMatchesInConfig u (stringsTrimSpace u reqHost) x.Host = false := by
      intro j hj x hx
      cases hc : hostMatchesInConfig u (stringsTrimSpace u reqHost) x.Host with
      | false => rfl
      | true =>
          obtain ⟨h, hh, he⟩ := (hostMatchesInConfig_iff u _ _).1 hc
          rw [hfirst j hj x hx h hh] at he
          cases he
    have hidx := findRouteIdxInConfig_first u st.cfg (stringsTrimSpace u reqHost) i r hr hm1 hf1
    refine ⟨{ cfg := st.cfg, locked := false, steps := st.steps ++ [Step.lock, Step.unlock] },
      ?_, rfl, rfl⟩
    have hr1 : st.cfg.Routes[i]? = some r := by simpa using hr
    have hi : ¬ ((i : Int) < 0) := by omega
    simp [GetLiteRoute, hne, hlock, heq, hidx, Shared.Unlock, hr1, hi, toProtoRoute,
      toProtoFallback_eq_map]
  · unfold findRouteIdxInConfig
    rcases findRouteIdxInConfigLoop_spec u host st.cfg.Routes 0 with
      ⟨h1, _⟩ | ⟨k, route, h1, h2, _, _⟩
    · exact Or.inl h1
    · refine Or.inr ⟨k, by simpa using h1, ?_⟩
      have h2a : st.cfg.Routes[k]? = some route := by simpa using h2
      exact (List.getElem?_eq_some_iff.1 h2a).1

/-- C24 on the example routes: a host in other letters and with blanks
around it finds the second route, and the reply carries that route. -/
theorem getLiteRoute_returns_first_match_witness :
    ∃ st1, GetLiteRoute ascii liteEnv " BUILD.example.com " liteShared =
        some (Except.ok
          { Hosts := ["build.example.com"],
            Strategy := 1,
            Options :=
              { ProxyProtocol := false, TcpShieldRealIp := false, ModifyVirtualHost := false,
                CachePingTtlMs := 0 },
            Backends := [{ Address := "10.0.1.1:25565", ActiveConnections := 0 }],
            Fallback := none }, st1) ∧
      st1.cfg = liteShared.cfg ∧ st1.locked = false :=
  (getLiteRoute_returns_first_match ascii liteEnv " BUILD.example.com " liteShared rfl).2.2.1
    (by decide) 1 buildRoute rfl (by decide) (by decide)

/-- The loop of `AddLiteRouteBackend` as a test of the list. -/
theorem backendExists_eq_any (u : Unicode) (backend : String) (bs : List String) :
    backendExists u backend bs = bs.any (fun x => stringsEqualFold u x backend) := by
  induction bs with
  | nil => rfl
  | cons b rest ih =>
      by_cases hb : stringsEqualFold u b backend = true
      · simp [backendExists, hb]
      · simp [backendExists, hb, ih]

/-- An assignment to a route, seen from a shared state and a copy that hold
the same configuration. -/
theorem assignRoute_same (idx : Nat) (f : Route → Route) (s : Shared GateConfig) :
    assignRoute idx f (s, s.cfg) =
      ({ cfg := { s.cfg with Routes := updateAt f s.cfg.Routes idx }, locked := s.locked,
         steps := s.steps },
        { s.cfg with Routes := updateAt f s.cfg.Routes idx }) := rfl

/-- C29. On an existing route with backends `bs`, for a host and a backend
that are not blank, with the mutex free: `AddLiteRouteBackend` hands
`applyConfigUpdate` a configuration in which the route has `bs` itself when
some element equals the trimmed backend ignoring case, and `bs` with the
trimmed backend appended otherwise; `RemoveLiteRouteBackend` hands it one in
which the route has `bs` without the elements that equal the trimmed backend
ignoring case, the rest in their order; in both the other routes are as they
were, and when the configuration validates it is the one stored. Adding
twice is adding once, adding keeps a list free of duplicates ignoring case
free of them, and removing what was just added to a list that did not have
it gives the list back. -/
theorem backend_add_and_remove_edit_the_list (rt : Runtime) (u : Unicode)
    (env : ConfigEnv GateConfig) (reqHost reqBackend : String) (st : Shared GateConfig)
    (i : Nat) (route : Route)
    (hfree : st.locked = false)
    (hhost : stringsTrimSpace u reqHost ≠ "")
    (hbackend : stringsTrimSpace u reqBackend ≠ "")
    (hidx : findRouteIdxInConfig u st.cfg (stringsTrimSpace u reqHost) = (i : Int))
    (hroute : st.cfg.Routes.get? i = some route) :
    (∃ c, AddLiteRouteBackend rt u env reqHost reqBackend st =
          applyConfigUpdate rt env c
            { cfg := c, locked := false, steps := st.steps ++ [Step.lock, Step.unlock] } ∧
        c.Routes.get? i = some { route with
          Backend :=
            if route.Backend.any (fun x => stringsEqualFold u x (stringsTrimSpace u reqBackend))
            then route.Backend
            else route.Backend ++ [stringsTrimSpace u reqBackend] } ∧
        (∀ j, j ≠ i → c.Routes.get? j = st.cfg.Routes.get? j) ∧
        c.Routes.length = st.cfg.Routes.length ∧ c.LiteEnabled = st.cfg.LiteEnabled ∧
        ((env.validate c).2 = [] →
          ∃ st1, AddLiteRouteBackend rt u env reqHost reqBackend st =
              some (Except.ok ((env.validate c).1.map (fun e => e.Error rt)), st1) ∧
            st1.cfg = c)) ∧
      (∃ c, RemoveLiteRouteBackend rt u env reqHost reqBackend st =
          applyConfigUpdate rt env c
            { cfg := c, locked := false, steps := st.steps ++ [Step.lock, Step.unlock] } ∧
        c.Routes.get? i = some { route with
          Backend := route.Backend.filter
            (fun x => !stringsEqualFold u x (stringsTrimSpace u reqBackend)) } ∧
        (∀ j, j ≠ i → c.Routes.get? j = st.cfg.Routes.get? j) ∧
        c.Routes.length = st.cfg.Routes.length ∧ c.LiteEnabled = st.cfg.LiteEnabled ∧
        ((env.validate c).2 = [] →
          ∃ st1, RemoveLiteRouteBackend rt u env reqHost reqBackend st =
              some (Except.ok ((env.validate c).1.map (fun e => e.Error rt)), st1) ∧
            st1.cfg = c)) ∧
      (∀ (b : String) (bs : List String),
        (if (if bs.any (fun x => stringsEqualFold u x b) then bs else bs ++ [b]).any
              (fun x => stringsEqualFold u x b)
          then (if bs.any (fun x => stringsEqualFold u x b) then bs else bs ++ [b])
          else (if bs.any (fun x => stringsEqualFold u x b) then bs else bs ++ [b]) ++ [b]) =
          (if bs.any (fun x => stringsEqualFold u x b) then bs else bs ++ [b])) ∧
      (∀ (b : String) (bs : List String),
        bs.Pairwise (fun x y => stringsEqualFold u x y = false) →
        (if bs.any (fun x => stringsEqualFold u x b) then bs else bs ++ [b]).Pairwise
          (fun x y => stringsEqualFold u x y = false)) ∧
      (∀ (b : String) (bs : List String), bs.any (fun x => stringsEqualFold u x b) = false →
        (bs ++ [b]).filter (fun x => !stringsEqualFold u x b) = bs) := by
  have hi : ¬ ((i : Int) < 0) := by omega
  have hr1 : st.cfg.Routes[i]? = some route := by simpa using hroute
  have hstore : ∀ (c : GateConfig) (s : Shared GateConfig), s.locked = false →
      (env.validate c).2 = [] →
      ∃ st1, applyConfigUpdate rt env c s =
          some (Except.ok ((env.validate c).1.map (fun e => e.Error rt)), st1) ∧
        st1.cfg = c :=
    fun c s hs hv =>
      ⟨{ cfg := c, locked := false,
         steps := s.steps ++ [Step.lock, Step.store c, Step.fire ⟨c, s.cfg⟩ true,
           Step.unlock] },
        applyConfigUpdate_valid rt env c s hv hs, rfl⟩
  refine ⟨?_, ?_, fun b bs => ?_, fun b bs hp => ?_, fun b bs hn => ?_⟩
  · by_cases hex : route.Backend.any
        (fun x => stringsEqualFold u x (stringsTrimSpace u reqBackend)) = true
    · have heq : AddLiteRouteBackend rt u env reqHost reqBackend st =
          applyConfigUpdate rt env st.cfg
            { cfg := st.cfg, locked := false,
              steps := st.steps ++ [Step.lock, Step.unlock] } := by
        simp [AddLiteRouteBackend, hhost, hbackend, copyConfig_free st hfree, hidx, hi, hr1,
          backendExists_eq_any, hex]
      refine ⟨st.cfg, heq, ?_, fun j _ => rfl, rfl, rfl, fun hv => ?_⟩
      · rw [if_pos hex]
        exact hroute
      · rw [heq]
        exact hstore _ _ rfl hv
    · have hex0 : route.Backend.any
          (fun x => stringsEqualFold u x (stringsTrimSpace u reqBackend)) = false := by
        cases h : route.Backend.any
            (fun x => stringsEqualFold u x (stringsTrimSpace u reqBackend)) with
        | true => exact absurd h hex
        | false => rfl
      obtain ⟨f, hf⟩ : ∃ f : Route → Route,
          f = fun r => { r with Backend := r.Backend ++ [stringsTrimSpace u reqBackend] } :=
        ⟨_, rfl⟩
      have heq : AddLiteRouteBackend rt u env reqHost reqBackend st =
          applyConfigUpdate rt env { st.cfg with Routes := updateAt f st.cfg.Routes i }
            { cfg := { st.cfg with Routes := updateAt f st.cfg.Routes i }, locked := false,
              steps := st.steps ++ [Step.lock, Step.unlock] } := by
        simp [AddLiteRouteBackend, hhost, hbackend, copyConfig_free st hfree, hidx, hi, hr1,
          backendExists_eq_any, hex0, assignRoute, hf]
      refine ⟨{ st.cfg with Routes := updateAt f st.cfg.Routes i }, heq, ?_, fun j hj => ?_, ?_,
        rfl, fun hv => ?_⟩
      · rw [updateAt_get?, if_pos rfl, hroute, if_neg hex, hf]
        rfl
      · rw [updateAt_get?, if_neg hj]
      · exact updateAt_length _ _ _
      · rw [heq]
        exact hstore _ _ rfl hv
  · obtain ⟨f, hf⟩ : ∃ f : Route → Route,
        f = fun r => { r with
          Backend := filterBackends u (stringsTrimSpace u reqBackend) r.Backend } :=
      ⟨_, rfl⟩
    have heq : RemoveLiteRouteBackend rt u env reqHost reqBackend st =
        applyConfigUpdate rt env { st.cfg with Routes := updateAt f st.cfg.Routes i }
          { cfg := { st.cfg with Routes := updateAt f st.cfg.Routes i }, locked := false,
            steps := st.steps ++ [Step.lock, Step.unlock] } := by
      simp [RemoveLiteRouteBackend, hhost, hbackend, copyConfig_free st hfree, hidx, hi,
        assignRoute, hf]
    refine ⟨{ st.cfg with Routes := updateAt f st.cfg.Routes i }, heq, ?_, fun j hj => ?_, ?_,
      rfl, fun hv => ?_⟩
    · rw [updateAt_get?, if_pos rfl, hroute, ← filterBackends_eq_filter, hf]
      rfl
    · rw [updateAt_get?, if_neg hj]
    · exact updateAt_length _ _ _
    · rw [heq]
      exact hstore _ _ rfl hv
  · by_cases h : bs.any (fun x => stringsEqualFold u x b) = true
    · simp [h]
    · simp [h, stringsEqualFold_self]
  · by_cases h : bs.any (fun x => stringsEqualFold u x b) = true
    · simpa [h] using hp
    · rw [if_neg h, List.pairwise_append]
      refine ⟨hp, List.pairwise_singleton _ _, fun x hx y hy => ?_⟩
      rw [List.mem_singleton.1 hy]
      cases hxb : stringsEqualFold u x b with
      | false => rfl
      | true =>
          have hany : bs.any (fun x => stringsEqualFold u x b) = true :=
            List.any_eq_true.2 ⟨x, hx, hxb⟩
          exact absurd hany h
  · rw [List.filter_append]
    have h1 : bs.filter (fun x => !stringsEqualFold u x b) = bs := by
      refine List.filter_eq_self.2 fun x hx => ?_
      cases hxb : stringsEqualFold u x b with
      | false => rfl
      | true =>
          have hany : bs.any (fun x => stringsEqualFold u x b) = true :=
            List.any_eq_true.2 ⟨x, hx, hxb⟩
          rw [hn] at hany
          cases hany
    rw [h1]
    simp [stringsEqualFold_self]

/-- C29 on the example routes: a backend in other letters that the first
route already has is not added again. -/
theorem backend_add_and_remove_edit_the_list_witness :
    ∃ c, AddLiteRouteBackend linux ascii routesEnv "mc.example.com" " 10.0.0.2:25565 "
          liteShared =
        applyConfigUpdate linux routesEnv c
          { cfg := c, locked := false,
            steps := liteShared.steps ++ [Step.lock, Step.unlock] } ∧
      c.Routes.get? 0 = some { lobbyRoute with
        Backend :=
          if lobbyRoute.Backend.any
              (fun x => stringsEqualFold ascii x (stringsTrimSpace ascii " 10.0.0.2:25565 "))
          then lobbyRoute.Backend
          else lobbyRoute.Backend ++ [stringsTrimSpace ascii " 10.0.0.2:25565 "] } ∧
      (∀ j, j ≠ 0 → c.Routes.get? j = liteShared.cfg.Routes.get? j) ∧
      c.Routes.length = liteShared.cfg.Routes.length ∧
      c.LiteEnabled = liteShared.cfg.LiteEnabled ∧
      ((routesEnv.validate c).2 = [] →
        ∃ st1, AddLiteRouteBackend linux ascii routesEnv "mc.example.com" " 10.0.0.2:25565 "
              liteShared =
            some (Except.ok ((routesEnv.validate c).1.map (fun e => e.Error linux)), st1) ∧
          st1.cfg = c) :=
  (backend_add_and_remove_edit_the_list linux ascii routesEnv "mc.example.com"
    " 10.0.0.2:25565 " liteShared 0 lobbyRoute rfl (by decide) (by decide) (by decide) rfl).1

/-- The route that the loop over the option paths leaves when every path of
the mask is supported: a field named in the mask has the value of the
request, the others are as they were. -/
theorem optionsLoop_supported (lite : LiteEnv) (opts : LiteRouteOptions) (idx : Nat)
    (paths : List String) (pair : Shared GateConfig × GateConfig)
    (h : ∀ p ∈ paths, p ∈ allOptionPaths) :
    optionsLoop lite opts idx paths pair =
      (none, assignRoute idx
        (fun r => { r with
          ProxyProtocol :=
            if "proxy_protocol" ∈ paths then opts.ProxyProtocol else r.ProxyProtocol,
          TCPShieldRealIP :=
            if "tcp_shield_real_ip" ∈ paths then opts.TcpShieldRealIp else r.TCPShieldRealIP,
          ModifyVirtualHost :=
            if "modify_virtual_host" ∈ paths then opts.ModifyVirtualHost
            else r.ModifyVirtualHost,
          CachePingTTL :=
            if "cache_ping_ttl_ms" ∈ paths then opts.CachePingTtlMs else r.CachePingTTL })
        pair) := by
  induction paths generalizing pair with
  | nil =>
      simp only [optionsLoop, List.not_mem_nil, if_false, assignRoute]
      rw [updateAt_id _ (fun r => rfl), updateAt_id _ (fun r => rfl)]
  | cons p rest ih =>
      have hp := h p (List.mem_cons_self _ _)
      have hrest : ∀ q ∈ rest, q ∈ allOptionPaths :=
        fun q hq => h q (List.mem_cons_of_mem _ hq)
      simp only [allOptionPaths, List.mem_cons, List.mem_singleton, List.not_mem_nil,
        or_false] at hp
      rcases hp with rfl | rfl | rfl | rfl
      · simp only [optionsLoop, if_true]
        rw [ih _ hrest, assignRoute_assignRoute]
        congr 2
        funext r
        by_cases h1 : "proxy_protocol" ∈ rest <;> simp [h1]
      · simp only [optionsLoop, if_true, String.reduceEq, if_false]
        rw [ih _ hrest, assignRoute_assignRoute]
        congr 2
        funext r
        by_cases h1 : "tcp_shield_real_ip" ∈ rest <;> simp [h1]
      · simp only [optionsLoop, if_true, String.reduceEq, if_false]
        rw [ih _ hrest, assignRoute_assignRoute]
        congr 2
        funext r
        by_cases h1 : "modify_virtual_host" ∈ rest <;> simp [h1]
      · simp only [optionsLoop, if_true, String.reduceEq, if_false]
        rw [ih _ hrest, assignRoute_assignRoute]
        congr 2
        funext r
        by_cases h1 : "cache_ping_ttl_ms" ∈ rest <;> simp [h1]

/-- A loop over the option paths that ends without error has met supported
paths only. -/
theorem optionsLoop_none_supported (lite : LiteEnv) (opts : LiteRouteOptions) (idx : Nat)
    (paths : List String) (pair : Shared GateConfig × GateConfig)
    (h : (optionsLoop lite opts idx paths pair).1 = none) :
    ∀ p ∈ paths, p ∈ allOptionPaths := by
  intro p hp
  by_contra hn
  obtain ⟨err, he, _⟩ := optionsLoop_rejects lite opts idx paths pair ⟨p, hp, hn⟩
  rw [h] at he
  cases he

/-- C30. When `UpdateLiteRouteOptions` succeeds, the host has matched a route,
the first with a pattern equal to the trimmed host ignoring case, and in the
shared configuration afterwards that route has, for each of the four option
fields, the value of the request if the field is named in the mask and its
previous value if not, an empty mask counting as the mask of all four; its
hosts, backends, strategy and fallback are as they were, and so is every
other route, the number of routes and the Lite switch. -/
theorem updateOptions_writes_masked_fields (rt : Runtime) (u : Unicode)
    (env : ConfigEnv GateConfig) (lite : LiteEnv) (reqHost : String)
    (opts : LiteRouteOptions) (paths : List String) (st st1 : Shared GateConfig)
    (warns : List String)
    (hok : UpdateLiteRouteOptions rt u env lite reqHost (some opts) paths st =
      some (Except.ok warns, st1)) :
    ∃ (i : Nat) (route : Route),
      findRouteIdxInConfig u st.cfg (stringsTrimSpace u reqHost) = (i : Int) ∧
      st.cfg.Routes.get? i = some route ∧
      (∃ h ∈ route.Host, stringsEqualFold u h (stringsTrimSpace u reqHost) = true) ∧
      st1.cfg.Routes.get? i = some { route with
        ProxyProtocol :=
          if "proxy_protocol" ∈ (if paths.length = 0 then allOptionPaths else paths)
          then opts.ProxyProtocol else route.ProxyProtocol,
        TCPShieldRealIP :=
          if "tcp_shield_real_ip" ∈ (if paths.length = 0 then allOptionPaths else paths)
          then opts.TcpShieldRealIp else route.TCPShieldRealIP,
        ModifyVirtualHost :=
          if "modify_virtual_host" ∈ (if paths.length = 0 then allOptionPaths else paths)
          then opts.ModifyVirtualHost else route.ModifyVirtualHost,
        CachePingTTL :=
          if "cache_ping_ttl_ms" ∈ (if paths.length = 0 then allOptionPaths else paths)
          then opts.CachePingTtlMs else route.CachePingTTL } ∧
      (∀ j, j ≠ i → st1.cfg.Routes.get? j = st.cfg.Routes.get? j) ∧
      st1.cfg.Routes.length = st.cfg.Routes.length ∧
      st1.cfg.LiteEnabled = st.cfg.LiteEnabled ∧
      (∀ p ∈ paths, p ∈ allOptionPaths) := by
  cases hl : st.locked with
  | true =>
      rw [UpdateLiteRouteOptions] at hok
      simp only [copyConfig_held st hl] at hok
      split at hok <;> cases hok
  | false =>
      rw [UpdateLiteRouteOptions] at hok
      simp only [copyConfig_free st hl] at hok
      by_cases hhost : stringsTrimSpace u reqHost = ""
      · simp [hhost] at hok
      · simp only [if_neg hhost] at hok
        by_cases hneg : findRouteIdxInConfig u st.cfg (stringsTrimSpace u reqHost) < 0
        · simp [hneg] at hok
        · simp only [if_neg hneg] at hok
          obtain ⟨i, route, hidx, hroute, hmatch, _⟩ :=
            findRouteIdxInConfig_found u st.cfg (stringsTrimSpace u reqHost) hneg
          rw [hidx] at hok
          simp only [Int.toNat_ofNat] at hok
          cases hloop : optionsLoop lite opts i
              (if paths.length = 0 then allOptionPaths else paths)
              ({ cfg := st.cfg, locked := false,
                 steps := st.steps ++ [Step.lock, Step.unlock] }, st.cfg) with
          | mk lerr edited =>
          rw [hloop] at hok
          cases lerr with
          | some err => simp at hok
          | none =>
              simp only at hok
              have hsup := optionsLoop_none_supported lite opts i _ _
                (by rw [hloop])
              rw [optionsLoop_supported lite opts i _ _ hsup] at hloop
              have hed : edited = _ := (Prod.mk.inj hloop).2.symm
              rw [hed] at hok
              have hcfg := applyConfigUpdate_ok rt env _ _ _ _ hok
              simp only [assignRoute] at hcfg
              refine ⟨i, route, hidx, hroute, (hostMatchesInConfig_iff u _ _).1 hmatch, ?_,
                fun j hj => ?_, ?_, ?_, fun p hp => ?_⟩
              · rw [hcfg]
                simp only [updateAt_get?, if_true, hroute, Option.map_some']
              · rw [hcfg]
                simp only [updateAt_get?, if_neg hj]
              · rw [hcfg]
                exact updateAt_length _ _ _
              · rw [hcfg]
              · by_cases hp0 : paths.length = 0
                · rw [List.length_eq_zero.1 hp0] at hp
                  cases hp
                · rw [if_neg hp0] at hsup
                  exact hsup p hp

/-- C30 on the example routes, with a mask that names two of the four
fields. -/
theorem updateOptions_writes_masked_fields_witness :
    ∃ (i : Nat) (route : Route),
      findRouteIdxInConfig ascii liteShared.cfg (stringsTrimSpace ascii "build.example.com") =
        (i : Int) ∧
      liteShared.cfg.Routes.get? i = some route ∧
      (∃ h ∈ route.Host,
        stringsEqualFold ascii h (stringsTrimSpace ascii "build.example.com") = true) ∧
      ({ cfg := { liteConfig with
                  Routes := [lobbyRoute, { buildRoute with
                    ProxyProtocol := true, CachePingTTL := 250 }] },
         locked := false,
         steps := [Step.lock, Step.unlock, Step.lock,
           Step.store { liteConfig with
             Routes := [lobbyRoute, { buildRoute with
               ProxyProtocol := true, CachePingTTL := 250 }] },
           Step.fire
             ⟨{ liteConfig with
                Routes := [lobbyRoute, { buildRoute with
                  ProxyProtocol := true, CachePingTTL := 250 }] },
              { liteConfig with
                Routes := [lobbyRoute, { buildRoute with
                  ProxyProtocol := true, CachePingTTL := 250 }] }⟩ true,
           Step.unlock] } : Shared GateConfig).cfg.Routes.get? i =
        some { route with
          ProxyProtocol :=
            if "proxy_protocol" ∈
                (if ["cache_ping_ttl_ms", "proxy_protocol"].length = 0 then allOptionPaths
                  else ["cache_ping_ttl_ms", "proxy_protocol"])
            then (⟨true, true, true, 250⟩ : LiteRouteOptions).ProxyProtocol
            else route.ProxyProtocol,
          TCPShieldRealIP :=
            if "tcp_shield_real_ip" ∈
                (if ["cache_ping_ttl_ms", "proxy_protocol"].length = 0 then allOptionPaths
                  else ["cache_ping_ttl_ms", "proxy_protocol"])
            then (⟨true, true, true, 250⟩ : LiteRouteOptions).TcpShieldRealIp
            else route.TCPShieldRealIP,
          ModifyVirtualHost :=
            if "modify_virtual_host" ∈
                (if ["cache_ping_ttl_ms", "proxy_protocol"].length = 0 then allOptionPaths
                  else ["cache_ping_ttl_ms", "proxy_protocol"])
            then (⟨true, true, true, 250⟩ : LiteRouteOptions).ModifyVirtualHost
            else route.ModifyVirtualHost,
          CachePingTTL :=
            if "cache_ping_ttl_ms" ∈
                (if ["cache_ping_ttl_ms", "proxy_protocol"].length = 0 then allOptionPaths
                  else ["cache_ping_ttl_ms", "proxy_protocol"])
            then (⟨true, true, true, 250⟩ : LiteRouteOptions).CachePingTtlMs
            else route.CachePingTTL } :=
  let ⟨i, route, h1, h2, h3, h4, _⟩ :=
    updateOptions_writes_masked_fields linux ascii routesEnv liteEnv "build.example.com"
      ⟨true, true, true, 250⟩ ["cache_ping_ttl_ms", "proxy_protocol"] liteShared _ []
      (by decide)
  ⟨i, route, h1, h2, h3, h4⟩

/-! ## Event stream: lemmas -/

/-- The filter map of a request: a number is a key when the request lists it,
or, for a request that lists none, when it lies between the numbers of
`PLAYER_CONNECT` and `SHUTDOWN`. -/
theorem lookupEventType_eventTypesOf (E : EventTypeEnum) (requested : List Int) (n : Int) :
    lookupEventType (eventTypesOf E requested) n = true ↔
      (requested ≠ [] ∧ n ∈ requested) ∨
        (requested = [] ∧ E.number EventKind.PLAYER_CONNECT ≤ n ∧
          n ≤ E.number EventKind.SHUTDOWN) := by
  cases requested with
  | cons a rest => simp [lookupEventType, eventTypesOf]
  | nil =>
      simp only [lookupEventType, eventTypesOf, List.length_nil, gt_iff_lt, lt_self_iff_false,
        if_false, decide_eq_true_eq, ne_eq, not_true_eq_false, false_and, false_or, true_and]
      rw [List.mem_map]
      constructor
      · rintro ⟨i, hi, rfl⟩
        have h := Int.lt_toNat.1 (List.mem_range.1 hi)
        constructor <;> omega
      · rintro ⟨h1, h2⟩
        refine ⟨(n - E.number EventKind.PLAYER_CONNECT).toNat, List.mem_range.2 ?_, ?_⟩
        · rw [Int.lt_toNat, Int.toNat_of_nonneg (by omega)]
          omega
        · rw [Int.toNat_of_nonneg (by omega)]
          omega

/-- Membership in a list to which an element is appended on a condition. -/
theorem mem_ite_append (c : Prop) [Decidable c] (l : List EventKind) (a k : EventKind) :
    k ∈ (if c then l ++ [a] else l) ↔ k ∈ l ∨ (c ∧ k = a) := by
  by_cases h : c <;> simp [h]

/-- The listeners that `subscribeToEvents` registers: those of the kinds whose
number is a key of the filter map and whose category flag is on. -/
theorem mem_subscribeToEvents (E : EventTypeEnum) (eventTypes : List Int)
    (includePlayer includeSystem : Bool) (k : EventKind) :
    k ∈ subscribeToEvents E eventTypes includePlayer includeSystem ↔
      lookupEventType eventTypes (E.number k) = true ∧
        (if k.isPlayer then includePlayer else includeSystem) = true := by
  simp only [subscribeToEvents, mem_ite_append, List.nil_append, List.not_mem_nil, false_or,
    Bool.and_eq_true]
  cases k <;> simp [EventKind.isPlayer] <;> tauto

/-- An offer keeps the capacity and never overfills the buffer. -/
theorem offer_bounded (ch : Chan) (e : ProxyEvent) (h : ch.buf.length ≤ ch.cap) :
    (ch.offer e).cap = ch.cap ∧ (ch.offer e).buf.length ≤ ch.cap := by
  unfold Chan.offer
  split
  · simp only [List.length_append, List.length_singleton, true_and]
    omega
  · exact ⟨rfl, h⟩

/-- What a run of a channel keeps true: the capacity, the bound on the buffer,
and that the events sent and the events held, in this order, are the events
that were sent and held before followed by events offered in the run, in the
order of the offers. -/
theorem runChan_invariant (ops : List ChanOp) (ch : Chan) (sent : List ProxyEvent)
    (h : ch.buf.length ≤ ch.cap) :
    (runChan ops (ch, sent)).1.cap = ch.cap ∧
      (runChan ops (ch, sent)).1.buf.length ≤ ch.cap ∧
      ∃ acc, acc.Sublist (offered ops) ∧
        (runChan ops (ch, sent)).2 ++ (runChan ops (ch, sent)).1.buf =
          sent ++ ch.buf ++ acc := by
  induction ops generalizing ch sent with
  | nil => exact ⟨rfl, h, [], List.Sublist.refl _, by simp [runChan]⟩
  | cons op rest ih =>
      cases op with
      | offer e =>
          obtain ⟨hc, hb⟩ := offer_bounded ch e h
          obtain ⟨h1, h2, acc, h3, h4⟩ := ih (ch.offer e) sent (by rw [hc]; exact hb)
          simp only [runChan, offered]
          rw [hc] at h1 h2
          refine ⟨h1, h2, ?_⟩
          by_cases hroom : ch.buf.length < ch.cap
          · refine ⟨e :: acc, h3.cons₂ e, ?_⟩
            rw [h4]
            simp [Chan.offer, hroom]
          · refine ⟨acc, h3.cons e, ?_⟩
            rw [h4]
            simp [Chan.offer, hroom]
      | send =>
          cases hbuf : ch.buf with
          | nil =>
              obtain ⟨h1, h2, acc, h3, h4⟩ := ih ch sent h
              simp only [runChan, Chan.recv, hbuf, offered]
              rw [hbuf] at h4
              exact ⟨h1, h2, acc, h3, h4⟩
          | cons e tail =>
              have hlen : tail.length ≤ ch.cap := by
                rw [hbuf] at h
                simp only [List.length_cons] at h
                omega
              obtain ⟨h1, h2, acc, h3, h4⟩ :=
                ih { ch with buf := tail } (sent ++ [e]) hlen
              simp only [runChan, Chan.recv, hbuf, offered]
              refine ⟨h1, h2, acc, h3, ?_⟩
              rw [h4]
              simp

/-- The message that a listener builds depends on the event and on the
configuration only, and on a free mutex the listener gets to its offer and
leaves the mutex free. -/
theorem listener_free {Cfg : Type} (E : EventTypeEnum) (env : ConfigEnv Cfg)
    (marshalJSON : String → Except GoError String) (now : Int) (ev : ProxyFired Cfg)
    (cfg : Cfg) :
    ∃ e : ProxyEvent, ∀ (st : Shared Cfg) (ch : Chan), st.locked = false → st.cfg = cfg →
      ∃ st1, listener E env marshalJSON now ev st ch = some (st1, ch.offer e) ∧
        st1.cfg = cfg ∧ st1.locked = false := by
  cases ev with
  | ConfigUpdateEvent e =>
      exact ⟨⟨E.number EventKind.CONFIG_UPDATE, now,
          EventData.ConfigUpdate
            { ConfigSource := "api", LiteModeEnabled := env.liteEnabled e.Config,
              RouteCount := toInt32 (env.routeCount e.Config) }⟩,
        fun st ch hf hc => ⟨{ st with locked := false,
                                      steps := st.steps ++ [Step.lock, Step.unlock] },
          by simp [listener, onConfigUpdate, Shared.Lock, hf, Shared.Unlock], hc, rfl⟩⟩
  | PostLoginEvent player =>
      exact ⟨_, fun st ch hf hc => ⟨st, rfl, hc, hf⟩⟩
  | DisconnectEvent player status =>
      exact ⟨_, fun st ch hf hc => ⟨st, rfl, hc, hf⟩⟩
  | ServerConnectedEvent player previousServer server =>
      exact ⟨_, fun st ch hf hc => ⟨st, rfl, hc, hf⟩⟩
  | ReadyEvent addr =>
      exact ⟨⟨E.number EventKind.READY, now, EventData.Ready addr (env.liteEnabled cfg)⟩,
        fun st ch hf hc => ⟨{ st with locked := false,
                                      steps := st.steps ++ [Step.lock, Step.unlock] },
          by simp [listener, Shared.Lock, hf, Shared.Unlock, hc], hc, rfl⟩⟩
  | PreShutdownEvent reason =>
      exact ⟨_, fun st ch hf hc => ⟨st, rfl, hc, hf⟩⟩

/-- The listeners of the player events and of the shutdown take no lock: they
get to their offer whatever the state of the mutex. -/
theorem listener_lock_free {Cfg : Type} (E : EventTypeEnum) (env : ConfigEnv Cfg)
    (marshalJSON : String → Except GoError String) (now : Int) (ev : ProxyFired Cfg)
    (h1 : ev.kind ≠ EventKind.CONFIG_UPDATE) (h2 : ev.kind ≠ EventKind.READY) :
    ∃ e : ProxyEvent, ∀ (st : Shared Cfg) (ch : Chan),
      listener E env marshalJSON now ev st ch = some (st, ch.offer e) := by
  cases ev with
  | ConfigUpdateEvent e => exact absurd rfl h1
  | PostLoginEvent player => exact ⟨_, fun st ch => rfl⟩
  | DisconnectEvent player status => exact ⟨_, fun st ch => rfl⟩
  | ServerConnectedEvent player previousServer server => exact ⟨_, fun st ch => rfl⟩
  | ReadyEvent addr => exact absurd rfl h2
  | PreShutdownEvent reason => exact ⟨_, fun st ch => rfl⟩

/-- The listeners of the configuration update and of the ready event wait
while the mutex is held. -/
theorem listener_waits {Cfg : Type} (E : EventTypeEnum) (env : ConfigEnv Cfg)
    (marshalJSON : String → Except GoError String) (now : Int) (ev : ProxyFired Cfg)
    (h : ev.kind = EventKind.CONFIG_UPDATE ∨ ev.kind = EventKind.READY)
    (st : Shared Cfg) (ch : Chan) (hheld : st.locked = true) :
    listener E env marshalJSON now ev st ch = none := by
  cases ev with
  | ConfigUpdateEvent e => simp [listener, onConfigUpdate, Shared.Lock, hheld]
  | ReadyEvent addr => simp [listener, Shared.Lock, hheld]
  | PostLoginEvent player => simp [ProxyFired.kind] at h
  | DisconnectEvent player status => simp [ProxyFired.kind] at h
  | ServerConnectedEvent player previousServer server => simp [ProxyFired.kind] at h
  | PreShutdownEvent reason => simp [ProxyFired.kind] at h

/-- An event fired on a free mutex reaches every subscriber that listens for
it with the same message, offered to the channel of that subscriber alone. -/
theorem fireAll_free {Cfg : Type} (E : EventTypeEnum) (env : ConfigEnv Cfg)
    (marshalJSON : String → Except GoError String) (now : Int) (ev : ProxyFired Cfg)
    (cfg : Cfg) :
    ∃ e : ProxyEvent, ∀ (subs : List Subscriber) (st : Shared Cfg),
      st.locked = false → st.cfg = cfg →
      ∃ st1, fireAll E env marshalJSON now ev st subs =
          some (st1, subs.map (fun sub =>
            if ev.kind ∈ sub.subscriptions then
              { sub with eventChan := sub.eventChan.offer e }
            else sub)) ∧
        st1.cfg = cfg ∧ st1.locked = false := by
  obtain ⟨e, he⟩ := listener_free E env marshalJSON now ev cfg
  refine ⟨e, fun subs => ?_⟩
  induction subs with
  | nil => exact fun st hf hc => ⟨st, rfl, hc, hf⟩
  | cons sub rest ih =>
      intro st hf hc
      by_cases hk : ev.kind ∈ sub.subscriptions
      · obtain ⟨s1, hs1, hc1, hf1⟩ := he st sub.eventChan hf hc
        obtain ⟨s2, hs2, hc2, hf2⟩ := ih s1 hf1 hc1
        exact ⟨s2, by simp [fireAll, Subscriber.deliver, hk, hs1, hs2], hc2, hf2⟩
      · obtain ⟨s2, hs2, hc2, hf2⟩ := ih st hf hc
        exact ⟨s2, by simp [fireAll, Subscriber.deliver, hk, hs2], hc2, hf2⟩

/-- Six registrations on six conditions, in the order of `subscribeToEvents`,
register no kind twice. -/
theorem registrations_nodup (c1 c2 c3 c4 c5 c6 : Bool) :
    (let u0 : List EventKind := []
     let u1 := if c1 then u0 ++ [EventKind.CONFIG_UPDATE] else u0
     let u2 := if c2 then u1 ++ [EventKind.PLAYER_CONNECT] else u1
     let u3 := if c3 then u2 ++ [EventKind.PLAYER_DISCONNECT] else u2
     let u4 := if c4 then u3 ++ [EventKind.PLAYER_SERVER_SWITCH] else u3
     let u5 := if c5 then u4 ++ [EventKind.READY] else u4
     let u6 := if c6 then u5 ++ [EventKind.SHUTDOWN] else u5
     u6).Nodup := by
  cases c1 <;> cases c2 <;> cases c3 <;> cases c4 <;> cases c5 <;> cases c6 <;> decide

/-- The method `subscribeToEvents` registers no listener twice. -/
theorem subscribeToEvents_nodup (E : EventTypeEnum) (eventTypes : List Int)
    (includePlayer includeSystem : Bool) :
    (subscribeToEvents E eventTypes includePlayer includeSystem).Nodup :=
  registrations_nodup
    (includeSystem && lookupEventType eventTypes (E.number EventKind.CONFIG_UPDATE))
    (includePlayer && lookupEventType eventTypes (E.number EventKind.PLAYER_CONNECT))
    (includePlayer && lookupEventType eventTypes (E.number EventKind.PLAYER_DISCONNECT))
    (includePlayer && lookupEventType eventTypes (E.number EventKind.PLAYER_SERVER_SWITCH))
    (includeSystem && lookupEventType eventTypes (E.number EventKind.READY))
    (includeSystem && lookupEventType eventTypes (E.number EventKind.SHUTDOWN))

/-! ## Event stream: properties -/

/-- C25. For every numbering of the kinds in which all six lie between
`PLAYER_CONNECT` and `SHUTDOWN`: `StreamEvents` registers the listener of a
kind if and only if the request lists the kind, or lists none at all, and
the flag of the category of the kind is on, a request with both flags off
counting as one with both on. So with include-player off and include-system
on only the listeners of config-update, ready and shutdown are registered,
and a player-connect event leaves the channel of the subscriber as it is.
No listener is registered twice. -/
theorem streamEvents_registers_requested_kinds (E : EventTypeEnum) (hspan : E.Spans)
    (reqEventTypes : List Int) (includePlayer includeSystem : Bool) (k : EventKind) :
    (k ∈ (StreamEvents E reqEventTypes includePlayer includeSystem).subscriptions ↔
        (reqEventTypes = [] ∨ E.number k ∈ reqEventTypes) ∧
          (if k.isPlayer then (includePlayer || (!includePlayer && !includeSystem))
            else (includeSystem || (!includePlayer && !includeSystem))) = true) ∧
      (k ∈ (StreamEvents E reqEventTypes false true).subscriptions →
        k = EventKind.CONFIG_UPDATE ∨ k = EventKind.READY ∨ k = EventKind.SHUTDOWN) ∧
      (∀ (env : ConfigEnv GateConfig) (marshalJSON : String → Except GoError String)
          (now : Int) (player : PlayerInfo) (st : Shared GateConfig),
        (StreamEvents E reqEventTypes false true).deliver E env marshalJSON now
            (ProxyFired.PostLoginEvent player) st =
          some (st, StreamEvents E reqEventTypes false true)) ∧
      (StreamEvents E reqEventTypes includePlayer includeSystem).subscriptions.Nodup ∧
      (StreamEvents E reqEventTypes includePlayer includeSystem).eventChan = makeEventChan := by
  have hk : E.number EventKind.PLAYER_CONNECT ≤ E.number k ∧
      E.number k ≤ E.number EventKind.SHUTDOWN :=
    hspan k (by cases k <;> simp [EventKind.all])
  have hmem : ∀ (p s : Bool),
      k ∈ (StreamEvents E reqEventTypes p s).subscriptions ↔
        (reqEventTypes = [] ∨ E.number k ∈ reqEventTypes) ∧
          (if k.isPlayer then (p || (!p && !s)) else (s || (!p && !s))) = true := by
    intro p s
    simp only [StreamEvents, streamSubscriptions, mem_subscribeToEvents,
      lookupEventType_eventTypesOf]
    have hreq : ((reqEventTypes ≠ [] ∧ E.number k ∈ reqEventTypes) ∨
        (reqEventTypes = [] ∧ E.number EventKind.PLAYER_CONNECT ≤ E.number k ∧
          E.number k ≤ E.number EventKind.SHUTDOWN)) ↔
        (reqEventTypes = [] ∨ E.number k ∈ reqEventTypes) := by
      constructor
      · rintro (⟨_, h⟩ | ⟨h, _⟩)
        · exact Or.inr h
        · exact Or.inl h
      · rintro (h | h)
        · exact Or.inr ⟨h, hk⟩
        · exact Or.inl ⟨fun hn => (by simp [hn] at h), h⟩
    rw [hreq]
    cases p <;> cases s <;> simp
  have hsys : k ∈ (StreamEvents E reqEventTypes false true).subscriptions →
      k = EventKind.CONFIG_UPDATE ∨ k = EventKind.READY ∨ k = EventKind.SHUTDOWN := by
    intro h
    have h2 := ((hmem false true).1 h).2
    cases k <;> simp [EventKind.isPlayer] at h2 ⊢
  refine ⟨hmem includePlayer includeSystem, hsys, fun env marshalJSON now player st => ?_, ?_,
    rfl⟩
  · have hnot : EventKind.PLAYER_CONNECT ∉
        (StreamEvents E reqEventTypes false true).subscriptions := by
      intro h
      have h2 := ((mem_subscribeToEvents E _ _ _ _).1 h).2
      simp [EventKind.isPlayer] at h2
    simp only [Subscriber.deliver, ProxyFired.kind, if_neg hnot]
  · exact subscribeToEvents_nodup E _ _ _

/-- C25 on the numbering from 1: a request for the kinds 1 and 4 with both
flags off registers the listeners of player-connect and config-update. -/
theorem streamEvents_registers_requested_kinds_witness :
    EventKind.CONFIG_UPDATE ∈ (StreamEvents protoEnum [1, 4] false false).subscriptions ↔
      (([1, 4] : List Int) = [] ∨ protoEnum.number EventKind.CONFIG_UPDATE ∈ ([1, 4] : List Int)) ∧
        (if EventKind.CONFIG_UPDATE.isPlayer then (false || (!false && !false))
          else (false || (!false && !false))) = true :=
  (streamEvents_registers_requested_kinds protoEnum (by decide) [1, 4] false false
    EventKind.CONFIG_UPDATE).1

/-- C26, as stated, fails for two of the six listeners. The listeners of the
ready event and of the configuration update take the configuration mutex
before they build their message: run while the mutex is held they wait,
although the channel of the subscriber is empty. -/
theorem locking_listener_waits_on_empty_channel :
    listener protoEnum routesEnv quoteJSON 17 (ProxyFired.ReadyEvent ":25565")
        { liteShared with locked := true } makeEventChan = none ∧
      listener protoEnum routesEnv quoteJSON 17
        (ProxyFired.ConfigUpdateEvent ⟨liteConfig, liteConfig⟩)
        { liteShared with locked := true } makeEventChan = none ∧
      makeEventChan.buf.length < makeEventChan.cap := by
  decide

/-- C26, amended. The channel of a subscriber has capacity 100. An offer to a
channel with room appends the event at the tail, an offer to a full channel
changes nothing, and an offer always returns. Over every schedule of offers
and sends the channel never holds more than 100 events, and the events sent
to the client followed by the events still held are events that were offered,
in the order of the offers. An event fired on a free mutex is offered to the
channel of each subscriber that listens for it and changes no other
channel. The listeners of player-connect, player-disconnect,
player-server-switch and shutdown get to their offer whatever the state of
the mutex; the listeners of config-update and ready wait while the mutex is
held. -/
theorem offer_is_bounded_and_fifo :
    makeEventChan.cap = 100 ∧ makeEventChan.buf = [] ∧
      (∀ (ch : Chan) (e : ProxyEvent), ch.buf.length < ch.cap →
        ch.offer e = { ch with buf := ch.buf ++ [e] }) ∧
      (∀ (ch : Chan) (e : ProxyEvent), ch.cap ≤ ch.buf.length → ch.offer e = ch) ∧
      (∀ (ops : List ChanOp),
        (runChan ops (makeEventChan, [])).1.buf.length ≤ 100 ∧
          ((runChan ops (makeEventChan, [])).2 ++
            (runChan ops (makeEventChan, [])).1.buf).Sublist (offered ops)) ∧
      (∀ (env : ConfigEnv GateConfig) (E : EventTypeEnum)
          (marshalJSON : String → Except GoError String) (now : Int)
          (ev : ProxyFired GateConfig) (cfg : GateConfig),
        ∃ e : ProxyEvent, ∀ (subs : List Subscriber) (st : Shared GateConfig),
          st.locked = false → st.cfg = cfg →
          ∃ st1, fireAll E env marshalJSON now ev st subs =
              some (st1, subs.map (fun sub =>
                if ev.kind ∈ sub.subscriptions then
                  { sub with eventChan := sub.eventChan.offer e }
                else sub)) ∧
            st1.cfg = cfg ∧ st1.locked = false) ∧
      (∀ (env : ConfigEnv GateConfig) (E : EventTypeEnum)
          (marshalJSON : String → Except GoError String) (now : Int)
          (ev : ProxyFired GateConfig),
        ev.kind ≠ EventKind.CONFIG_UPDATE → ev.kind ≠ EventKind.READY →
        ∃ e : ProxyEvent, ∀ (st : Shared GateConfig) (ch : Chan),
          listener E env marshalJSON now ev st ch = some (st, ch.offer e)) ∧
      (∀ (env : ConfigEnv GateConfig) (E : EventTypeEnum)
          (marshalJSON : String → Except GoError String) (now : Int)
          (ev : ProxyFired GateConfig),
        ev.kind = EventKind.CONFIG_UPDATE ∨ ev.kind = EventKind.READY →
        ∀ (st : Shared GateConfig) (ch : Chan), st.locked = true →
          listener E env marshalJSON now ev st ch = none) := by
  refine ⟨rfl, rfl, fun ch e h => by simp [Chan.offer, h],
    fun ch e h => by simp [Chan.offer, Nat.not_lt.2 h], fun ops => ?_,
    fun env E marshalJSON now ev cfg => fireAll_free E env marshalJSON now ev cfg,
    fun env E marshalJSON now ev h1 h2 => listener_lock_free E env marshalJSON now ev h1 h2,
    fun env E marshalJSON now ev h st ch hh => listener_waits E env marshalJSON now ev h st ch hh⟩
  obtain ⟨_, h2, acc, h3, h4⟩ := runChan_invariant ops makeEventChan [] (by decide)
  refine ⟨h2, ?_⟩
  rw [h4]
  simpa [makeEventChan] using h3

/-! ## Lite routes: what a mutation leaves behind -/

/-- The copy that opens a mutation, when it returns: the mutex was free, the
copy is the shared configuration, and the steps are a lock and an unlock. -/
theorem copyConfig_some (st s1 : Shared GateConfig) (c : GateConfig)
    (h : copyConfig st = some (c, s1)) :
    c = st.cfg ∧ s1.cfg = st.cfg ∧ s1.locked = false ∧
      s1.steps = st.steps ++ [Step.lock, Step.unlock] := by
  cases hl : st.locked with
  | true =>
      rw [copyConfig_held st hl] at h
      cases h
  | false =>
      rw [copyConfig_free st hl] at h
      simp only [Option.some.injEq, Prod.mk.injEq] at h
      obtain ⟨h1, h2⟩ := h
      subst h1
      subst h2
      exact ⟨rfl, rfl, rfl, rfl⟩

/-- An assignment to a route keeps the copy equal to the shared
configuration, and touches neither the mutex nor the steps. -/
theorem assignRoute_aliased (idx : Nat) (f : Route → Route)
    (pair : Shared GateConfig × GateConfig) (h : pair.1.cfg = pair.2) :
    (assignRoute idx f pair).1.cfg = (assignRoute idx f pair).2 ∧
      (assignRoute idx f pair).1.locked = pair.1.locked ∧
      (assignRoute idx f pair).1.steps = pair.1.steps := by
  simp [assignRoute, h]

/-- The loop over the option paths keeps the copy equal to the shared
configuration, and touches neither the mutex nor the steps. -/
theorem optionsLoop_aliased (lite : LiteEnv) (opts : LiteRouteOptions) (idx : Nat)
    (paths : List String) (pair : Shared GateConfig × GateConfig) (h : pair.1.cfg = pair.2) :
    (optionsLoop lite opts idx paths pair).2.1.cfg = (optionsLoop lite opts idx paths pair).2.2 ∧
      (optionsLoop lite opts idx paths pair).2.1.locked = pair.1.locked ∧
      (optionsLoop lite opts idx paths pair).2.1.steps = pair.1.steps := by
  induction paths generalizing pair with
  | nil => exact ⟨h, rfl, rfl⟩
  | cons p rest ih =>
      unfold optionsLoop
      split
      · obtain ⟨a1, a2, a3⟩ := assignRoute_aliased idx
          (fun r => { r with ProxyProtocol := opts.ProxyProtocol }) pair h
        obtain ⟨b1, b2, b3⟩ := ih _ a1
        exact ⟨b1, b2.trans a2, b3.trans a3⟩
      · split
        · obtain ⟨a1, a2, a3⟩ := assignRoute_aliased idx
            (fun r => { r with TCPShieldRealIP := opts.TcpShieldRealIp }) pair h
          obtain ⟨b1, b2, b3⟩ := ih _ a1
          exact ⟨b1, b2.trans a2, b3.trans a3⟩
        · split
          · obtain ⟨a1, a2, a3⟩ := assignRoute_aliased idx
              (fun r => { r with ModifyVirtualHost := opts.ModifyVirtualHost }) pair h
            obtain ⟨b1, b2, b3⟩ := ih _ a1
            exact ⟨b1, b2.trans a2, b3.trans a3⟩
          · split
            · obtain ⟨a1, a2, a3⟩ := assignRoute_aliased idx
                (fun r => { r with CachePingTTL := opts.CachePingTtlMs }) pair h
              obtain ⟨b1, b2, b3⟩ := ih _ a1
              exact ⟨b1, b2.trans a2, b3.trans a3⟩
            · exact ⟨h, rfl, rfl⟩

/-- The loop over the fallback paths keeps the copy equal to the shared
configuration, and touches neither the mutex nor the steps. -/
theorem fallbackLoop_aliased (rt : Runtime) (u : Unicode) (lite : LiteEnv)
    (reqFallback : Option LiteRouteFallback) (idx : Nat)
    (paths : List String) (pair : Shared GateConfig × GateConfig) (h : pair.1.cfg = pair.2) :
    (fallbackLoop rt u lite reqFallback idx paths pair).2.1.cfg =
        (fallbackLoop rt u lite reqFallback idx paths pair).2.2 ∧
      (fallbackLoop rt u lite reqFallback idx paths pair).2.1.locked = pair.1.locked ∧
      (fallbackLoop rt u lite reqFallback idx paths pair).2.1.steps = pair.1.steps := by
  have step : ∀ (f : Status → Status) (rest : List String),
      (∀ pair : Shared GateConfig × GateConfig, pair.1.cfg = pair.2 →
        (fallbackLoop rt u lite reqFallback idx rest pair).2.1.cfg =
            (fallbackLoop rt u lite reqFallback idx rest pair).2.2 ∧
          (fallbackLoop rt u lite reqFallback idx rest pair).2.1.locked = pair.1.locked ∧
          (fallbackLoop rt u lite reqFallback idx rest pair).2.1.steps = pair.1.steps) →
      ∀ pair : Shared GateConfig × GateConfig, pair.1.cfg = pair.2 →
        (fallbackLoop rt u lite reqFallback idx rest (assignFallback idx f pair)).2.1.cfg =
            (fallbackLoop rt u lite reqFallback idx rest (assignFallback idx f pair)).2.2 ∧
          (fallbackLoop rt u lite reqFallback idx rest
            (assignFallback idx f pair)).2.1.locked = pair.1.locked ∧
          (fallbackLoop rt u lite reqFallback idx rest
            (assignFallback idx f pair)).2.1.steps = pair.1.steps := by
    intro f rest ih pair h
    obtain ⟨a1, a2, a3⟩ := assignRoute_aliased idx
      (fun r => { r with Fallback := r.Fallback.map f }) pair h
    obtain ⟨b1, b2, b3⟩ := ih (assignFallback idx f pair) a1
    exact ⟨b1, b2.trans a2, b3.trans a3⟩
  induction paths generalizing pair with
  | nil => exact ⟨h, rfl, rfl⟩
  | cons p rest ih =>
      unfold fallbackLoop
      split
      · split
        · exact step _ rest ih pair h
        · split
          · exact step _ rest ih pair h
          · split
            · exact ⟨h, rfl, rfl⟩
            · exact step _ rest ih pair h
      · split
        · split
          · exact step _ rest ih pair h
          · exact step _ rest ih pair h
        · split
          · split
            · exact step _ rest ih pair h
            · exact step _ rest ih pair h
          · split
            · split
              · exact step _ rest ih pair h
              · split
                · exact step _ rest ih pair h
                · exact step _ rest ih pair h
            · exact ⟨h, rfl, rfl⟩

/-- What `applyConfigUpdate` leaves behind when the configuration it is
given is already the shared one: on an error no event, on success one event
whose previous value is the new configuration itself. -/
theorem applyConfigUpdate_aliased (rt : Runtime) (env : ConfigEnv GateConfig)
    (c : GateConfig) (s s1 : Shared GateConfig)
    (r : Except ConnectError (List String))
    (halias : s.cfg = c) (h : applyConfigUpdate rt env c s = some (r, s1)) :
    (∃ e, r = Except.error e ∧ s1 = s) ∨
      (∃ w, r = Except.ok w ∧ s1.cfg = c ∧
        firedEvents s1.steps = firedEvents s.steps ++ [⟨c, c⟩]) := by
  cases r with
  | error e => exact Or.inl ⟨e, rfl, applyConfigUpdate_error rt env c s s1 e h⟩
  | ok w =>
      refine Or.inr ⟨w, rfl, applyConfigUpdate_ok rt env c s s1 w h, ?_⟩
      unfold applyConfigUpdate at h
      simp only at h
      split at h
      · cases h
      · cases hl : s.locked with
        | true => simp [swapAndFire, Shared.Lock, hl] at h
        | false =>
            rw [swapAndFire_free s c hl] at h
            simp only [Option.some.injEq, Prod.mk.injEq, Except.ok.injEq] at h
            rw [← h.2, halias]
            simp [firedEvents_append, firedEvents]

/-- The way in which a mutation ends once it has copied the configuration
and edited it in place. -/
theorem mutation_outcome (rt : Runtime) (env : ConfigEnv GateConfig)
    (st s1 : Shared GateConfig) (pair : Shared GateConfig × GateConfig)
    (r : Except ConnectError (List String))
    (halias : pair.1.cfg = pair.2)
    (hsteps : pair.1.steps = st.steps ++ [Step.lock, Step.unlock])
    (h : applyConfigUpdate rt env pair.2 pair.1 = some (r, s1)) :
    EndsInPlace st r s1 := by
  rcases applyConfigUpdate_aliased rt env pair.2 pair.1 s1 r halias h with
    ⟨e, he, hs⟩ | ⟨w, hw, hc, hf⟩
  · refine Or.inl ⟨e, he, ?_⟩
    rw [hs, hsteps]
    simp [firedEvents_append, firedEvents]
  · refine Or.inr ⟨w, hw, ?_⟩
    rw [hf, hsteps, hc]
    simp [firedEvents_append, firedEvents]

/-- An error returned before anything is edited fires nothing. -/
theorem early_error_outcome (st s1 : Shared GateConfig) (e : ConnectError)
    (h : s1 = st ∨ s1.steps = st.steps ++ [Step.lock, Step.unlock]) :
    EndsInPlace st (Except.error e) s1 := by
  refine Or.inl ⟨e, rfl, ?_⟩
  rcases h with h | h
  · rw [h]
  · rw [h]
    simp [firedEvents_append, firedEvents]

/-- An error returned with the state `s0`, which is the state before the call
or that state after the copy, fires nothing. -/
theorem early_error_of_eq (st s0 s1 : Shared GateConfig) (e : ConnectError)
    (r : Except ConnectError (List String))
    (h : some (Except.error e, s0) = some (r, s1))
    (hs : s0 = st ∨ s0.steps = st.steps ++ [Step.lock, Step.unlock]) :
    EndsInPlace st r s1 := by
  cases h
  exact early_error_outcome st s0 e hs

/-- The way in which a mutation ends after its loop over the mask paths. -/
theorem loop_outcome (rt : Runtime) (env : ConfigEnv GateConfig) (st s1 : Shared GateConfig)
    (r : Except ConnectError (List String))
    (res : Option ConnectError × (Shared GateConfig × GateConfig))
    (halias : res.2.1.cfg = res.2.2)
    (hsteps : res.2.1.steps = st.steps ++ [Step.lock, Step.unlock])
    (h : (match res with
      | (some err, edited) => some (Except.error err, edited.1)
      | (none, edited) => applyConfigUpdate rt env edited.2 edited.1) = some (r, s1)) :
    EndsInPlace st r s1 := by
  obtain ⟨lerr, edited⟩ := res
  cases lerr with
  | some err => exact early_error_of_eq st edited.1 s1 err r h (Or.inr hsteps)
  | none => exact mutation_outcome rt env st s1 edited r halias hsteps h

/-- How `UpdateLiteRouteStrategy` ends. -/
theorem updateStrategy_outcome (rt : Runtime) (u : Unicode) (env : ConfigEnv GateConfig)
    (lite : LiteEnv) (reqHost : String) (reqStrategy : Int) (st s1 : Shared GateConfig)
    (r : Except ConnectError (List String))
    (h : UpdateLiteRouteStrategy rt u env lite reqHost reqStrategy st = some (r, s1)) :
    EndsInPlace st r s1 := by
  unfold UpdateLiteRouteStrategy at h
  simp only at h
  split at h
  · exact early_error_of_eq st st s1 _ r h (Or.inl rfl)
  · split at h
    · exact early_error_of_eq st st s1 _ r h (Or.inl rfl)
    · cases hc : copyConfig st with
      | none => simp [hc] at h
      | some cs =>
          obtain ⟨c, s0⟩ := cs
          obtain ⟨h1, h2, _, h4⟩ := copyConfig_some st s0 c hc
          simp only [hc] at h
          split at h
          · exact early_error_of_eq st s0 s1 _ r h (Or.inr h4)
          · obtain ⟨a1, _, a3⟩ := assignRoute_aliased
              (findRouteIdxInConfig u c (stringsTrimSpace u reqHost)).toNat
              (fun r => { r with
                Strategy := stringsTrimSpace u (lite.strategyToString reqStrategy) })
              (s0, c) (h2.trans h1.symm)
            exact mutation_outcome rt env st s1 _ r a1 (a3.trans h4) h

/-- How `AddLiteRouteBackend` ends. -/
theorem addBackend_outcome (rt : Runtime) (u : Unicode) (env : ConfigEnv GateConfig)
    (reqHost reqBackend : String) (st s1 : Shared GateConfig)
    (r : Except ConnectError (List String))
    (h : AddLiteRouteBackend rt u env reqHost reqBackend st = some (r, s1)) :
    EndsInPlace st r s1 := by
  unfold AddLiteRouteBackend at h
  simp only at h
  split at h
  · exact early_error_of_eq st st s1 _ r h (Or.inl rfl)
  · cases hc : copyConfig st with
    | none => simp [hc] at h
    | some cs =>
        obtain ⟨c, s0⟩ := cs
        obtain ⟨h1, h2, _, h4⟩ := copyConfig_some st s0 c hc
        simp only [hc] at h
        split at h
        · exact early_error_of_eq st s0 s1 _ r h (Or.inr h4)
        · split at h
          · cases h
          · split at h
            · obtain ⟨a1, _, a3⟩ := assignRoute_aliased
                (findRouteIdxInConfig u c (stringsTrimSpace u reqHost)).toNat
                (fun r => { r with Backend := r.Backend ++ [stringsTrimSpace u reqBackend] })
                (s0, c) (h2.trans h1.symm)
              exact mutation_outcome rt env st s1 _ r a1 (a3.trans h4) h
            · exact mutation_outcome rt env st s1 (s0, c) r (h2.trans h1.symm) h4 h

/-- How `RemoveLiteRouteBackend` ends. -/
theorem removeBackend_outcome (rt : Runtime) (u : Unicode) (env : ConfigEnv GateConfig)
    (reqHost reqBackend : String) (st s1 : Shared GateConfig)
    (r : Except ConnectError (List String))
    (h : RemoveLiteRouteBackend rt u env reqHost reqBackend st = some (r, s1)) :
    EndsInPlace st r s1 := by
  unfold RemoveLiteRouteBackend at h
  simp only at h
  split at h
  · exact early_error_of_eq st st s1 _ r h (Or.inl rfl)
  · cases hc : copyConfig st with
    | none => simp [hc] at h
    | some cs =>
        obtain ⟨c, s0⟩ := cs
        obtain ⟨h1, h2, _, h4⟩ := copyConfig_some st s0 c hc
        simp only [hc] at h
        split at h
        · exact early_error_of_eq st s0 s1 _ r h (Or.inr h4)
        · obtain ⟨a1, _, a3⟩ := assignRoute_aliased
            (findRouteIdxInConfig u c (stringsTrimSpace u reqHost)).toNat
            (fun r => { r with
              Backend := filterBackends u (stringsTrimSpace u reqBackend) r.Backend })
            (s0, c) (h2.trans h1.symm)
          exact mutation_outcome rt env st s1 _ r a1 (a3.trans h4) h

/-- How `UpdateLiteRouteOptions` ends. -/
theorem updateOptions_outcome (rt : Runtime) (u : Unicode) (env : ConfigEnv GateConfig)
    (lite : LiteEnv) (reqHost : String) (reqOptions : Option LiteRouteOptions)
    (paths : List String) (st s1 : Shared GateConfig)
    (r : Except ConnectError (List String))
    (h : UpdateLiteRouteOptions rt u env lite reqHost reqOptions paths st = some (r, s1)) :
    EndsInPlace st r s1 := by
  unfold UpdateLiteRouteOptions at h
  cases reqOptions with
  | none => exact early_error_of_eq st st s1 _ r h (Or.inl rfl)
  | some opts =>
      simp only at h
      split at h
      · exact early_error_of_eq st st s1 _ r h (Or.inl rfl)
      · cases hc : copyConfig st with
        | none => simp [hc] at h
        | some cs =>
            obtain ⟨c, s0⟩ := cs
            obtain ⟨h1, h2, _, h4⟩ := copyConfig_some st s0 c hc
            simp only [hc] at h
            split at h
            · exact early_error_of_eq st s0 s1 _ r h (Or.inr h4)
            · obtain ⟨a1, _, a3⟩ := optionsLoop_aliased lite opts
                (findRouteIdxInConfig u c (stringsTrimSpace u reqHost)).toNat
                (if paths.length = 0 then allOptionPaths else paths)
                (s0, c) (h2.trans h1.symm)
              exact loop_outcome rt env st s1 r _ a1 (a3.trans h4) h

/-- How `UpdateLiteRouteFallback` ends. -/
theorem updateFallback_outcome (rt : Runtime) (u : Unicode) (env : ConfigEnv GateConfig)
    (lite : LiteEnv) (reqHost : String) (reqFallback : Option LiteRouteFallback)
    (paths : List String) (st s1 : Shared GateConfig)
    (r : Except ConnectError (List String))
    (h : UpdateLiteRouteFallback rt u env lite reqHost reqFallback paths st = some (r, s1)) :
    EndsInPlace st r s1 := by
  unfold UpdateLiteRouteFallback at h
  simp only at h
  split at h
  · exact early_error_of_eq st st s1 _ r h (Or.inl rfl)
  · cases hc : copyConfig st with
    | none => simp [hc] at h
    | some cs =>
        obtain ⟨c, s0⟩ := cs
        obtain ⟨h1, h2, _, h4⟩ := copyConfig_some st s0 c hc
        simp only [hc] at h
        split at h
        · exact early_error_of_eq st s0 s1 _ r h (Or.inr h4)
        · refine loop_outcome rt env st s1 r _ ?_ ?_ h
          · exact (fallbackLoop_aliased rt u lite reqFallback _ _ _
              (assignRoute_aliased _ _ (s0, c) (h2.trans h1.symm)).1).1
          · exact ((fallbackLoop_aliased rt u lite reqFallback _ _ _
              (assignRoute_aliased _ _ (s0, c) (h2.trans h1.symm)).1).2.2.trans
                (assignRoute_aliased _ _ (s0, c) (h2.trans h1.symm)).2.2).trans h4

/-- C27. The mutations are not transactional. For every call of the five
mutations that returns: after an error no event has been fired, as the claim
says; but after a success the previous value of the fired event is the new
configuration itself, not the configuration before the edit, because the
edit was made to the shared routes before the swap. And an error does not
leave the shared configuration as it was: removing the only backend of a
route is refused by a validator that wants a backend, and replacing the
MOTD by a text that does not parse is refused after the version was written,
yet afterwards the route of the shared configuration has lost its backend,
or gained a fallback. -/
theorem lite_mutation_edits_shared_config_in_place :
    (∀ (rt : Runtime) (u : Unicode) (env : ConfigEnv GateConfig) (lite : LiteEnv)
        (reqHost : String) (reqStrategy : Int) (st s1 : Shared GateConfig)
        (r : Except ConnectError (List String)),
        UpdateLiteRouteStrategy rt u env lite reqHost reqStrategy st = some (r, s1) →
        EndsInPlace st r s1) ∧
      (∀ (rt : Runtime) (u : Unicode) (env : ConfigEnv GateConfig)
        (reqHost reqBackend : String) (st s1 : Shared GateConfig)
        (r : Except ConnectError (List String)),
        AddLiteRouteBackend rt u env reqHost reqBackend st = some (r, s1) →
        EndsInPlace st r s1) ∧
      (∀ (rt : Runtime) (u : Unicode) (env : ConfigEnv GateConfig)
        (reqHost reqBackend : String) (st s1 : Shared GateConfig)
        (r : Except ConnectError (List String)),
        RemoveLiteRouteBackend rt u env reqHost reqBackend st = some (r, s1) →
        EndsInPlace st r s1) ∧
      (∀ (rt : Runtime) (u : Unicode) (env : ConfigEnv GateConfig) (lite : LiteEnv)
        (reqHost : String) (reqOptions : Option LiteRouteOptions) (paths : List String)
        (st s1 : Shared GateConfig) (r : Except ConnectError (List String)),
        UpdateLiteRouteOptions rt u env lite reqHost reqOptions paths st = some (r, s1) →
        EndsInPlace st r s1) ∧
      (∀ (rt : Runtime) (u : Unicode) (env : ConfigEnv GateConfig) (lite : LiteEnv)
        (reqHost : String) (reqFallback : Option LiteRouteFallback) (paths : List String)
        (st s1 : Shared GateConfig) (r : Except ConnectError (List String)),
        UpdateLiteRouteFallback rt u env lite reqHost reqFallback paths st = some (r, s1) →
        EndsInPlace st r s1) ∧
      RemoveLiteRouteBackend linux ascii routesEnv "build.example.com" "10.0.1.1:25565"
          liteShared =
        some (Except.error
            { code := Code.invalidArgument,
              err := GoError.leaf "config validation failed: lite route has no backend" },
          { cfg := { liteConfig with
                     Routes := [lobbyRoute, { buildRoute with Backend := [] }] },
            locked := false, steps := [Step.lock, Step.unlock] }) ∧
      UpdateLiteRouteFallback linux ascii routesEnv liteEnv "build.example.com"
          (some ⟨"not json", some ⟨"Gate", 763⟩, none, ""⟩) ["version", "motd_json"]
          liteShared =
        some (Except.error
            { code := Code.invalidArgument,
              err := GoError.wrap "invalid motd: invalid character"
                (GoError.leaf "invalid character") },
          { cfg := { liteConfig with
                     Routes := [lobbyRoute, { buildRoute with
                       Fallback := some ⟨none, ⟨"Gate", 763⟩, none, ""⟩ }] },
            locked := false, steps := [Step.lock, Step.unlock] }) ∧
      (UpdateLiteRouteStrategy linux ascii routesEnv liteEnv "mc.example.com" 1
            liteShared).map (fun r => (r.1, firedEvents r.2.steps)) =
        some (Except.ok [],
          [{ Config := { liteConfig with
                         Routes := [{ lobbyRoute with Strategy := "random" }, buildRoute] },
             PrevConfig := { liteConfig with
                         Routes := [{ lobbyRoute with Strategy := "random" }, buildRoute] } }]) ∧
      liteShared.cfg ≠ { liteConfig with
                         Routes := [{ lobbyRoute with Strategy := "random" }, buildRoute] } :=
  ⟨updateStrategy_outcome, addBackend_outcome, removeBackend_outcome, updateOptions_outcome,
    updateFallback_outcome, by decide, by decide, by decide, by decide⟩

/-! ## Publication under the mutex -/

/-- With nobody listening the locked section with publication is the locked
section of the handlers. -/
theorem swapAndPublish_nil {Cfg : Type} (E : EventTypeEnum) (env : ConfigEnv Cfg)
    (marshalJSON : String → Except GoError String) (now : Int) (st : Shared Cfg)
    (newCfg : Cfg) :
    swapAndPublish E env marshalJSON now [] st newCfg =
      (swapAndFire st newCfg).map (fun s => (s, [])) := by
  unfold swapAndPublish swapAndFire
  cases st.Lock with
  | none => rfl
  | some s1 => rfl

/-- An event whose listener takes the mutex, fired while the mutex is held,
is never delivered once a subscriber listens for it: the call that fires it
does not return. -/
theorem fireAll_held {Cfg : Type} (E : EventTypeEnum) (env : ConfigEnv Cfg)
    (marshalJSON : String → Except GoError String) (now : Int) (ev : ProxyFired Cfg)
    (hkind : ev.kind = EventKind.CONFIG_UPDATE ∨ ev.kind = EventKind.READY)
    (subs : List Subscriber) (st : Shared Cfg) (hheld : st.locked = true)
    (hsub : ∃ sub ∈ subs, ev.kind ∈ sub.subscriptions) :
    fireAll E env marshalJSON now ev st subs = none := by
  induction subs with
  | nil => simp at hsub
  | cons sub rest ih =>
      by_cases hk : ev.kind ∈ sub.subscriptions
      · simp [fireAll, Subscriber.deliver, hk,
          listener_waits E env marshalJSON now ev hkind st sub.eventChan hheld]
      · have hrest : ∃ x ∈ rest, ev.kind ∈ x.subscriptions := by
          obtain ⟨x, hx, hxk⟩ := hsub
          rcases List.mem_cons.1 hx with rfl | hx
          · exact absurd hxk hk
          · exact ⟨x, hx, hxk⟩
        simp [fireAll, Subscriber.deliver, hk, ih hrest]

/-- The locked section of the handlers, entered with the mutex free, does not
return once a subscriber listens for the configuration update. -/
theorem swapAndPublish_blocks {Cfg : Type} (E : EventTypeEnum) (env : ConfigEnv Cfg)
    (marshalJSON : String → Except GoError String) (now : Int) (subs : List Subscriber)
    (st : Shared Cfg) (newCfg : Cfg) (hfree : st.locked = false)
    (hsub : ∃ sub ∈ subs, EventKind.CONFIG_UPDATE ∈ sub.subscriptions) :
    swapAndPublish E env marshalJSON now subs st newCfg = none := by
  have h := fireAll_held E env marshalJSON now
    (ProxyFired.ConfigUpdateEvent ⟨newCfg, st.cfg⟩) (Or.inl rfl) subs
    (FireConfigUpdate
      (({ cfg := st.cfg, locked := true, steps := st.steps ++ [Step.lock] } :
        Shared Cfg).store newCfg) newCfg st.cfg) rfl hsub
  simp only [swapAndPublish, Shared.Lock, hfree, Bool.false_eq_true, if_false,
    publishConfigUpdate]
  simp only [Shared.store] at h ⊢
  rw [h]

/-- The order of the spec, entered with the mutex free, returns and offers the
event to every subscriber that listens for the configuration update. -/
theorem swapThenPublish_delivers {Cfg : Type} (E : EventTypeEnum) (env : ConfigEnv Cfg)
    (marshalJSON : String → Except GoError String) (now : Int) (st : Shared Cfg)
    (newCfg : Cfg) (hfree : st.locked = false) :
    ∃ e : ProxyEvent, ∀ subs : List Subscriber,
      ∃ st1, swapThenPublish E env marshalJSON now subs st newCfg =
          some (st1, subs.map (fun sub =>
            if EventKind.CONFIG_UPDATE ∈ sub.subscriptions then
              { sub with eventChan := sub.eventChan.offer e }
            else sub)) ∧
        st1.cfg = newCfg ∧ st1.locked = false := by
  obtain ⟨e, he⟩ := fireAll_free E env marshalJSON now
    (ProxyFired.ConfigUpdateEvent ⟨newCfg, st.cfg⟩) newCfg
  refine ⟨e, fun subs => ?_⟩
  obtain ⟨st1, h1, h2, h3⟩ := he subs
    (FireConfigUpdate
      (({ cfg := st.cfg, locked := true, steps := st.steps ++ [Step.lock] } :
        Shared Cfg).store newCfg).Unlock newCfg st.cfg) rfl rfl
  refine ⟨st1, ?_, h2, h3⟩
  simp only [swapThenPublish, Shared.Lock, hfree, Bool.false_eq_true, if_false,
    publishConfigUpdate]
  simp only [Shared.store, Shared.Unlock, ProxyFired.kind] at h1 ⊢
  exact h1

/-- C20. The code publishes the config-update event while it holds the
configuration mutex: in both apply paths the call of `FireConfigUpdate`
stands between the lock and the unlock, and is recorded with the mutex held.
With the listeners run on the emitting task, as the spec has the event stream
emit, an apply that found the mutex free does not return once a subscriber
of the event stream listens for config-update, because the listener takes the
mutex that the publisher holds. The order of the claim, unlock and then
publish, returns and offers the event to every such subscriber. -/
theorem apply_publishes_while_holding_mutex :
    (∀ (Cfg : Type) (st : Shared Cfg) (newCfg : Cfg), st.locked = false →
        swapAndFire st newCfg =
          some { cfg := newCfg, locked := false,
                 steps := st.steps ++ [Step.lock, Step.store newCfg,
                   Step.fire ⟨newCfg, st.cfg⟩ true, Step.unlock] }) ∧
      (∀ (Cfg : Type) (rt : Runtime) (E : EventTypeEnum) (env : ConfigEnv Cfg)
          (marshalJSON : String → Except GoError String) (now : Int)
          (path text : String) (persist : Bool) (st : Shared Cfg),
        ApplyConfigStreamed rt E env marshalJSON now [] path text persist st =
          (ApplyConfig rt env path text persist st).map (fun r => (r.1, r.2, []))) ∧
      (∀ (Cfg : Type) (rt : Runtime) (E : EventTypeEnum) (env : ConfigEnv Cfg)
          (marshalJSON : String → Except GoError String) (now : Int)
          (newCfg : Cfg) (st : Shared Cfg),
        applyConfigUpdateStreamed rt E env marshalJSON now [] newCfg st =
          (applyConfigUpdate rt env newCfg st).map (fun r => (r.1, r.2, []))) ∧
      (∀ (Cfg : Type) (rt : Runtime) (E : EventTypeEnum) (env : ConfigEnv Cfg)
          (marshalJSON : String → Except GoError String) (now : Int)
          (subs : List Subscriber) (path text : String) (persist : Bool)
          (st : Shared Cfg) (newCfg : Cfg),
        env.unmarshal text = Except.ok newCfg → (env.validate newCfg).2 = [] →
        st.locked = false →
        (∃ sub ∈ subs, EventKind.CONFIG_UPDATE ∈ sub.subscriptions) →
        ApplyConfigStreamed rt E env marshalJSON now subs path text persist st = none) ∧
      (∀ (Cfg : Type) (rt : Runtime) (E : EventTypeEnum) (env : ConfigEnv Cfg)
          (marshalJSON : String → Except GoError String) (now : Int)
          (subs : List Subscriber) (newCfg : Cfg) (st : Shared Cfg),
        (env.validate newCfg).2 = [] → st.locked = false →
        (∃ sub ∈ subs, EventKind.CONFIG_UPDATE ∈ sub.subscriptions) →
        applyConfigUpdateStreamed rt E env marshalJSON now subs newCfg st = none) ∧
      (∀ (Cfg : Type) (E : EventTypeEnum) (env : ConfigEnv Cfg)
          (marshalJSON : String → Except GoError String) (now : Int)
          (st : Shared Cfg) (newCfg : Cfg), st.locked = false →
        ∃ e : ProxyEvent, ∀ subs : List Subscriber,
          ∃ st1, swapThenPublish E env marshalJSON now subs st newCfg =
              some (st1, subs.map (fun sub =>
                if EventKind.CONFIG_UPDATE ∈ sub.subscriptions then
                  { sub with eventChan := sub.eventChan.offer e }
                else sub)) ∧
            st1.cfg = newCfg ∧ st1.locked = false) ∧
      ApplyConfigStreamed linux protoEnum textEnv quoteJSON 17
          [StreamEvents protoEnum [] false false] "/etc/gate/config.yml" "lite: true" false
          idleShared = none ∧
      applyConfigUpdateStreamed linux protoEnum routesEnv quoteJSON 17
          [StreamEvents protoEnum [] false false]
          { liteConfig with Routes := [lobbyRoute] } liteShared = none ∧
      swapThenPublish protoEnum textEnv quoteJSON 17 [StreamEvents protoEnum [] false false]
          idleShared "lite: true" =
        some ({ cfg := "lite: true", locked := false,
                steps := [Step.lock, Step.store "lite: true", Step.unlock,
                  Step.fire ⟨"lite: true", "bind: here"⟩ false, Step.lock, Step.unlock] },
          [{ subscriptions := (StreamEvents protoEnum [] false false).subscriptions,
             eventChan :=
               { cap := 100,
                 buf := [⟨4, 17, EventData.ConfigUpdate
                   { ConfigSource := "api", LiteModeEnabled := true, RouteCount := 0 }⟩] } }]) := by
  refine ⟨fun Cfg st newCfg hfree => swapAndFire_free st newCfg hfree, ?_, ?_, ?_, ?_,
    fun Cfg E env marshalJSON now st newCfg hfree =>
      swapThenPublish_delivers E env marshalJSON now st newCfg hfree,
    by decide, by decide, by decide⟩
  · intro Cfg rt E env marshalJSON now path text persist st
    unfold ApplyConfigStreamed ApplyConfig
    cases env.unmarshal text with
    | error err => rfl
    | ok newCfg =>
        simp only [swapAndPublish_nil]
        split
        · rfl
        · cases swapAndFire st newCfg with
          | none => rfl
          | some s1 =>
              simp only [Option.map_some']
              cases persist with
              | false => rfl
              | true =>
                  simp only [if_true]
                  cases hp : persistConfig rt env path newCfg s1 with
                  | mk perr s2 => cases perr <;> rfl
  · intro Cfg rt E env marshalJSON now newCfg st
    unfold applyConfigUpdateStreamed applyConfigUpdate
    simp only [swapAndPublish_nil]
    split
    · rfl
    · cases swapAndFire st newCfg <;> rfl
  · intro Cfg rt E env marshalJSON now subs path text persist st newCfg hparse hvalid hfree hsub
    simp [ApplyConfigStreamed, hparse, hvalid,
      swapAndPublish_blocks E env marshalJSON now subs st newCfg hfree hsub]
  · intro Cfg rt E env marshalJSON now subs newCfg st hvalid hfree hsub
    simp [applyConfigUpdateStreamed, hvalid,
      swapAndPublish_blocks E env marshalJSON now subs st newCfg hfree hsub]

end Gate
